import Mathlib

/-!
# GeekOS kernel core: user memory, argument blocks, system calls, semaphores,
# mutexes, the scheduler and the timer, the ELF parser and the program loader,
# thread-local keys and the console

A shallow embedding of parts of the GeekOS kernel (project 3 tree) together with
theorems about them.

Conventions of the embedding:

* `ulong_t`, `uint_t` and `int` are 32 bits wide on the i386 target.  Unsigned
  values are natural numbers below `2 ^ 32`; where the C code can wrap, the
  model reduces modulo `2 ^ 32` explicitly.  Signed values are integers, and
  `toInt32` is the reinterpretation of a 32-bit pattern as an `int`.
* A byte is a natural number; a kernel or user buffer is a `List Nat`; a pointer
  into a buffer is an offset into the list.  Reading past the end of a list
  yields `0` and writing past the end is a no-op: the theorems carry the
  hypotheses under which no such access happens.
* A C string passed as `const char *` is a list of bytes followed by an
  implicit terminating NUL: reading at the end of the list yields `0`.
* A thread is identified by a natural number (its `struct Kernel_Thread *`).
* A failed `KASSERT` stops the kernel (it prints the assertion and spins);
  functions that contain one return an `Option`, `none` standing for that stop.
  The diagnostic `Print` calls of the kernel are not part of the model.
* Where the C code indexes an array past its end or copies past the end of a
  buffer, and a theorem is about exactly that, the function has a result type
  with an outcome of its own for the access (`ParseResult`, `LoadResult`,
  `ConsoleResult`).
-/

namespace GeekOS

/-! ## Machine words -/

/-- Number of distinct values of a 32-bit word. -/
def WORD : Nat := 2 ^ 32

/-- Reinterpretation of a 32-bit pattern as a signed `int`. -/
def toInt32 (x : Nat) : Int :=
  if x % WORD < 2 ^ 31 then (x % WORD : Nat) else ((x % WORD : Nat) : Int) - (WORD : Nat)

/-- Reinterpretation of an `int` as the 32-bit pattern stored in a register. -/
def toUInt32 (x : Int) : Nat :=
  (x % (WORD : Nat)).toNat

/-! ## `src/common/string.c` -/

/-- The loop of `memcpy(dst + d, src + s, n)`: `*d++ = *s++` repeated `n` times,
for two distinct buffers. -/
def memcpy (dst : List Nat) (d : Nat) (src : List Nat) (s : Nat) : Nat → List Nat
  | 0 => dst
  | n + 1 => memcpy (dst.set d (src.getD s 0)) (d + 1) src (s + 1) n

/-! ## `src/geekos/userseg.c`: copying across the user/kernel boundary -/

/-- The fields of `struct User_Context` (`include/geekos/user.h`) that the
copy routines and the loader use. -/
structure User_Context where
  memory : List Nat
  size : Nat
  entryAddr : Nat
  argBlockAddr : Nat
  stackPointerAddr : Nat
  refCount : Int
deriving DecidableEq, Repr

/-- `Validate_User_Memory`: is `[userAddr, userAddr + bufSize)` inside the
context?  The subtraction is the `ulong_t` one. -/
def Validate_User_Memory (userContext : User_Context) (userAddr bufSize : Nat) : Bool :=
  if userAddr ≥ userContext.size then false
  else
    let avail := (userContext.size + WORD - userAddr) % WORD
    if bufSize > avail then false
    else true

/-- `Copy_From_User`: returns the success flag and the kernel buffer afterwards.
The user context is the one of the current thread. -/
def Copy_From_User (userContext : User_Context) (destInKernel : List Nat)
    (srcInUser bufSize : Nat) : Bool × List Nat :=
  if !Validate_User_Memory userContext srcInUser bufSize then (false, destInKernel)
  else (true, memcpy destInKernel 0 userContext.memory srcInUser bufSize)

/-- `Copy_To_User`: returns the success flag and the user context afterwards. -/
def Copy_To_User (userContext : User_Context) (destInUser : Nat) (srcInKernel : List Nat)
    (bufSize : Nat) : Bool × User_Context :=
  if !Validate_User_Memory userContext destInUser bufSize then (false, userContext)
  else (true, { userContext with
                  memory := memcpy userContext.memory destInUser srcInKernel 0 bufSize })

/-! ## `src/geekos/argblock.c`: the argument block -/

/-- `Is_Space`: space, tab, line feed or carriage return. -/
def Is_Space (c : Nat) : Bool :=
  c == 32 || c == 9 || c == 10 || c == 13

/-- `Skip_Whitespace`: the pointer is the remaining string; at the end of the
list the byte read is the terminating NUL, which is not a space. -/
def Skip_Whitespace : List Nat → List Nat
  | [] => []
  | c :: s => if Is_Space c then Skip_Whitespace s else c :: s

/-- The loop condition of `Get_Argument_Len`: `*s != 0 && !Is_Space(*s)`. -/
def argChar (c : Nat) : Bool :=
  c != 0 && !Is_Space c

/-- The `while` loop of `Get_Argument_Len`, with the `unsigned len` counter as
accumulator. -/
def Get_Argument_Len_loop : List Nat → Nat → Nat
  | [], len => len
  | c :: s, len =>
    if argChar c then Get_Argument_Len_loop s ((len + 1) % WORD) else len

/-- `Get_Argument_Len`: length of the first argument token. -/
def Get_Argument_Len (arg : List Nat) : Nat :=
  Get_Argument_Len_loop arg 0

/-- The `for (;;)` loop of `Get_Argument_Block_Size`, with `size` and `argCount`
as accumulators; the statements that follow the loop (`size += sizeof(char *)`
and the two stores through `numArgs` and `argBlockSize`) are in the exit branch.
Every iteration but the last consumes a token; `fuel` bounds the number of
iterations and `none` is returned when it runs out. -/
def Get_Argument_Block_Size_loop : Nat → List Nat → Nat → Nat → Option (Nat × Nat)
  | 0, _, _, _ => none
  | fuel + 1, s, size, argCount =>
    let s := Skip_Whitespace s
    if s.headD 0 == 0 then
      some (argCount, (size + 4) % WORD)
    else
      let len := Get_Argument_Len s
      Get_Argument_Block_Size_loop fuel (s.drop len)
        ((((size + 4) % WORD) + (len + 1) % WORD) % WORD) ((argCount + 1) % WORD)

/-- `Get_Argument_Block_Size`: returns `(numArgs, argBlockSize)`.  The size
starts with `sizeof(int) + sizeof(char **) = 8`. -/
def Get_Argument_Block_Size (command : List Nat) : Option (Nat × Nat) :=
  Get_Argument_Block_Size_loop (command.length + 1) command 8 0

/-- Store of a 32-bit word at byte offset `off` (little endian, as on i386). -/
def write32 (buf : List Nat) (off v : Nat) : List Nat :=
  (((buf.set off (v % 256)).set (off + 1) (v / 256 % 256)).set (off + 2)
    (v / 65536 % 256)).set (off + 3) (v / 16777216 % 256)

/-- Load of a 32-bit word at byte offset `off` (little endian). -/
def read32 (buf : List Nat) (off : Nat) : Nat :=
  buf.getD off 0 + 256 * buf.getD (off + 1) 0 + 65536 * buf.getD (off + 2) 0
    + 16777216 * buf.getD (off + 3) 0

/-- The `for (;;)` loop of `Format_Argument_Block`: `argv` and `dst` are byte
offsets into `argBlock`; the store `*argv++ = 0` that follows the loop is in the
exit branch.  `none` is returned when `fuel` runs out. -/
def Format_Argument_Block_loop : Nat → List Nat → Nat → Nat → Nat → List Nat →
    Option (List Nat)
  | 0, _, _, _, _, _ => none
  | fuel + 1, s, userAddress, argv, dst, argBlock =>
    let s := Skip_Whitespace s
    if s.headD 0 == 0 then
      some (write32 argBlock argv 0)
    else
      let argBlock := write32 argBlock argv ((userAddress + dst) % WORD)
      let len := Get_Argument_Len s
      let argBlock := memcpy argBlock dst s 0 len
      let dst := dst + len
      let argBlock := argBlock.set dst 0
      let dst := dst + 1
      Format_Argument_Block_loop fuel (s.drop len) userAddress (argv + 4) dst argBlock

/-- `Format_Argument_Block`: returns the kernel buffer `argBlock` after the
call.  `sizeof(struct Argument_Block) = 8` and `sizeof(char *) = 4`. -/
def Format_Argument_Block (argBlock : List Nat) (numArgs userAddress : Nat)
    (command : List Nat) : Option (List Nat) :=
  let argBlock := write32 argBlock 0 numArgs
  let dst := 4
  let argBlock := write32 argBlock dst ((userAddress + 8) % WORD)
  let dst := dst + 4
  let argv := dst
  let dst := dst + ((numArgs + 1) * 4) % WORD
  Format_Argument_Block_loop (command.length + 1) command userAddress argv dst argBlock

/-! ### What the specification says about the argument block -/

/-- The characters of a NUL-terminated string: everything before the first NUL. -/
def cstring (s : List Nat) : List Nat :=
  s.takeWhile (fun c => c != 0)

/-- Whitespace-separated fields of a string: split at every space, tab, CR and
LF and keep the non-empty pieces, that is, the maximal runs of characters
outside that set, in order. -/
def fields (z : List Nat) : List (List Nat) :=
  (z.splitOnP Is_Space).filter (fun t => !t.isEmpty)

/-- Whitespace splitting of a NUL-terminated command string. -/
def tokens (command : List Nat) : List (List Nat) :=
  fields (cstring command)

/-- Offset of the `i`-th string inside the string area of an argument block:
the earlier tokens with their terminators. -/
def strOff (ts : List (List Nat)) (i : Nat) : Nat :=
  ((ts.take i).map (fun t => t.length + 1)).sum

/-- Size of the argument block of a command, as an unbounded number: the header,
`argc + 1` pointers and every token with its terminator. -/
def argBlockBytes (command : List Nat) : Nat :=
  8 + 4 * ((tokens command).length + 1) + strOff (tokens command) (tokens command).length

/-- The NUL-terminated string found at byte offset `off` of a buffer. -/
def cstringAt (buf : List Nat) (off : Nat) : List Nat :=
  cstring (buf.drop off)

/-- Error code: out of memory. -/
def ENOMEM : Int := -7

/-- Error code: invalid argument. -/
def EINVALID : Int := -12

/-! ## `src/geekos/trap.c` and the system call table of `src/geekos/syscall.c` -/

/-- `struct Interrupt_State` (`include/geekos/int.h`): every field is a `uint_t`. -/
structure Interrupt_State where
  gs : Nat
  fs : Nat
  es : Nat
  ds : Nat
  ebp : Nat
  edi : Nat
  esi : Nat
  edx : Nat
  ecx : Nat
  ebx : Nat
  eax : Nat
  intNum : Nat
  errorCode : Nat
  eip : Nat
  cs : Nat
  eflags : Nat
deriving DecidableEq, Repr

/-- The handler functions that `g_syscallTable` names. -/
inductive Syscall where
  | Sys_Null
  | Sys_Exit
  | Sys_PrintString
  | Sys_GetKey
  | Sys_SetAttr
  | Sys_GetCursor
  | Sys_PutCursor
  | Sys_Spawn
  | Sys_Wait
  | Sys_GetPID
  | Sys_SetSchedulingPolicy
  | Sys_GetTimeOfDay
  | Sys_CreateSemaphore
  | Sys_P
  | Sys_V
  | Sys_DestroySemaphore
deriving DecidableEq, Repr

/-- `g_syscallTable`, in the order of the initialiser. -/
def g_syscallTable : List Syscall :=
  [ Syscall.Sys_Null,
    Syscall.Sys_Exit,
    Syscall.Sys_PrintString,
    Syscall.Sys_GetKey,
    Syscall.Sys_SetAttr,
    Syscall.Sys_GetCursor,
    Syscall.Sys_PutCursor,
    Syscall.Sys_Spawn,
    Syscall.Sys_Wait,
    Syscall.Sys_GetPID,
    Syscall.Sys_SetSchedulingPolicy,
    Syscall.Sys_GetTimeOfDay,
    Syscall.Sys_CreateSemaphore,
    Syscall.Sys_P,
    Syscall.Sys_V,
    Syscall.Sys_DestroySemaphore ]

/-- `g_numSyscalls = sizeof(g_syscallTable) / sizeof(Syscall)`. -/
def g_numSyscalls : Nat :=
  g_syscallTable.length

/-- What calling a handler does, for a kernel state of type `K`: it returns an
`int`, possibly after changing the frame it was given and the kernel state, or
it never returns because the thread exits (`Exit` is `noreturn`). -/
inductive HandlerResult (K : Type) where
  | returns (value : Int) (state : Interrupt_State) (kernel : K)
  | exits (exitCode : Int) (kernel : K)

/-- Outcome of `Syscall_Handler`: the frame it returns with, or the exit code the
current thread was terminated with; `called` lists the handlers invoked. -/
inductive TrapResult (K : Type) where
  | returned (state : Interrupt_State) (kernel : K) (called : List Syscall)
  | exited (exitCode : Int) (kernel : K) (called : List Syscall)

/-- `Syscall_Handler`.  `run` gives the behaviour of each handler.  The number is
a `uint_t`, so `syscallNum < 0` never holds and `g_numSyscalls` is compared as
an unsigned value. -/
def Syscall_Handler {K : Type} (run : Syscall → Interrupt_State → K → HandlerResult K)
    (state : Interrupt_State) (kernel : K) : TrapResult K :=
  let syscallNum := state.eax
  if h : syscallNum < 0 ∨ syscallNum ≥ g_numSyscalls then
    TrapResult.exited (-1) kernel []
  else
    let handler := g_syscallTable.get ⟨syscallNum, Nat.lt_of_not_ge (fun hge => h (Or.inr hge))⟩
    match run handler state kernel with
    | HandlerResult.returns value state1 kernel1 =>
      TrapResult.returned { state1 with eax := toUInt32 value } kernel1 [handler]
    | HandlerResult.exits exitCode kernel1 =>
      TrapResult.exited exitCode kernel1 [handler]

/-! ## `src/geekos/syscall.c`: `Copy_User_String` and `Sys_PrintString` -/

/-- `Copy_User_String`: returns the result code and the string stored through
`pStr` (if any).  `mallocOk` tells whether `Malloc(len + 1)` succeeds; every byte
of the fresh buffer is written before it is handed out. -/
def Copy_User_String (userContext : User_Context) (mallocOk : Bool)
    (uaddr len maxLen : Nat) : Int × Option (List Nat) :=
  if len > maxLen then (EINVALID, none)
  else if !mallocOk then (ENOMEM, none)
  else
    let str := List.replicate ((len + 1) % WORD) 0
    match Copy_From_User userContext str uaddr len with
    | (false, _) => (EINVALID, none)
    | (true, str1) => (0, some (str1.set len 0))

/-- `Sys_PrintString`: returns the value handed back to the user and the bytes
sent to the console (`Put_Buf` appends to `console`). -/
def Sys_PrintString (userContext : User_Context) (mallocOk : Bool)
    (state : Interrupt_State) (console : List Nat) : Int × List Nat :=
  let result : Int := 0
  let length := state.ecx
  if length > 0 then
    match Copy_User_String userContext mallocOk state.ebx length 1023 with
    | (rc, buf) =>
      if rc != 0 then (result, console)
      else (result, console ++ (buf.getD []).take length)
  else (result, console)

/-! ## More of `src/common/string.c` -/

/-- Value of a byte read through a `char *` (`char` is signed on i386). -/
def charVal (b : Nat) : Int :=
  if b % 256 < 128 then (b % 256 : Nat) else ((b % 256 : Nat) : Int) - 256

/-- `strnlen`. -/
def strnlen : List Nat → Nat → Nat
  | _, 0 => 0
  | s, maxlen + 1 => if s.headD 0 != 0 then strnlen s.tail maxlen + 1 else 0

/-- `strncmp`. -/
def strncmp : List Nat → List Nat → Nat → Int
  | _, _, 0 => 0
  | s1, s2, limit + 1 =>
    let cmp := charVal (s1.headD 0) - charVal (s2.headD 0)
    if cmp != 0 || s1.headD 0 == 0 || s2.headD 0 == 0 then cmp
    else strncmp s1.tail s2.tail limit

/-- `strncpy(dest + d, src, limit)`: returns `dest` afterwards. -/
def strncpy (dest : List Nat) (d : Nat) (src : List Nat) : Nat → List Nat
  | 0 => dest
  | limit + 1 =>
    if src.headD 0 != 0 then strncpy (dest.set d (src.headD 0)) (d + 1) src.tail limit
    else dest.set d 0

/-! ## Thread queues (`include/geekos/list.h`, `src/geekos/kthread.c`) -/

/-- The loop of `Find_Best`, with `best` as accumulator. -/
def Find_Best_loop (priority : Nat → Int) : List Nat → Option Nat → Option Nat
  | [], best => best
  | kthread :: rest, none => Find_Best_loop priority rest (some kthread)
  | kthread :: rest, some best =>
    if priority kthread > priority best then Find_Best_loop priority rest (some kthread)
    else Find_Best_loop priority rest (some best)

/-- `Find_Best`: the highest priority thread of a queue, none if it is empty. -/
def Find_Best (priority : Nat → Int) (queue : List Nat) : Option Nat :=
  Find_Best_loop priority queue none

/-! ## `src/geekos/synch.c`: named semaphores -/

/-- `MAX_REGISTERED_THREADS` -/
def MAX_REGISTERED_THREADS : Nat := 60

/-- `MAX_SEMAPHORE_NAME` -/
def MAX_SEMAPHORE_NAME : Nat := 25

/-- `struct Semaphore`.  `semaphoreName` is the array of 26 bytes,
`registeredThreads` the array of 60 thread pointers (`none` is the null
pointer) and `waitingThreads` the wait queue in order. -/
structure Semaphore where
  semaphoreID : Int
  semaphoreName : List Nat
  value : Int
  registeredThreadCount : Int
  registeredThreads : List (Option Nat)
  waitingThreads : List Nat
deriving DecidableEq, Repr

/-- The globals of `synch.c`: the semaphore list in order and `g_curSID`. -/
structure SemState where
  g_semList : List Semaphore
  g_curSID : Int
deriving DecidableEq, Repr

/-- The list walk of `isSemExistByName`: position of the first semaphore whose
name compares equal over `nameLen` characters. -/
def isSemExistByName_loop (nameSem : List Nat) (nameLen : Nat) : List Semaphore → Option Nat
  | [] => none
  | sem :: rest =>
    if strncmp sem.semaphoreName nameSem nameLen == 0 then some 0
    else (isSemExistByName_loop nameSem nameLen rest).map (fun i => i + 1)

/-- `isSemExistByName`: the semaphore found is given by its position in the list. -/
def isSemExistByName (st : SemState) (nameSem : List Nat) (nameLen : Nat) : Option Nat :=
  if st.g_curSID == 0 then none
  else isSemExistByName_loop nameSem nameLen st.g_semList

/-- `isSemExistBySID`: position of the first semaphore with the given id. -/
def isSemExistBySID : List Semaphore → Int → Option Nat
  | [], _ => none
  | sem :: rest, sid =>
    if sem.semaphoreID == sid then some 0
    else (isSemExistBySID rest sid).map (fun i => i + 1)

/-- The `for` loop of `getIndexInRegThreadList`: `n` iterations remain, `i` is
the loop variable. -/
def getIndexInRegThreadList_loop (cur : Nat) (regs : List (Option Nat)) : Nat → Nat → Nat
  | 0, i => i
  | n + 1, i =>
    if regs.getD i none == some cur then i
    else getIndexInRegThreadList_loop cur regs n (i + 1)

/-- `getIndexInRegThreadList`, for current thread `cur`.  The reads
`registeredThreads[i]` are exact while `registeredThreadCount` is at most 60,
the size of the array.  With a larger count the C loop reads on behind the
array, where `struct Semaphore` holds `waitingThreads.head`; the list model
reads a null pointer there, so theorems about a lookup carry that bound. -/
def getIndexInRegThreadList (cur : Nat) (sem : Semaphore) : Int :=
  let i := getIndexInRegThreadList_loop cur sem.registeredThreads
    sem.registeredThreadCount.toNat 0
  if (i : Int) != sem.registeredThreadCount then i else -1

/-- `Create_Semaphore`, called by thread `cur`.  The result is `none` when a
`KASSERT` fails (the kernel prints the assertion and spins forever).
`mallocOk` tells whether `Malloc(sizeof(struct Semaphore))` succeeds.  The
store `registeredThreads[registeredThreadCount] = g_currentThread` is exact for
counts below 60; at 60 the C code writes past the array, into
`waitingThreads.head`, and the model leaves the wait queue as it was: only the
count is exact from there on. -/
def Create_Semaphore (cur : Nat) (mallocOk : Bool) (semName : List Nat) (nameLen : Int)
    (initCount : Int) (st : SemState) : Option (Int × SemState) :=
  if ¬ (nameLen > 0 ∧ nameLen ≤ MAX_SEMAPHORE_NAME) then none
  else if ¬ (initCount ≥ 0) then none
  else if ¬ ((strnlen semName MAX_SEMAPHORE_NAME : Int) = nameLen) then none
  else
    let st := if st.g_curSID == 0 then { st with g_semList := [] } else st
    match isSemExistByName st semName nameLen.toNat with
    | none =>
      if !mallocOk then some (ENOMEM, st)
      else
        let g_curSID := st.g_curSID + 1
        let sem : Semaphore :=
          { semaphoreID := g_curSID
            semaphoreName := strncpy (List.replicate (MAX_SEMAPHORE_NAME + 1) 0) 0 semName
              MAX_SEMAPHORE_NAME
            value := initCount
            registeredThreadCount := 0
            registeredThreads := List.replicate MAX_REGISTERED_THREADS none
            waitingThreads := [] }
        let sem := { sem with
          registeredThreads := sem.registeredThreads.set sem.registeredThreadCount.toNat (some cur),
          registeredThreadCount := sem.registeredThreadCount + 1 }
        some (sem.semaphoreID, { g_semList := st.g_semList ++ [sem], g_curSID := g_curSID })
    | some idx =>
      match st.g_semList.get? idx with
      | none => none
      | some sem =>
        let sem := { sem with
          registeredThreads := sem.registeredThreads.set sem.registeredThreadCount.toNat (some cur),
          registeredThreadCount := sem.registeredThreadCount + 1 }
        some (sem.semaphoreID, { st with g_semList := st.g_semList.set idx sem })

/-- How a call of `P` proceeds up to its first suspension point: it returns, or
the caller is put on the wait queue of the semaphore at position `sem` by
`Wait` and another thread is scheduled. -/
inductive PEntry where
  | returned (rc : Int) (st : SemState)
  | blocked (sem : Nat) (st : SemState)
deriving DecidableEq, Repr

/-- `P` up to the call of `Wait`, for current thread `cur`; `none` when a
`KASSERT` fails (`sid > 0`, or the membership check of `Enqueue_Thread`). -/
def P_begin (cur : Nat) (sid : Int) (st : SemState) : Option PEntry :=
  if ¬ (sid > 0) then none
  else
    match isSemExistBySID st.g_semList sid with
    | none => some (PEntry.returned (-1) st)
    | some idx =>
      match st.g_semList.get? idx with
      | none => none
      | some sem =>
        let threadIndex := getIndexInRegThreadList cur sem
        if threadIndex == -1 then some (PEntry.returned (-1) st)
        else if sem.value == 0 then
          if cur ∈ sem.waitingThreads then none
          else
            let sem := { sem with waitingThreads := sem.waitingThreads ++ [cur] }
            some (PEntry.blocked idx { st with g_semList := st.g_semList.set idx sem })
        else
          let sem := { sem with value := sem.value - 1 }
          some (PEntry.returned 0 { st with g_semList := st.g_semList.set idx sem })

/-- `P` after `Wait` has returned in the woken thread: `sem->value--; return 0;`
on the semaphore the thread found before it was suspended (at position `sem`,
which is still the same object as long as no semaphore was freed meanwhile). -/
def P_resume (sem : Nat) (st : SemState) : Int × SemState :=
  (0, { st with g_semList := st.g_semList.modify (fun s => { s with value := s.value - 1 }) sem })

/-- `V`, for current thread `cur`: returns the result code, the state and the
thread handed to `Make_Runnable` by `Wake_Up_One`, if any; `none` when the
`KASSERT` fails. -/
def V (priority : Nat → Int) (cur : Nat) (sid : Int) (st : SemState) :
    Option (Int × SemState × Option Nat) :=
  if ¬ (sid > 0) then none
  else
    match isSemExistBySID st.g_semList sid with
    | none => some (-1, st, none)
    | some idx =>
      match st.g_semList.get? idx with
      | none => none
      | some sem =>
        let threadIndex := getIndexInRegThreadList cur sem
        if threadIndex == -1 then some (-1, st, none)
        else
          let sem := { sem with value := sem.value + 1 }
          if sem.value == 1 then
            match Find_Best priority sem.waitingThreads with
            | none => some (0, { st with g_semList := st.g_semList.set idx sem }, none)
            | some best =>
              let sem := { sem with waitingThreads := sem.waitingThreads.erase best }
              some (0, { st with g_semList := st.g_semList.set idx sem }, some best)
          else some (0, { st with g_semList := st.g_semList.set idx sem }, none)

/-- The shifting loop of `Destroy_Semaphore`:
`for (i = threadIndex; i < count; i++) regs[i] = regs[i + 1]`, with `n`
iterations remaining. -/
def Destroy_Semaphore_shift (regs : List (Option Nat)) : Nat → Nat → List (Option Nat)
  | 0, _ => regs
  | n + 1, i => Destroy_Semaphore_shift (regs.set i (regs.getD (i + 1) none)) n (i + 1)

/-- `Destroy_Semaphore`, for current thread `cur`: returns the result code, the
state and the threads handed to `Make_Runnable` by `Wake_Up`; `none` when the
`KASSERT` fails. -/
def Destroy_Semaphore (cur : Nat) (sid : Int) (st : SemState) :
    Option (Int × SemState × List Nat) :=
  if ¬ (sid > 0) then none
  else
    match isSemExistBySID st.g_semList sid with
    | none => some (-1, st, [])
    | some idx =>
      match st.g_semList.get? idx with
      | none => none
      | some sem =>
        let threadIndex := getIndexInRegThreadList cur sem
        if threadIndex == -1 then some (-1, st, [])
        else
          let count := sem.registeredThreadCount - 1
          let regs := Destroy_Semaphore_shift sem.registeredThreads
            (count - threadIndex).toNat threadIndex.toNat
          let regs := regs.set count.toNat none
          let sem := { sem with registeredThreadCount := count, registeredThreads := regs }
          if sem.registeredThreadCount == 0 then
            some (0, { g_semList := st.g_semList.eraseIdx idx, g_curSID := st.g_curSID - 1 },
              sem.waitingThreads)
          else some (0, { st with g_semList := st.g_semList.set idx sem }, [])

/-- `Sys_CreateSemaphore`.  `mallocStr` and `mallocSem` tell whether the two
allocations succeed.  `nameLen` and `initCount` are `ulong_t`, so neither
`nameLen <= 0` nor `initCount < 0` can hold for a non-zero bit pattern; both are
converted to `int` in the call of `Create_Semaphore`. -/
def Sys_CreateSemaphore (userContext : User_Context) (mallocStr mallocSem : Bool) (cur : Nat)
    (state : Interrupt_State) (st : SemState) : Option (Int × SemState) :=
  let userAddr := state.ebx
  let nameLen := state.ecx
  let initCount := state.edx
  if nameLen ≤ 0 ∨ initCount < 0 ∨ nameLen > MAX_SEMAPHORE_NAME then some (EINVALID, st)
  else
    match Copy_User_String userContext mallocStr userAddr nameLen MAX_SEMAPHORE_NAME with
    | (res, semName) =>
      if res != 0 then some (res, st)
      else if strnlen (semName.getD []) MAX_SEMAPHORE_NAME != nameLen then some (EINVALID, st)
      else Create_Semaphore cur mallocSem (semName.getD []) (toInt32 nameLen) (toInt32 initCount) st

/-- `Sys_P`. -/
def Sys_P (cur : Nat) (state : Interrupt_State) (st : SemState) : Option PEntry :=
  let sid := toInt32 state.ebx
  if sid ≤ 0 then some (PEntry.returned EINVALID st)
  else P_begin cur sid st

/-- `Sys_V`. -/
def Sys_V (priority : Nat → Int) (cur : Nat) (state : Interrupt_State) (st : SemState) :
    Option (Int × SemState × Option Nat) :=
  let sid := toInt32 state.ebx
  if sid ≤ 0 then some (EINVALID, st, none)
  else V priority cur sid st

/-- `Sys_DestroySemaphore`. -/
def Sys_DestroySemaphore (cur : Nat) (state : Interrupt_State) (st : SemState) :
    Option (Int × SemState × List Nat) :=
  let sid := toInt32 state.ebx
  if sid ≤ 0 then some (EINVALID, st, [])
  else Destroy_Semaphore cur (toInt32 state.ebx) st

/-! ## Threads running `P(sid); ... V(sid)` on one semaphore

System calls run with interrupts disabled, so `P` and `V` execute atomically
except at the call of `Wait` inside `P`, where the caller is suspended until
`Wake_Up_One` or `Wake_Up` hands it to `Make_Runnable` and the scheduler picks
it again. -/

/-- Where a thread executing `P(sid); critical section; V(sid)` stands. -/
inductive Phase where
  | start
  | suspended (sem : Nat)
  | critical
  | finished
deriving DecidableEq, Repr

/-- The semaphores, the position of every thread in its program, and the
threads that were made runnable by a wake-up and have not run since. -/
structure PVSystem where
  sems : SemState
  phase : Nat → Phase
  woken : List Nat

/-- The scheduling events of the system. -/
inductive PVEvent where
  | callP (t : Nat)
  | resumeP (t : Nat)
  | callV (t : Nat)
deriving DecidableEq, Repr

/-- Change of the phase of one thread. -/
def setPhase (phase : Nat → Phase) (t : Nat) (p : Phase) : Nat → Phase :=
  fun x => if x = t then p else phase x

/-- One event: thread `t` at `start` calls `P`; a suspended thread that was
woken returns from `Wait` and finishes `P`; a thread in its critical section
calls `V`.  `none` when the event is not enabled in the state. -/
def PVSystem.step (priority : Nat → Int) (sid : Int) (s : PVSystem) : PVEvent → Option PVSystem
  | PVEvent.callP t =>
    match s.phase t with
    | Phase.start =>
      match P_begin t sid s.sems with
      | some (PEntry.returned rc st) =>
        some { s with sems := st,
                      phase := setPhase s.phase t (if rc == 0 then Phase.critical else Phase.finished) }
      | some (PEntry.blocked sem st) =>
        some { s with sems := st, phase := setPhase s.phase t (Phase.suspended sem) }
      | none => none
    | _ => none
  | PVEvent.resumeP t =>
    match s.phase t with
    | Phase.suspended sem =>
      if t ∈ s.woken then
        some { sems := (P_resume sem s.sems).2,
               phase := setPhase s.phase t Phase.critical,
               woken := s.woken.erase t }
      else none
    | _ => none
  | PVEvent.callV t =>
    match s.phase t with
    | Phase.critical =>
      match V priority t sid s.sems with
      | some (_, st, w) =>
        some { sems := st, phase := setPhase s.phase t Phase.finished,
               woken := s.woken ++ w.toList }
      | none => none
    | _ => none

/-- A sequence of events, from left to right. -/
def PVSystem.run (priority : Nat → Int) (sid : Int) : PVSystem → List PVEvent → Option PVSystem
  | s, [] => some s
  | s, e :: es =>
    match s.step priority sid e with
    | some s1 => PVSystem.run priority sid s1 es
    | none => none

/-- The state after a sequence of `Create_Semaphore` calls `(thread, name,
initial count)`, every allocation succeeding; `none` if a call fails. -/
def createAll : SemState → List (Nat × List Nat × Int) → Option SemState
  | st, [] => some st
  | st, (t, name, count) :: rest =>
    match Create_Semaphore t true name name.length count st with
    | some (rc, st1) => if rc > 0 then createAll st1 rest else none
    | none => none

/-! ## The scheduler (`src/geekos/kthread.c`, `include/geekos/kthread.h`)

The functions below must be called with interrupts disabled, which their first
`KASSERT` checks; the interrupt flag is not part of this state.  The
assertions on data that the state holds (queue membership in the list macros,
the range of the queue level, a runnable thread being found) are modelled. -/

/-- Scheduling policy `ROUND_ROBIN`. -/
def ROUND_ROBIN : Int := 0

/-- Scheduling policy `MULTILEVEL_FEEDBACK`. -/
def MULTILEVEL_FEEDBACK : Int := 1

/-- `MAX_QUEUE_LEVEL`: number of ready queue levels. -/
def MAX_QUEUE_LEVEL : Int := 4

/-- `PRIORITY_IDLE` -/
def PRIORITY_IDLE : Int := 0

/-- `PRIORITY_NORMAL` -/
def PRIORITY_NORMAL : Int := 5

/-- `DEFAULT_MAX_TICKS` (`src/geekos/timer.c`), the initial value of `g_Quantum`. -/
def DEFAULT_MAX_TICKS : Int := 4

/-- The fields of `struct Kernel_Thread` that the scheduler reads and writes
(the stack, the user context and the thread-local slots are left out).  The
owner is a thread pointer, `none` being the null pointer. -/
structure Kernel_Thread where
  numTicks : Nat
  priority : Int
  owner : Option Nat
  refCount : Int
  alive : Bool
  joinQueue : List Nat
  exitCode : Int
  pid : Int
  currentReadyQueue : Int
  blocked : Bool
deriving DecidableEq, Repr

/-- The globals of `kthread.c` and `timer.c`: the thread objects by address,
the list of all threads, the run queues by level, the current thread, the
policy variables, the quantum, the static `IdleThread` pointer (`none` is the
null pointer), the graveyard and reaper queues, and `nextFreePid`. -/
structure Scheduler where
  threads : Nat → Kernel_Thread
  s_allThreadList : List Nat
  s_runQueue : Nat → List Nat
  g_currentThread : Nat
  g_needReschedule : Bool
  g_preSchedulingPolicy : Int
  g_curSchedulingPolicy : Int
  g_Quantum : Int
  g_numTicks : Nat
  IdleThread : Option Nat
  s_graveyardQueue : List Nat
  s_reaperWaitQueue : List Nat
  nextFreePid : Int

/-- Store into one thread object. -/
def setThread (threads : Nat → Kernel_Thread) (t : Nat) (k : Kernel_Thread) :
    Nat → Kernel_Thread :=
  fun x => if x = t then k else threads x

/-- Store into one run queue. -/
def setQueue (queues : Nat → List Nat) (i : Nat) (q : List Nat) : Nat → List Nat :=
  fun x => if x = i then q else queues x

/-- `Enqueue_Thread` (`Add_To_Back_Of_Thread_Queue`): `none` when the
`KASSERT` that the node is not yet a member fails. -/
def Enqueue_Thread (queue : List Nat) (kthread : Nat) : Option (List Nat) :=
  if kthread ∈ queue then none else some (queue ++ [kthread])

/-- `Remove_Thread` (`Remove_From_Thread_Queue`): `none` when the `KASSERT`
that the node is a member fails. -/
def Remove_Thread (queue : List Nat) (kthread : Nat) : Option (List Nat) :=
  if kthread ∈ queue then some (queue.erase kthread) else none

/-- `Make_Runnable`. -/
def Make_Runnable (s : Scheduler) (kthread : Nat) : Option Scheduler :=
  let currentQ := (s.threads kthread).currentReadyQueue
  let currentQ :=
    if s.g_curSchedulingPolicy == ROUND_ROBIN then 0
    else if some kthread == s.IdleThread then MAX_QUEUE_LEVEL - 1
    else currentQ
  if ¬ (currentQ ≥ 0 ∧ currentQ < MAX_QUEUE_LEVEL) then none
  else
    let threads := setThread s.threads kthread { s.threads kthread with blocked := false }
    match Enqueue_Thread (s.s_runQueue currentQ.toNat) kthread with
    | none => none
    | some q => some { s with threads := threads,
                              s_runQueue := setQueue s.s_runQueue currentQ.toNat q }

/-- The loop of `Chang_Scheduling_Policy` for the change to round robin:
`for (i = MAX_QUEUE_LEVEL - 1; i > 0; i--) Append_Thread_Queue(&q[i - 1], &q[i])`,
where `Append_Thread_Queue` moves the whole of `q[i]` behind `q[i - 1]`. -/
def Chang_Scheduling_Policy_loop (queues : Nat → List Nat) : Nat → Nat → List Nat
  | 0 => queues
  | i + 1 =>
    Chang_Scheduling_Policy_loop
      (setQueue (setQueue queues i (queues i ++ queues (i + 1))) (i + 1) []) i

/-- `Chang_Scheduling_Policy`: returns the result and the state. -/
def Chang_Scheduling_Policy (s : Scheduler) (policy quantum : Int) : Option (Int × Scheduler) :=
  if policy != s.g_curSchedulingPolicy then
    let queues : Option (Nat → List Nat) :=
      if policy == ROUND_ROBIN then
        some (Chang_Scheduling_Policy_loop s.s_runQueue (MAX_QUEUE_LEVEL - 1).toNat)
      else
        match s.IdleThread with
        | none => some s.s_runQueue
        | some idle =>
          if idle ∈ s.s_runQueue 0 then
            match Remove_Thread (s.s_runQueue 0) idle with
            | none => none
            | some q0 =>
              let queues := setQueue s.s_runQueue 0 q0
              match Enqueue_Thread (queues (MAX_QUEUE_LEVEL - 1).toNat) idle with
              | none => none
              | some q3 => some (setQueue queues (MAX_QUEUE_LEVEL - 1).toNat q3)
          else some s.s_runQueue
    match queues with
    | none => none
    | some queues =>
      some (0, { s with s_runQueue := queues,
                        g_preSchedulingPolicy := s.g_curSchedulingPolicy,
                        g_curSchedulingPolicy := policy,
                        g_Quantum := quantum })
  else some (0, { s with g_Quantum := quantum })

/-- `Sys_SetSchedulingPolicy` (`syscall.c`): `ebx` and `ecx` are compared as
`uint_t` and passed on as `int`. -/
def Sys_SetSchedulingPolicy (s : Scheduler) (state : Interrupt_State) : Option (Int × Scheduler) :=
  if state.ebx != 0 && state.ebx != 1 then some (-1, s)
  else if state.ecx < 1 ∨ state.ecx > 100 then some (-1, s)
  else Chang_Scheduling_Policy s (toInt32 state.ebx) (toInt32 state.ecx)

/-- The `for` loop of `Get_Next_Runnable` under multilevel feedback, with `n`
levels left to look at from level `i` on; `none` when no level has a thread
(`KASSERT(best != NULL)` fails). -/
def Get_Next_Runnable_loop (queues : Nat → List Nat) : Nat → Nat → Option (Nat × (Nat → List Nat))
  | 0, _ => none
  | n + 1, i =>
    match (queues i).head? with
    | some best =>
      match Remove_Thread (queues i) best with
      | none => none
      | some q => some (best, setQueue queues i q)
    | none => Get_Next_Runnable_loop queues n (i + 1)

/-- `Get_Next_Runnable`: the thread chosen and the state afterwards. -/
def Get_Next_Runnable (s : Scheduler) : Option (Nat × Scheduler) :=
  if ¬ (s.g_curSchedulingPolicy = ROUND_ROBIN ∨ s.g_curSchedulingPolicy = MULTILEVEL_FEEDBACK) then
    none
  else if s.g_curSchedulingPolicy == ROUND_ROBIN then
    match Find_Best (fun t => (s.threads t).priority) (s.s_runQueue 0) with
    | none => none
    | some best =>
      match Remove_Thread (s.s_runQueue 0) best with
      | none => none
      | some q => some (best, { s with s_runQueue := setQueue s.s_runQueue 0 q })
  else
    match Get_Next_Runnable_loop s.s_runQueue MAX_QUEUE_LEVEL.toNat 0 with
    | none => none
    | some (best, queues) => some (best, { s with s_runQueue := queues })

/-- `Wait` up to its call of `Schedule()`: returns the state and the wait queue
at that point.  `IdleThread->pid` is read through the `IdleThread` pointer;
when that pointer is null the word read is whatever lies at that offset from
address 0, given here as `nullPid`. -/
def Wait (nullPid : Int) (s : Scheduler) (waitQueue : List Nat) : Option (Scheduler × List Nat) :=
  let current := s.g_currentThread
  let idlePid :=
    match s.IdleThread with
    | some idle => (s.threads idle).pid
    | none => nullPid
  let thread := s.threads current
  let thread :=
    if thread.pid != idlePid && thread.currentReadyQueue > 0 then
      { thread with currentReadyQueue := thread.currentReadyQueue - 1 }
    else thread
  let thread := { thread with blocked := true }
  match Enqueue_Thread waitQueue current with
  | none => none
  | some q => some ({ s with threads := setThread s.threads current thread }, q)

/-- `Wake_Up_One`: returns the state and the wait queue afterwards. -/
def Wake_Up_One (s : Scheduler) (waitQueue : List Nat) : Option (Scheduler × List Nat) :=
  match Find_Best (fun t => (s.threads t).priority) waitQueue with
  | none => some (s, waitQueue)
  | some best =>
    match Remove_Thread waitQueue best with
    | none => none
    | some q =>
      match Make_Runnable s best with
      | none => none
      | some s1 => some (s1, q)

/-- The walk of `Lookup_Thread` over the list of all threads. -/
def Lookup_Thread_loop (threads : Nat → Kernel_Thread) (current : Nat) (pid : Int) :
    List Nat → Option Nat
  | [] => none
  | result :: rest =>
    if (threads result).pid == pid then
      if some current != (threads result).owner then none else some result
    else Lookup_Thread_loop threads current pid rest

/-- `Lookup_Thread`: the thread found, `none` being the null pointer. -/
def Lookup_Thread (s : Scheduler) (pid : Int) : Option Nat :=
  Lookup_Thread_loop s.threads s.g_currentThread pid s.s_allThreadList

/-- `Init_Thread`: the thread object and the advanced `nextFreePid`. -/
def Init_Thread (s : Scheduler) (kthread : Nat) (priority : Int) (detached : Bool) : Scheduler :=
  let owner := if detached then none else some s.g_currentThread
  let thread : Kernel_Thread :=
    { numTicks := 0, priority := priority, owner := owner,
      refCount := if detached then 1 else 2, alive := true, joinQueue := [],
      exitCode := 0, pid := s.nextFreePid, currentReadyQueue := 0, blocked := false }
  { s with threads := setThread s.threads kthread thread, nextFreePid := s.nextFreePid + 1 }

/-- `Start_Kernel_Thread`: `page` is the thread object that `Create_Thread`
obtains (`none` when an allocation fails); returns the state and the thread
pointer.  The outer `none` stands for a failed `KASSERT`. -/
def Start_Kernel_Thread (s : Scheduler) (page : Option Nat) (priority : Int) (detached : Bool) :
    Option (Scheduler × Option Nat) :=
  match page with
  | none => some (s, none)
  | some kthread =>
    let s := Init_Thread s kthread priority detached
    if kthread ∈ s.s_allThreadList then none
    else
      let s := { s with s_allThreadList := s.s_allThreadList ++ [kthread] }
      match Make_Runnable s kthread with
      | none => none
      | some s1 => some (s1, some kthread)

/-- The statically initialised globals before `Init_Scheduler` runs: everything
zero, except `g_Quantum` and `nextFreePid`. -/
def bootScheduler : Scheduler :=
  { threads := fun _ =>
      { numTicks := 0, priority := 0, owner := none, refCount := 0, alive := false,
        joinQueue := [], exitCode := 0, pid := 0, currentReadyQueue := 0, blocked := false }
    s_allThreadList := []
    s_runQueue := fun _ => []
    g_currentThread := 0
    g_needReschedule := false
    g_preSchedulingPolicy := 0
    g_curSchedulingPolicy := 0
    g_Quantum := DEFAULT_MAX_TICKS
    g_numTicks := 0
    IdleThread := none
    s_graveyardQueue := []
    s_reaperWaitQueue := []
    nextFreePid := 1 }

/-- `Init_Scheduler`: `mainThread` is the object at `KERN_THREAD_OBJ`, `idle`
and `reaper` the pages the two `Start_Kernel_Thread` calls obtain.  The value
returned by `Start_Kernel_Thread(Idle, ...)` is dropped, as in the source. -/
def Init_Scheduler (s : Scheduler) (mainThread : Nat) (idle reaper : Option Nat) :
    Option Scheduler :=
  let s := { s with g_preSchedulingPolicy := ROUND_ROBIN,
                    g_curSchedulingPolicy := MULTILEVEL_FEEDBACK }
  let s := Init_Thread s mainThread PRIORITY_NORMAL true
  let s := { s with g_currentThread := mainThread }
  if mainThread ∈ s.s_allThreadList then none
  else
    let s := { s with s_allThreadList := s.s_allThreadList ++ [mainThread] }
    match Start_Kernel_Thread s idle PRIORITY_IDLE true with
    | none => none
    | some (s1, _) =>
      match Start_Kernel_Thread s1 reaper PRIORITY_NORMAL true with
      | none => none
      | some (s2, _) => some s2

/-! ## `src/geekos/elf.c` and `include/geekos/elf.h` -/

/-- `EXE_MAX_SEGMENTS` -/
def EXE_MAX_SEGMENTS : Nat := 3

/-- `struct Exe_Segment`. -/
structure Exe_Segment where
  offsetInFile : Nat
  lengthInFile : Nat
  startAddress : Nat
  sizeInMemory : Nat
  protFlags : Int
deriving DecidableEq, Repr

/-- `struct Exe_Format`: `segmentList` is the array of `EXE_MAX_SEGMENTS`
segments. -/
structure Exe_Format where
  segmentList : List Exe_Segment
  numSegments : Int
  entryAddr : Nat
deriving DecidableEq, Repr

/-- Load of an `unsigned short` at byte offset `off` (little endian). -/
def read16 (buf : List Nat) (off : Nat) : Nat :=
  buf.getD off 0 + 256 * buf.getD (off + 1) 0

/-- Outcome of `Parse_ELF_Executable`: it returns `rc` having filled in
`exeFormat`, or it executes the stores through `&exeFormat->segmentList[index]`
with `index` not below `EXE_MAX_SEGMENTS`, past the end of the array. -/
inductive ParseResult where
  | returned (rc : Int) (exeFormat : Exe_Format)
  | overrun (index : Nat) (exeFormat : Exe_Format)
deriving DecidableEq, Repr

/-- The `for` loop of `Parse_ELF_Executable`, with `n` iterations left, loop
variable `i` and `phdr` the byte offset of the current program header in the
file.  The fields of `programHeader` lie at offsets 4 (`offset`), 8 (`vaddr`),
16 (`fileSize`), 20 (`memSize`) and 24 (`flags`); an entry is 32 bytes long. -/
def Parse_ELF_Executable_loop (exeFileData : List Nat) :
    Nat → Nat → Nat → Exe_Format → ParseResult
  | 0, _, _, exeFormat => ParseResult.returned 0 exeFormat
  | n + 1, i, phdr, exeFormat =>
    if i < EXE_MAX_SEGMENTS then
      let segment : Exe_Segment :=
        { offsetInFile := read32 exeFileData (phdr + 4)
          lengthInFile := read32 exeFileData (phdr + 16)
          startAddress := read32 exeFileData (phdr + 8)
          sizeInMemory := read32 exeFileData (phdr + 20)
          protFlags := toInt32 (read32 exeFileData (phdr + 24)) }
      Parse_ELF_Executable_loop exeFileData n (i + 1) (phdr + 32)
        { exeFormat with segmentList := exeFormat.segmentList.set i segment }
    else ParseResult.overrun i exeFormat

set_option linter.unusedVariables false in
/-- `Parse_ELF_Executable`.  In `elfHeader`, `entry` lies at offset 24, `phoff`
at offset 28 and the `unsigned short phnum` at offset 44.  `exeFileLength` is
not used, as in the source. -/
def Parse_ELF_Executable (exeFileData : List Nat) (exeFileLength : Nat)
    (exeFormat : Exe_Format) : ParseResult :=
  let exeFormat := { exeFormat with numSegments := (read16 exeFileData 44 : Nat) }
  let exeFormat := { exeFormat with entryAddr := read32 exeFileData 24 }
  let phdr := read32 exeFileData 28
  Parse_ELF_Executable_loop exeFileData exeFormat.numSegments.toNat 0 phdr exeFormat

/-- The four bytes of a 32-bit word, little endian. -/
def le32 (v : Nat) : List Nat :=
  [v % 256, v / 256 % 256, v / 65536 % 256, v / 16777216 % 256]

/-- The bytes of an `elfHeader` (52 bytes) with the given `entry`, `phoff` and
`phnum`, every other field zero. -/
def elfHeaderBytes (entry phoff phnum : Nat) : List Nat :=
  List.replicate 24 0 ++ le32 entry ++ le32 phoff ++ List.replicate 12 0
    ++ [phnum % 256, phnum / 256 % 256] ++ List.replicate 6 0

/-- The bytes of a `programHeader` (32 bytes) of type 1 with the given fields,
`paddr` and `alignment` zero. -/
def programHeaderBytes (offset vaddr fileSize memSize flags : Nat) : List Nat :=
  le32 1 ++ le32 offset ++ le32 vaddr ++ le32 0 ++ le32 fileSize ++ le32 memSize
    ++ le32 flags ++ le32 0

/-! ## `src/geekos/timer.c` -/

/-- `timerEvent` (`include/geekos/timer.h`).  `callBack` is a function pointer:
what calling it with the event id does to the scheduler state. -/
structure timerEvent where
  ticks : Int
  id : Int
  callBack : Int → Scheduler → Scheduler
  origTicks : Int

/-- The loop of `Timer_Interrupt_Handler` over the first `timeEventCount`
entries of `pendingTimerEvents`, given as a list: an entry whose `ticks` is 0
has its callback called, any other entry has `ticks` decremented. -/
def Timer_Interrupt_Handler_events : List timerEvent → Scheduler → List timerEvent × Scheduler
  | [], s => ([], s)
  | e :: rest, s =>
    if e.ticks == 0 then
      let r := Timer_Interrupt_Handler_events rest (e.callBack e.id s)
      (e :: r.1, r.2)
    else
      let r := Timer_Interrupt_Handler_events rest s
      ({ e with ticks := e.ticks - 1 } :: r.1, r.2)

/-- `Timer_Interrupt_Handler`, given the pending timer events (the entries of
`pendingTimerEvents` below `timeEventCount`): returns them and the scheduler
state afterwards.  `g_numTicks` and `numTicks` are `ulong_t`, and the
comparison of `numTicks` with the `int g_Quantum` is made on `ulong_t`.
`Begin_IRQ` is empty and `End_IRQ` only acknowledges the interrupt at the
interrupt controller. -/
def Timer_Interrupt_Handler (events : List timerEvent) (s : Scheduler) :
    List timerEvent × Scheduler :=
  let current := s.g_currentThread
  let s := { s with g_numTicks := (s.g_numTicks + 1) % WORD }
  let thread := s.threads current
  let thread := { thread with numTicks := (thread.numTicks + 1) % WORD }
  let s := { s with threads := setThread s.threads current thread }
  let r := Timer_Interrupt_Handler_events events s
  let s := r.2
  if (s.threads current).numTicks ≥ toUInt32 s.g_Quantum then
    let s := { s with g_needReschedule := true }
    let thread := s.threads current
    if thread.currentReadyQueue < MAX_QUEUE_LEVEL - 1 then
      let thread := { thread with currentReadyQueue := thread.currentReadyQueue + 1 }
      (r.1, { s with threads := setThread s.threads current thread })
    else (r.1, s)
  else (r.1, s)

/-- An example state for the timer tick: the boot state under multilevel feedback
with quantum 4, the current thread 0 having used 3 ticks at level 1. -/
def tickExample : Scheduler :=
  { bootScheduler with
      threads := setThread bootScheduler.threads 0
        { numTicks := 3, priority := PRIORITY_NORMAL, owner := none, refCount := 1,
          alive := true, joinQueue := [], exitCode := 0, pid := 1,
          currentReadyQueue := 1, blocked := false },
      s_allThreadList := [0],
      g_curSchedulingPolicy := MULTILEVEL_FEEDBACK }

/-- The state after `Init_Scheduler` with main thread 0, idle thread 1 and
reaper thread 2. -/
def bootedScheduler : Scheduler :=
  (Init_Scheduler bootScheduler 0 (some 1) (some 2)).getD bootScheduler

/-- The scheduler states reached from `Init_Scheduler` by thread creation, timer
ticks (no timer event pending), `Wait` on any queue, policy changes, and any
other step that leaves every stored level as it is (context switches and the
queue operations are such steps: `currentReadyQueue` is written only by
`Init_Thread`, `Timer_Interrupt_Handler` and `Wait`). -/
inductive LevelReachable : Scheduler → Prop where
  | init (mainThread : Nat) (idle reaper : Option Nat) (s : Scheduler) :
      Init_Scheduler bootScheduler mainThread idle reaper = some s → LevelReachable s
  | create (s : Scheduler) (page : Option Nat) (priority : Int) (detached : Bool)
      (s1 : Scheduler) (kthread : Option Nat) :
      LevelReachable s → Start_Kernel_Thread s page priority detached = some (s1, kthread) →
      LevelReachable s1
  | tick (s : Scheduler) : LevelReachable s → LevelReachable (Timer_Interrupt_Handler [] s).2
  | wait (nullPid : Int) (s : Scheduler) (waitQueue : List Nat) (s1 : Scheduler)
      (waitQueue1 : List Nat) :
      LevelReachable s → Wait nullPid s waitQueue = some (s1, waitQueue1) → LevelReachable s1
  | policy (s : Scheduler) (policy quantum rc : Int) (s1 : Scheduler) :
      LevelReachable s → Chang_Scheduling_Policy s policy quantum = some (rc, s1) →
      LevelReachable s1
  | other (s s1 : Scheduler) :
      LevelReachable s →
      (∀ t, (s1.threads t).currentReadyQueue = (s.threads t).currentReadyQueue) →
      LevelReachable s1

/-- Every stored level is one of 0, 1, 2, 3. -/
def LevelInv (s : Scheduler) : Prop :=
  ∀ t, 0 ≤ (s.threads t).currentReadyQueue ∧ (s.threads t).currentReadyQueue ≤ 3

/-! ## `src/geekos/synch.c`: mutexes -/

/-- `MUTEX_UNLOCKED` -/
def MUTEX_UNLOCKED : Int := 0

/-- `MUTEX_LOCKED` -/
def MUTEX_LOCKED : Int := 1

/-- `struct Mutex`; `owner` is a thread pointer, `none` being the null pointer. -/
structure Mutex where
  state : Int
  owner : Option Nat
  waitQueue : List Nat
deriving DecidableEq, Repr

/-- `IS_HELD(mutex)` -/
def IS_HELD (s : Scheduler) (mutex : Mutex) : Bool :=
  mutex.state == MUTEX_LOCKED && mutex.owner == some s.g_currentThread

/-- `Mutex_Init` -/
def Mutex_Init (mutex : Mutex) : Mutex :=
  { mutex with state := MUTEX_UNLOCKED, owner := none, waitQueue := [] }

/-- How `Mutex_Lock` proceeds up to its next suspension point: the caller has
acquired the mutex and the call returns, or the caller is suspended in the
`Wait` of `Mutex_Wait`. -/
inductive LockEntry where
  | acquired (s : Scheduler) (mutex : Mutex)
  | blocked (s : Scheduler) (mutex : Mutex)

/-- The `while (mutex->state == MUTEX_LOCKED) Mutex_Wait(mutex);` loop of
`Mutex_Lock_Imp` from its test up to the next suspension, with the two stores
that follow the loop.  A thread woken up from `Mutex_Wait` continues here. -/
def Mutex_Lock_Imp_loop (nullPid : Int) (s : Scheduler) (mutex : Mutex) : Option LockEntry :=
  if mutex.state == MUTEX_LOCKED then
    match Wait nullPid s mutex.waitQueue with
    | none => none
    | some (s1, q) => some (LockEntry.blocked s1 { mutex with waitQueue := q })
  else
    some (LockEntry.acquired s { mutex with state := MUTEX_LOCKED, owner := some s.g_currentThread })

/-- `Mutex_Lock` (with `Mutex_Lock_Imp`) up to the first suspension point;
`none` when `KASSERT(!IS_HELD(mutex))` or an assertion inside `Wait` fails.
`g_preemptionDisabled` is set just before the assertion on it.  The interrupt
flag is not part of the state: the call is that of a thread running with
interrupts enabled, as `KASSERT(Interrupts_Enabled())` demands. -/
def Mutex_Lock (nullPid : Int) (s : Scheduler) (mutex : Mutex) : Option LockEntry :=
  if IS_HELD s mutex then none
  else Mutex_Lock_Imp_loop nullPid s mutex

/-- `Mutex_Unlock` (with `Mutex_Unlock_Imp`); `none` when
`KASSERT(IS_HELD(mutex))` or an assertion inside `Wake_Up_One` fails.  As in
`Mutex_Lock` the caller runs with interrupts enabled. -/
def Mutex_Unlock (s : Scheduler) (mutex : Mutex) : Option (Scheduler × Mutex) :=
  if !IS_HELD s mutex then none
  else
    let mutex := { mutex with state := MUTEX_UNLOCKED, owner := none }
    if !mutex.waitQueue.isEmpty then
      match Wake_Up_One s mutex.waitQueue with
      | none => none
      | some (s1, q) => some (s1, { mutex with waitQueue := q })
    else some (s, mutex)

/-- The mutex invariant: locked exactly when there is an owner. -/
def MutexInv (mutex : Mutex) : Prop :=
  mutex.state = MUTEX_LOCKED ↔ mutex.owner ≠ none

/-- An example mutex: held by thread 1, with thread 2 waiting. -/
def mutexExample : Mutex :=
  { state := MUTEX_LOCKED, owner := some 1, waitQueue := [2] }

/-- A mutex as `Malloc` may hand it out, before `Mutex_Init`: the fields hold
whatever the memory held, here a state that is neither constant and a non-null
owner. -/
def garbageMutex : Mutex :=
  { state := 77, owner := some 9, waitQueue := [] }

/-! ## Interrupt-atomic sections (`include/geekos/int.h`) and thread-local keys
(`src/geekos/kthread.c`) -/

/-- `MAX_TLOCAL_KEYS` -/
def MAX_TLOCAL_KEYS : Nat := 128

/-- What `Tlocal_Create` reads and writes: the interrupt-enable flag of the
processor, `s_tlocalKeyCounter` and the array `s_tlocalDestructors` of 128
function pointers (`none` is the null pointer). -/
structure TlocalState where
  interruptsEnabled : Bool
  s_tlocalKeyCounter : Nat
  s_tlocalDestructors : List (Option Nat)
deriving DecidableEq, Repr

/-- `Disable_Interrupts()`: `none` when `KASSERT(Interrupts_Enabled())` fails. -/
def Disable_Interrupts (st : TlocalState) : Option TlocalState :=
  if st.interruptsEnabled then some { st with interruptsEnabled := false } else none

/-- `Enable_Interrupts()`: `none` when `KASSERT(!Interrupts_Enabled())` fails. -/
def Enable_Interrupts (st : TlocalState) : Option TlocalState :=
  if !st.interruptsEnabled then some { st with interruptsEnabled := true } else none

/-- `Begin_Int_Atomic`: returns whether interrupts were enabled, and the state. -/
def Begin_Int_Atomic (st : TlocalState) : Option (Bool × TlocalState) :=
  let enabled := st.interruptsEnabled
  if enabled then (Disable_Interrupts st).map (fun st1 => (enabled, st1))
  else some (enabled, st)

/-- `End_Int_Atomic(iflag)`. -/
def End_Int_Atomic (iflag : Bool) (st : TlocalState) : Option TlocalState :=
  if st.interruptsEnabled then none
  else if iflag then Enable_Interrupts st
  else some st

/-- `Tlocal_Create(key, destructor)` with a non-null `key`: returns the result,
the value stored through `key` (`none` when nothing is stored) and the state. -/
def Tlocal_Create (destructor : Option Nat) (st : TlocalState) :
    Option (Int × Option Nat × TlocalState) :=
  match Begin_Int_Atomic st with
  | none => none
  | some (iflag, st) =>
    if st.s_tlocalKeyCounter == MAX_TLOCAL_KEYS then some (-1, none, st)
    else
      let st := { st with
        s_tlocalDestructors := st.s_tlocalDestructors.set st.s_tlocalKeyCounter destructor }
      let key := st.s_tlocalKeyCounter
      let st := { st with s_tlocalKeyCounter := (st.s_tlocalKeyCounter + 1) % WORD }
      match End_Int_Atomic iflag st with
      | none => none
      | some st => some (0, some key, st)

/-! ## `src/geekos/screen.c`: the console and its escape sequences

The contents of video memory and the hardware cursor are not part of the
model: `Scroll`, `Clear_To_EOL`, `Clear_Screen` and `Update_Cursor` write only
there.  An access to `argList` at an index outside the array is an outcome of
its own. -/

/-- `MAXARGS` -/
def MAXARGS : Int := 8

/-- `NUMCOLS` (`include/geekos/screen.h`) -/
def NUMCOLS : Int := 80

/-- `NUMROWS` -/
def NUMROWS : Int := 25

/-- `TABWIDTH` -/
def TABWIDTH : Int := 8

/-- `ESC` -/
def ESC : Int := 27

/-- `BRIGHT` -/
def BRIGHT : Nat := 8

/-- `DEFAULT_ATTRIBUTE`, that is `ATTRIB(BLACK, GRAY)`. -/
def DEFAULT_ATTRIBUTE : Nat := 7

/-- `s_ansiToVgaColor`: black, red, green, amber, blue, magenta, cyan, gray. -/
def s_ansiToVgaColor : List Nat := [0, 4, 2, 6, 1, 5, 3, 7]

/-- `enum State` -/
inductive State where
  | S_NORMAL
  | S_ESC
  | S_ESC2
  | S_ARG
  | S_CMD
deriving DecidableEq, Repr

/-- `struct Console_State`; `argList` is the array of `MAXARGS` integers. -/
structure Console_State where
  row : Int
  col : Int
  saveRow : Int
  saveCol : Int
  currentAttr : Nat
  state : State
  argList : List Int
  numArgs : Int
deriving DecidableEq, Repr

/-- How a console function ends: it returns, or it stops in a failed `KASSERT`,
or it reads or writes `argList[index]` with `index` outside `0 .. MAXARGS - 1`
(the state is the one at that access). -/
inductive ConsoleResult where
  | ok (s : Console_State)
  | assertionFailed (s : Console_State)
  | outOfBounds (index : Int) (s : Console_State)
deriving DecidableEq, Repr

/-- Sequencing of console functions. -/
def ConsoleResult.andThen (r : ConsoleResult) (f : Console_State → ConsoleResult) :
    ConsoleResult :=
  match r with
  | ConsoleResult.ok s => f s
  | other => other

/-- Result of an `int` operation as the 32-bit value the machine keeps. -/
def wrapInt (x : Int) : Int :=
  toInt32 (toUInt32 x)

/-- `ISDIGIT` -/
def ISDIGIT (c : Int) : Bool :=
  c ≥ 48 && c ≤ 57

/-- `Newline` -/
def Newline (s : Console_State) : Console_State :=
  let s := { s with row := wrapInt (s.row + 1), col := 0 }
  if s.row == NUMROWS then { s with row := NUMROWS - 1 } else s

/-- `Put_Graphic_Char` -/
def Put_Graphic_Char (s : Console_State) : Console_State :=
  if s.col < NUMCOLS - 1 then { s with col := s.col + 1 } else Newline s

/-- The loop `while (numSpaces-- > 0) Put_Graphic_Char(' ')`. -/
def Put_Graphic_Char_times : Nat → Console_State → Console_State
  | 0, s => s
  | n + 1, s => Put_Graphic_Char_times n (Put_Graphic_Char s)

/-- `Output_Literal_Character` -/
def Output_Literal_Character (c : Int) (s : Console_State) : Console_State :=
  if c == 10 then Newline s
  else if c == 9 then
    let numSpaces := TABWIDTH - Int.tmod s.col TABWIDTH
    Put_Graphic_Char_times numSpaces.toNat s
  else Put_Graphic_Char s

/-- `Move_Cursor` -/
def Move_Cursor (row col : Int) (s : Console_State) : Console_State :=
  let row := if row < 0 then 0 else if row ≥ NUMROWS then NUMROWS - 1 else row
  let col := if col < 0 then 0 else if col ≥ NUMCOLS then NUMCOLS - 1 else col
  { s with row := row, col := col }

/-- One step of the attribute computation in `Update_Attributes`. -/
def Update_Attributes_step (attr : Nat) (value : Int) : Nat :=
  if value == 0 then DEFAULT_ATTRIBUTE
  else if value == 1 then attr ||| BRIGHT
  else if value ≥ 30 ∧ value ≤ 37 then
    (attr &&& (WORD - 1 - 7)) ||| s_ansiToVgaColor.getD (value - 30).toNat 0
  else if value ≥ 40 ∧ value ≤ 47 then
    (attr &&& (WORD - 1 - 112)) ||| (s_ansiToVgaColor.getD (value - 40).toNat 0 <<< 4)
  else attr

/-- The `for` loop of `Update_Attributes`, with `n` iterations left and loop
variable `i`; `s_cons.currentAttr = attr` follows the loop. -/
def Update_Attributes_loop : Nat → Int → Nat → Console_State → ConsoleResult
  | 0, _, attr, s => ConsoleResult.ok { s with currentAttr := attr % 256 }
  | n + 1, i, attr, s =>
    if 0 ≤ i ∧ i < MAXARGS then
      Update_Attributes_loop n (i + 1) (Update_Attributes_step attr (s.argList.getD i.toNat 0)) s
    else ConsoleResult.outOfBounds i s

/-- `Update_Attributes` -/
def Update_Attributes (s : Console_State) : ConsoleResult :=
  Update_Attributes_loop s.numArgs.toNat 0 (s.currentAttr &&& (WORD - 1 - BRIGHT)) s

/-- `Reset` -/
def Reset (s : Console_State) : Console_State :=
  { s with state := State.S_NORMAL, numArgs := 0 }

/-- `Start_Escape` -/
def Start_Escape (s : Console_State) : Console_State :=
  { s with state := State.S_ESC, numArgs := 0 }

/-- `Start_Arg` -/
def Start_Arg (argNum : Int) (s : Console_State) : ConsoleResult :=
  if s.numArgs != argNum then ConsoleResult.assertionFailed s
  else
    let s := { s with numArgs := wrapInt (s.numArgs + 1), state := State.S_ARG }
    if argNum < MAXARGS then
      if argNum < 0 then ConsoleResult.outOfBounds argNum s
      else ConsoleResult.ok { s with argList := s.argList.set argNum.toNat 0 }
    else ConsoleResult.ok s

/-- `Save_Cursor` -/
def Save_Cursor (s : Console_State) : Console_State :=
  { s with saveRow := s.row, saveCol := s.col }

/-- `Restore_Cursor` -/
def Restore_Cursor (s : Console_State) : Console_State :=
  { s with row := s.saveRow, col := s.saveCol }

/-- `Add_Digit` -/
def Add_Digit (c : Int) (s : Console_State) : ConsoleResult :=
  if !ISDIGIT c then ConsoleResult.assertionFailed s
  else if s.numArgs < MAXARGS then
    let argNum := s.numArgs - 1
    if argNum < 0 then ConsoleResult.outOfBounds argNum s
    else
      let v := wrapInt (s.argList.getD argNum.toNat 0 * 10)
      let v := wrapInt (v + (c - 48))
      ConsoleResult.ok { s with argList := s.argList.set argNum.toNat v }
  else ConsoleResult.ok s

/-- `Get_Arg`, called with `argNum` 0 or 1 only. -/
def Get_Arg (argNum : Nat) (s : Console_State) : Int :=
  if (argNum : Int) < s.numArgs then s.argList.getD argNum 0 else 0

/-- The `case S_CMD` of `Put_Char_Imp`. -/
def Put_Char_Imp_S_CMD (c : Int) (s : Console_State) : ConsoleResult :=
  let r : ConsoleResult :=
    if c == 75 then ConsoleResult.ok s
    else if c == 115 then ConsoleResult.ok (Save_Cursor s)
    else if c == 117 then ConsoleResult.ok (Restore_Cursor s)
    else if c == 65 then ConsoleResult.ok (Move_Cursor (wrapInt (s.row - Get_Arg 0 s)) s.col s)
    else if c == 66 then ConsoleResult.ok (Move_Cursor (wrapInt (s.row + Get_Arg 0 s)) s.col s)
    else if c == 67 then ConsoleResult.ok (Move_Cursor s.row (wrapInt (s.col + Get_Arg 0 s)) s)
    else if c == 68 then ConsoleResult.ok (Move_Cursor s.row (wrapInt (s.col - Get_Arg 0 s)) s)
    else if c == 109 then Update_Attributes s
    else if c == 102 ∨ c == 72 then
      if s.numArgs == 2 then
        ConsoleResult.ok (Move_Cursor (wrapInt (Get_Arg 0 s - 1)) (wrapInt (Get_Arg 1 s - 1)) s)
      else ConsoleResult.ok s
    else if c == 74 then
      if s.numArgs == 1 ∧ Get_Arg 0 s == 2 then ConsoleResult.ok { s with row := 0, col := 0 }
      else ConsoleResult.ok s
    else ConsoleResult.ok s
  r.andThen (fun s => ConsoleResult.ok (Reset s))

/-- The `case S_ARG` of `Put_Char_Imp`; `goto again` with the state just set to
`S_CMD` continues in that case. -/
def Put_Char_Imp_S_ARG (c : Int) (s : Console_State) : ConsoleResult :=
  if ISDIGIT c then Add_Digit c s
  else if c == 59 then Start_Arg s.numArgs s
  else Put_Char_Imp_S_CMD c { s with state := State.S_CMD }

/-- The `case S_ESC2` of `Put_Char_Imp`; after `Start_Arg(0)` the state is
`S_ARG`, where `goto again` continues. -/
def Put_Char_Imp_S_ESC2 (c : Int) (s : Console_State) : ConsoleResult :=
  if ISDIGIT c then (Start_Arg 0 s).andThen (Put_Char_Imp_S_ARG c)
  else if c == 59 then
    ((Start_Arg 0 s).andThen (Add_Digit 49)).andThen (Start_Arg 1)
  else Put_Char_Imp_S_CMD c { s with state := State.S_CMD }

/-- `Put_Char_Imp` -/
def Put_Char_Imp (c : Int) (s : Console_State) : ConsoleResult :=
  match s.state with
  | State.S_NORMAL =>
    if c == ESC then ConsoleResult.ok (Start_Escape s)
    else ConsoleResult.ok (Output_Literal_Character c s)
  | State.S_ESC =>
    if c == 91 then ConsoleResult.ok { s with state := State.S_ESC2 }
    else ConsoleResult.ok (Reset s)
  | State.S_ESC2 => Put_Char_Imp_S_ESC2 c s
  | State.S_ARG => Put_Char_Imp_S_ARG c s
  | State.S_CMD => Put_Char_Imp_S_CMD c s

/-- The loop of `Put_Buf` (and of `Put_String`): the characters in order. -/
def Put_Buf : List Int → Console_State → ConsoleResult
  | [], s => ConsoleResult.ok s
  | c :: rest, s => (Put_Char_Imp c s).andThen (Put_Buf rest)

/-- The console after `Init_Screen`: the statically zeroed `s_cons` with the
default attribute. -/
def initialConsole : Console_State :=
  { row := 0, col := 0, saveRow := 0, saveCol := 0, currentAttr := DEFAULT_ATTRIBUTE,
    state := State.S_NORMAL, argList := List.replicate 8 0, numArgs := 0 }

/-! ## `src/geekos/userseg.c`: loading a program -/

/-- Modelled from the spec: `PAGE_SIZE` is defined in `include/geekos/defs.h`,
which is not part of the tree; the page of the specification is 4 KiB. -/
def PAGE_SIZE : Nat := 4096

/-- `DEFAULT_USER_STACK_SIZE` -/
def DEFAULT_USER_STACK_SIZE : Nat := 8192

/-- `Round_Up_To_Page` (`include/geekos/mem.h`) on a `ulong_t`:
`addr & PAGE_MASK` is `addr % PAGE_SIZE`, `addr & ~PAGE_MASK` is `addr` without
that remainder, and the addition of `PAGE_SIZE` can wrap. -/
def Round_Up_To_Page (addr : Nat) : Nat :=
  if addr % PAGE_SIZE != 0 then (addr - addr % PAGE_SIZE + PAGE_SIZE) % WORD
  else addr

/-- `Create_User_Context`: `none` is the null pointer returned when `Malloc` of
the context, `Malloc` of the memory or `Allocate_Segment_Descriptor` fails (the
three flags tell which succeed).  The descriptors and selectors are not part of
the model; the fields that `Malloc` leaves uninitialised are taken as 0. -/
def Create_User_Context (mallocContext mallocMemory descriptor : Bool) (size : Nat) :
    Option User_Context :=
  let size := Round_Up_To_Page size
  if !mallocContext then none
  else if !mallocMemory then none
  else if !descriptor then none
  else some { memory := List.replicate size 0, size := size, entryAddr := 0,
              argBlockAddr := 0, stackPointerAddr := 0, refCount := 0 }

/-- Outcome of `Load_User_Program`: it returns `rc` and stores `userContext`
through `pUserContext` (`none` when nothing is stored); or it reads
`segmentList[index]` past the `EXE_MAX_SEGMENTS` entries of the array; or the
`memcpy` of segment `index` touches a byte outside the file buffer of
`exeFileLength` bytes or outside the `size` bytes of the context memory. -/
inductive LoadResult where
  | returned (rc : Int) (userContext : Option User_Context)
  | segmentOverrun (index : Nat)
  | copyOutOfBounds (index : Nat)
deriving DecidableEq, Repr

/-- The first loop of `Load_User_Program`, with `n` iterations left, loop
variable `i` and the running `maxva`; `none` when `segmentList[i]` lies past
the array. -/
def Load_User_Program_maxva (segmentList : List Exe_Segment) : Nat → Nat → Nat → Option Nat
  | 0, _, maxva => some maxva
  | n + 1, i, maxva =>
    if i < EXE_MAX_SEGMENTS then
      let segment := segmentList.getD i ⟨0, 0, 0, 0, 0⟩
      let topva := (segment.startAddress + segment.sizeInMemory) % WORD
      Load_User_Program_maxva segmentList n (i + 1) (if topva > maxva then topva else maxva)
    else none

/-- Outcome of the copying loop: the context memory afterwards, or the index
of the first segment whose copy leaves one of the two buffers. -/
inductive CopyResult where
  | copied (memory : List Nat)
  | outOfBounds (index : Nat)
deriving DecidableEq, Repr

/-- The second loop of `Load_User_Program`, with `n` iterations left and loop
variable `i`: `memcpy(memory + startAddress, exeFileData + offsetInFile,
lengthInFile)`.  A copy of at least one byte is inside the buffers when
`offsetInFile + lengthInFile <= exeFileLength` and
`startAddress + lengthInFile <= size`. -/
def Load_User_Program_copy (exeFileData : List Nat) (exeFileLength : Nat)
    (segmentList : List Exe_Segment) (size : Nat) : Nat → Nat → List Nat → CopyResult
  | 0, _, memory => CopyResult.copied memory
  | n + 1, i, memory =>
    let segment := segmentList.getD i ⟨0, 0, 0, 0, 0⟩
    if segment.lengthInFile ≠ 0 ∧
        (segment.offsetInFile + segment.lengthInFile > exeFileLength ∨
          segment.startAddress + segment.lengthInFile > size) then
      CopyResult.outOfBounds i
    else
      Load_User_Program_copy exeFileData exeFileLength segmentList size n (i + 1)
        (memcpy memory segment.startAddress exeFileData segment.offsetInFile
          segment.lengthInFile)

/-- `Load_User_Program`.  The outer `none` stands for the loops of the argument
block functions running out of fuel.  The loop test `i < exeFormat->numSegments`
compares an `unsigned int` with an `int`, hence as unsigned numbers.
`Format_Argument_Block` works on the part of the memory that starts at
`argBlockAddr`. -/
def Load_User_Program (mallocContext mallocMemory descriptor : Bool) (exeFileData : List Nat)
    (exeFileLength : Nat) (exeFormat : Exe_Format) (command : List Nat) : Option LoadResult :=
  match Load_User_Program_maxva exeFormat.segmentList (toUInt32 exeFormat.numSegments) 0 0 with
  | none => some (LoadResult.segmentOverrun EXE_MAX_SEGMENTS)
  | some maxva =>
    match Get_Argument_Block_Size command with
    | none => none
    | some (numArgs, argBlockSize) =>
      let size := (Round_Up_To_Page maxva + DEFAULT_USER_STACK_SIZE) % WORD
      let argBlockAddr := size
      let size := (size + argBlockSize) % WORD
      match Create_User_Context mallocContext mallocMemory descriptor size with
      | none => some (LoadResult.returned (-1) none)
      | some userContext =>
        match Load_User_Program_copy exeFileData exeFileLength exeFormat.segmentList
            userContext.size (toUInt32 exeFormat.numSegments) 0 userContext.memory with
        | CopyResult.outOfBounds i => some (LoadResult.copyOutOfBounds i)
        | CopyResult.copied memory =>
          match Format_Argument_Block (memory.drop argBlockAddr) numArgs argBlockAddr command with
          | none => none
          | some block =>
            some (LoadResult.returned 0 (some { userContext with
              memory := memory.take argBlockAddr ++ block,
              entryAddr := exeFormat.entryAddr,
              argBlockAddr := argBlockAddr,
              stackPointerAddr := argBlockAddr }))

/-- The largest `startAddress + sizeInMemory` over the segments in use (0 when
there is none), as an unbounded number. -/
def maxVA (exeFormat : Exe_Format) : Nat :=
  ((List.range exeFormat.numSegments.toNat).map (fun i =>
    (exeFormat.segmentList.getD i ⟨0, 0, 0, 0, 0⟩).startAddress
      + (exeFormat.segmentList.getD i ⟨0, 0, 0, 0, 0⟩).sizeInMemory)).foldl max 0

/-- The least multiple of 4096 that is not below `x`. -/
def roundUpToPage (x : Nat) : Nat :=
  (x + 4095) / 4096 * 4096

/-- An example of parsed segment information: two segments at 4096 and 8192
of an image of 100 bytes. -/
def exampleExeFormat : Exe_Format :=
  { segmentList := [⟨84, 8, 4096, 16, 5⟩, ⟨92, 4, 8192, 4, 6⟩, ⟨0, 0, 0, 0, 0⟩],
    numSegments := 2, entryAddr := 4096 }

/-! ## Threads and queues -/

/-- The loop of `Wake_Up`: `Make_Runnable` on every thread of the wait queue,
from the head on. -/
def Wake_Up_loop : Scheduler → List Nat → Option Scheduler
  | s, [] => some s
  | s, kthread :: rest =>
    match Make_Runnable s kthread with
    | none => none
    | some s1 => Wake_Up_loop s1 rest

/-- `Wake_Up`: returns the state and the wait queue afterwards, which
`Clear_Thread_Queue` has emptied. -/
def Wake_Up (s : Scheduler) (waitQueue : List Nat) : Option (Scheduler × List Nat) :=
  match Wake_Up_loop s waitQueue with
  | none => none
  | some s1 => some (s1, [])

/-- `Reap_Thread`: the thread goes to the graveyard queue and the threads
waiting on `s_reaperWaitQueue` are woken up.  The function is `static`; it is
reached through `Detach_Thread` from `Exit` and `Join`, for a thread that is on
no queue, and for such a thread the lists are exact.  (A thread has one pair of
link fields for all queues, so for a thread that is still on another queue the
C code would cut that queue short behind it, which lists do not show.) -/
def Reap_Thread (s : Scheduler) (kthread : Nat) : Option Scheduler :=
  match Enqueue_Thread s.s_graveyardQueue kthread with
  | none => none
  | some graveyard =>
    match Wake_Up { s with s_graveyardQueue := graveyard } s.s_reaperWaitQueue with
    | none => none
    | some (s1, q) => some { s1 with s_reaperWaitQueue := q }

/-- The scheduler together with the wait queues that live outside `kthread.c`
(join queues, the queues of semaphores, mutexes and conditions, the keyboard
queue), given as a list. -/
structure KernelQueues where
  sched : Scheduler
  waitQueues : List (List Nat)

/-- The four run queues, the graveyard queue and all wait queues, one after the
other. -/
def allQueued (k : KernelQueues) : List Nat :=
  k.sched.s_runQueue 0 ++ k.sched.s_runQueue 1 ++ k.sched.s_runQueue 2 ++ k.sched.s_runQueue 3
    ++ k.sched.s_graveyardQueue ++ k.sched.s_reaperWaitQueue ++ k.waitQueues.flatten

/-- Number of occurrences of a thread on the four run queues. -/
def runCount (queues : Nat → List Nat) (t : Nat) : Nat :=
  (queues 0).count t + (queues 1).count t + (queues 2).count t + (queues 3).count t

/-- The states reached from `Init_Scheduler` when every thread handed to
`Make_Runnable`, `Start_Kernel_Thread`, `Wait` or `Reap_Thread` is on no queue at
that moment; `Wake_Up`, `Wake_Up_One`, `Get_Next_Runnable` and
`Chang_Scheduling_Policy` are unrestricted, and so is any step that leaves the
queues alone (a context switch, a timer tick). -/
inductive QueueReachable : KernelQueues → Prop where
  | init (mainThread : Nat) (idle reaper : Option Nat) (s : Scheduler) (n : Nat) :
      Init_Scheduler bootScheduler mainThread idle reaper = some s →
      QueueReachable ⟨s, List.replicate n []⟩
  | makeRunnable (k : KernelQueues) (kthread : Nat) (s1 : Scheduler) :
      QueueReachable k → kthread ∉ allQueued k → Make_Runnable k.sched kthread = some s1 →
      QueueReachable ⟨s1, k.waitQueues⟩
  | create (k : KernelQueues) (page : Option Nat) (priority : Int) (detached : Bool)
      (s1 : Scheduler) (kthread : Option Nat) :
      QueueReachable k → (∀ t, page = some t → t ∉ allQueued k) →
      Start_Kernel_Thread k.sched page priority detached = some (s1, kthread) →
      QueueReachable ⟨s1, k.waitQueues⟩
  | wait (k : KernelQueues) (nullPid : Int) (w : Nat) (s1 : Scheduler) (q1 : List Nat) :
      QueueReachable k → k.sched.g_currentThread ∉ allQueued k → w < k.waitQueues.length →
      Wait nullPid k.sched (k.waitQueues.getD w []) = some (s1, q1) →
      QueueReachable ⟨s1, k.waitQueues.set w q1⟩
  | waitReaper (k : KernelQueues) (nullPid : Int) (s1 : Scheduler) (q1 : List Nat) :
      QueueReachable k → k.sched.g_currentThread ∉ allQueued k →
      Wait nullPid k.sched k.sched.s_reaperWaitQueue = some (s1, q1) →
      QueueReachable ⟨{ s1 with s_reaperWaitQueue := q1 }, k.waitQueues⟩
  | wakeUp (k : KernelQueues) (w : Nat) (s1 : Scheduler) (q1 : List Nat) :
      QueueReachable k → w < k.waitQueues.length →
      Wake_Up k.sched (k.waitQueues.getD w []) = some (s1, q1) →
      QueueReachable ⟨s1, k.waitQueues.set w q1⟩
  | wakeUpOne (k : KernelQueues) (w : Nat) (s1 : Scheduler) (q1 : List Nat) :
      QueueReachable k → w < k.waitQueues.length →
      Wake_Up_One k.sched (k.waitQueues.getD w []) = some (s1, q1) →
      QueueReachable ⟨s1, k.waitQueues.set w q1⟩
  | getNextRunnable (k : KernelQueues) (best : Nat) (s1 : Scheduler) :
      QueueReachable k → Get_Next_Runnable k.sched = some (best, s1) →
      QueueReachable ⟨s1, k.waitQueues⟩
  | policy (k : KernelQueues) (policy quantum rc : Int) (s1 : Scheduler) :
      QueueReachable k → Chang_Scheduling_Policy k.sched policy quantum = some (rc, s1) →
      QueueReachable ⟨s1, k.waitQueues⟩
  | reap (k : KernelQueues) (kthread : Nat) (s1 : Scheduler) :
      QueueReachable k → kthread ∉ allQueued k → Reap_Thread k.sched kthread = some s1 →
      QueueReachable ⟨s1, k.waitQueues⟩
  | other (k : KernelQueues) (s1 : Scheduler) :
      QueueReachable k → s1.s_runQueue = k.sched.s_runQueue →
      s1.s_graveyardQueue = k.sched.s_graveyardQueue →
      s1.s_reaperWaitQueue = k.sched.s_reaperWaitQueue →
      QueueReachable ⟨s1, k.waitQueues⟩

/-- No thread occurs twice on the queues. -/
def QueueInv (k : KernelQueues) : Prop :=
  ∀ t, (allQueued k).count t ≤ 1

/-- The state after `Init_Scheduler` and a `Wait` of the main thread on an
empty wait queue, with that queue as the only outside wait queue. -/
def waitExample : KernelQueues :=
  ⟨((Wait 0 bootedScheduler []).getD (bootScheduler, [])).1,
    [((Wait 0 bootedScheduler []).getD (bootScheduler, [])).2]⟩

/-! # Theorems -/

/-! ## Lemmas on `memcpy` -/

theorem memcpy_length (n : Nat) : ∀ (dst : List Nat) (d : Nat) (src : List Nat) (s : Nat),
    (memcpy dst d src s n).length = dst.length := by
  induction n with
  | zero => intro dst d src s; rfl
  | succ n ih =>
    intro dst d src s
    simp [memcpy, ih]

theorem memcpy_eq (n : Nat) : ∀ (dst : List Nat) (d : Nat) (src : List Nat) (s : Nat),
    d + n ≤ dst.length → s + n ≤ src.length →
    memcpy dst d src s n = dst.take d ++ (src.drop s).take n ++ dst.drop (d + n) := by
  induction n with
  | zero =>
    intro dst d src s _ _
    simp [memcpy]
  | succ n ih =>
    intro dst d src s hd hs
    have hd1 : d < dst.length := by omega
    have hs1 : s < src.length := by omega
    rw [memcpy, ih _ _ _ _ (by simp; omega) (by omega)]
    have e1 : (dst.set d (src.getD s 0)).take (d + 1) = dst.take d ++ [src.getD s 0] := by
      rw [List.set_eq_take_append_cons_drop, if_pos hd1, List.take_append_eq_append_take]
      simp [hd1.le]
    have e2 : (dst.set d (src.getD s 0)).drop (d + 1 + n) = dst.drop (d + (n + 1)) := by
      rw [List.drop_set_of_lt _ _ (by omega)]
      congr 1
      omega
    have e3 : (src.drop s).take (n + 1) = src.getD s 0 :: (src.drop (s + 1)).take n := by
      rw [List.drop_eq_getElem_cons hs1, List.take_succ_cons, List.getD_eq_getElem _ _ hs1]
    rw [e1, e2, e3]
    simp

/-! ## Copy round trip and rejection (`userseg.c`) -/

theorem Validate_User_Memory_iff (ctx : User_Context) (a n : Nat) (hS : ctx.size < WORD) :
    Validate_User_Memory ctx a n = true ↔ a < ctx.size ∧ a + n ≤ ctx.size := by
  unfold Validate_User_Memory
  by_cases h : a ≥ ctx.size
  · simp [h]
  · have e : (ctx.size + WORD - a) % WORD = ctx.size - a := by
      have h1 : ctx.size + WORD - a = (ctx.size - a) + WORD := by omega
      rw [h1, Nat.add_mod_right, Nat.mod_eq_of_lt (by omega)]
    simp only [h, if_false, e]
    by_cases h2 : n > ctx.size - a
    · simp [h2]
      omega
    · simp [h2]
      omega

/-- C1: writing a kernel buffer `B` of `n` bytes to user address `u` with
`Copy_To_User` and reading `n` bytes back from `u` with `Copy_From_User` yields
`B` byte for byte, whenever `u + n` is within the context size; both calls
report success when `u` is a valid address. -/
theorem copy_round_trip (ctx : User_Context) (u n : Nat) (B B' : List Nat)
    (hmem : ctx.memory.length = ctx.size) (hS : ctx.size < WORD)
    (hB : B.length = n) (hB' : B'.length = n) (hin : u + n ≤ ctx.size) :
    (Copy_From_User (Copy_To_User ctx u B n).2 B' u n).2 = B ∧
    (u < ctx.size → (Copy_To_User ctx u B n).1 = true ∧
      (Copy_From_User (Copy_To_User ctx u B n).2 B' u n).1 = true) := by
  by_cases hu : u < ctx.size
  · have hv : Validate_User_Memory ctx u n = true :=
      (Validate_User_Memory_iff ctx u n hS).2 ⟨hu, hin⟩
    have hto : Copy_To_User ctx u B n =
        (true, { ctx with memory := memcpy ctx.memory u B 0 n }) := by
      simp [Copy_To_User, hv]
    have hv2 : Validate_User_Memory { ctx with memory := memcpy ctx.memory u B 0 n } u n
        = true := by
      simpa [Validate_User_Memory] using hv
    have hmem2 : memcpy ctx.memory u B 0 n = ctx.memory.take u ++ B ++ ctx.memory.drop (u + n) := by
      rw [memcpy_eq n _ _ _ _ (by omega) (by omega)]
      simp [← hB]
    have hback : memcpy B' 0 (memcpy ctx.memory u B 0 n) u n = B := by
      rw [memcpy_eq n _ _ _ _ (by omega) (by rw [memcpy_length]; omega), hmem2]
      have hlen : (ctx.memory.take u).length = u := by
        rw [List.length_take]
        omega
      have hd : (ctx.memory.take u ++ B ++ ctx.memory.drop (u + n)).drop u
          = B ++ ctx.memory.drop (u + n) := by
        rw [List.append_assoc, List.drop_append_eq_append_drop, hlen]
        simp [List.drop_eq_nil_of_le, hlen.le]
      rw [hd]
      subst hB
      simp [hB']
    rw [hto]
    simp [Copy_From_User, hv2, hback]
  · have hn : n = 0 := by omega
    subst hn
    have e1 : B = [] := List.length_eq_zero.mp hB
    have e2 : B' = [] := List.length_eq_zero.mp hB'
    subst e1 e2
    refine ⟨?_, fun h => absurd h hu⟩
    simp [Copy_From_User, Copy_To_User, Validate_User_Memory, memcpy, Nat.not_lt.mp hu]

/-- Witness for C1: a four byte buffer written to and read back from address 2
of an eight byte context. -/
theorem copy_round_trip_witness :
    (Copy_From_User (Copy_To_User ⟨[0, 0, 0, 0, 0, 0, 0, 0], 8, 0, 0, 0, 0⟩ 2 [1, 2, 3, 4] 4).2
        [9, 9, 9, 9] 2 4).2 = [1, 2, 3, 4] ∧
    ((2 : Nat) < (⟨[0, 0, 0, 0, 0, 0, 0, 0], 8, 0, 0, 0, 0⟩ : User_Context).size →
      (Copy_To_User ⟨[0, 0, 0, 0, 0, 0, 0, 0], 8, 0, 0, 0, 0⟩ 2 [1, 2, 3, 4] 4).1 = true ∧
      (Copy_From_User (Copy_To_User ⟨[0, 0, 0, 0, 0, 0, 0, 0], 8, 0, 0, 0, 0⟩ 2 [1, 2, 3, 4] 4).2
        [9, 9, 9, 9] 2 4).1 = true) :=
  copy_round_trip ⟨[0, 0, 0, 0, 0, 0, 0, 0], 8, 0, 0, 0, 0⟩ 2 4 [1, 2, 3, 4] [9, 9, 9, 9]
    rfl (by decide) rfl rfl (by decide)

/-- C2: when `a + n` exceeds the context size as unbounded integers (for every
`a` and `n`, in particular all 32-bit ones whose sum wraps past `2 ^ 32`),
`Copy_From_User` and `Copy_To_User` both return false; the kernel buffer and
the user context are returned unchanged. -/
theorem copy_out_of_bounds_rejected (ctx : User_Context) (a n : Nat) (K : List Nat)
    (hS : ctx.size < WORD) (hout : a + n > ctx.size) :
    Copy_From_User ctx K a n = (false, K) ∧ Copy_To_User ctx a K n = (false, ctx) := by
  have hv : Validate_User_Memory ctx a n = false := by
    cases h : Validate_User_Memory ctx a n with
    | false => rfl
    | true =>
      have := (Validate_User_Memory_iff ctx a n hS).1 h
      omega
  simp [Copy_From_User, Copy_To_User, hv]

/-- Witness for C2: address `2 ^ 32 - 1` and length 2 wrap past `2 ^ 32`. -/
theorem copy_out_of_bounds_rejected_witness :
    Copy_From_User ⟨[0, 0, 0, 0, 0, 0, 0, 0], 8, 0, 0, 0, 0⟩ [7, 7] 4294967295 2 = (false, [7, 7]) ∧
    Copy_To_User ⟨[0, 0, 0, 0, 0, 0, 0, 0], 8, 0, 0, 0, 0⟩ 4294967295 [7, 7] 2 =
      (false, ⟨[0, 0, 0, 0, 0, 0, 0, 0], 8, 0, 0, 0, 0⟩) :=
  copy_out_of_bounds_rejected ⟨[0, 0, 0, 0, 0, 0, 0, 0], 8, 0, 0, 0, 0⟩ 4294967295 2 [7, 7]
    (by decide) (by decide)

/-! ## Tokenisation lemmas (`argblock.c`) -/

theorem Is_Space_zero : Is_Space 0 = false := by decide

theorem splitOnP_unfold (p : Nat → Bool) (z : List Nat) :
    z.splitOnP p = z.takeWhile (fun c => !p c) ::
      (match z.dropWhile (fun c => !p c) with
       | [] => []
       | _ :: r => r.splitOnP p) := by
  induction z with
  | nil => simp [List.splitOnP_nil]
  | cons c z ih =>
    rw [List.splitOnP_cons]
    by_cases h : p c = true
    · simp [h]
    · simp only [h, if_false]
      rw [ih]
      simp [h, List.modifyHead]

theorem fields_nil : fields [] = [] := by
  simp [fields, List.splitOnP_nil]

theorem fields_cons_space (c : Nat) (z : List Nat) (h : Is_Space c = true) :
    fields (c :: z) = fields z := by
  simp [fields, List.splitOnP_cons, h]

theorem fields_cons_char (c : Nat) (z : List Nat) (h : Is_Space c = false) :
    fields (c :: z) = (c :: z).takeWhile (fun c => !Is_Space c) ::
      fields ((c :: z).dropWhile (fun c => !Is_Space c)) := by
  have hu := splitOnP_unfold Is_Space (c :: z)
  have htw : (c :: z).takeWhile (fun c => !Is_Space c)
      = c :: z.takeWhile (fun c => !Is_Space c) := by simp [h]
  unfold fields
  rw [hu, htw]
  simp only [List.filter_cons, List.isEmpty_cons, Bool.not_false, if_true]
  congr 1
  cases hd : (c :: z).dropWhile (fun c => !Is_Space c) with
  | nil => simp [List.splitOnP_nil]
  | cons x r =>
    have hx : Is_Space x = true := by
      have := List.head?_dropWhile_not (fun c => !Is_Space c) (c :: z)
      rw [hd] at this
      simpa using this
    simp [List.splitOnP_cons, hx]

theorem cstring_Skip_Whitespace (s : List Nat) :
    cstring (Skip_Whitespace s) = (cstring s).dropWhile Is_Space := by
  induction s with
  | nil => simp [Skip_Whitespace, cstring]
  | cons c r ih =>
    by_cases h : Is_Space c = true
    · have hc : c ≠ 0 := by
        intro h0
        rw [h0, Is_Space_zero] at h
        exact Bool.false_ne_true h
      simp only [Skip_Whitespace, h, if_true, ih]
      simp [cstring, hc, h]
    · simp only [Skip_Whitespace, h, if_false]
      by_cases hc : c = 0
      · simp [cstring, hc]
      · simp [cstring, hc, h]

theorem fields_dropWhile (z : List Nat) : fields (z.dropWhile Is_Space) = fields z := by
  induction z with
  | nil => simp
  | cons c z ih =>
    by_cases h : Is_Space c = true
    · simp [h, ih, fields_cons_space]
    · simp [h]

theorem tokens_Skip_Whitespace (s : List Nat) : tokens (Skip_Whitespace s) = tokens s := by
  simp [tokens, cstring_Skip_Whitespace, fields_dropWhile]

theorem Skip_Whitespace_length (s : List Nat) : (Skip_Whitespace s).length ≤ s.length := by
  induction s with
  | nil => simp [Skip_Whitespace]
  | cons c r ih =>
    by_cases h : Is_Space c = true
    · simp only [Skip_Whitespace, h, if_true, List.length_cons]
      omega
    · simp [Skip_Whitespace, h]

theorem Skip_Whitespace_head (s : List Nat) (c : Nat) (r : List Nat)
    (h : Skip_Whitespace s = c :: r) : Is_Space c = false := by
  induction s with
  | nil => simp [Skip_Whitespace] at h
  | cons x xs ih =>
    by_cases hx : Is_Space x = true
    · simp only [Skip_Whitespace, hx, if_true] at h
      exact ih h
    · rw [Skip_Whitespace, if_neg hx] at h
      injection h with h1 h2
      rw [← h1]
      simpa using hx

/-- The run of argument characters at the start of a string. -/
theorem Get_Argument_Len_loop_eq (s : List Nat) : ∀ (acc : Nat),
    acc + (s.takeWhile argChar).length < WORD →
    Get_Argument_Len_loop s acc = acc + (s.takeWhile argChar).length := by
  induction s with
  | nil => intro acc _; simp [Get_Argument_Len_loop]
  | cons c r ih =>
    intro acc hlt
    by_cases h : argChar c = true
    · rw [List.takeWhile_cons_of_pos h] at hlt ⊢
      simp only [List.length_cons] at hlt ⊢
      have hm : (acc + 1) % WORD = acc + 1 := Nat.mod_eq_of_lt (by omega)
      simp only [Get_Argument_Len_loop, h, if_true, hm]
      rw [ih (acc + 1) (by omega)]
      omega
    · rw [List.takeWhile_cons_of_neg h]
      simp [Get_Argument_Len_loop, h]

theorem takeWhile_cstring (s : List Nat) :
    (cstring s).takeWhile (fun c => !Is_Space c)
      = s.takeWhile argChar := by
  induction s with
  | nil => simp [cstring]
  | cons c r ih =>
    unfold cstring at ih ⊢
    by_cases hc : c = 0
    · simp [hc, argChar]
    · by_cases h : Is_Space c = true
      · simp [hc, h, argChar]
      · simp [hc, h, ih, argChar]

theorem dropWhile_cstring (s : List Nat) :
    (cstring s).dropWhile (fun c => !Is_Space c)
      = cstring (s.drop (s.takeWhile argChar).length) := by
  induction s with
  | nil => simp [cstring]
  | cons c r ih =>
    unfold cstring at ih ⊢
    by_cases hc : c = 0
    · simp [hc, argChar]
    · by_cases h : Is_Space c = true
      · simp [hc, h, argChar]
      · simp [hc, h, ih, argChar]

/-- Unfolding of `tokens` along one iteration of the loops of `argblock.c`. -/
theorem tokens_cons_char (c : Nat) (r : List Nat) (hc : c ≠ 0) (h : Is_Space c = false) :
    tokens (c :: r) = (c :: r).takeWhile argChar ::
      tokens ((c :: r).drop ((c :: r).takeWhile argChar).length) := by
  have e : cstring (c :: r) = c :: cstring r := by simp [cstring, hc]
  unfold tokens
  rw [← dropWhile_cstring, ← takeWhile_cstring, e, fields_cons_char c _ h]

theorem tokens_of_head_zero (s : List Nat) (h : s.headD 0 = 0) : tokens s = [] := by
  cases s with
  | nil => simp [tokens, cstring, fields_nil]
  | cons c r =>
    simp only [List.headD_cons] at h
    simp [tokens, cstring, h, fields_nil]

theorem strOff_zero (ts : List (List Nat)) : strOff ts 0 = 0 := by
  simp [strOff]

theorem strOff_cons_succ (t : List Nat) (ts : List (List Nat)) (i : Nat) :
    strOff (t :: ts) (i + 1) = t.length + 1 + strOff ts i := by
  simp [strOff]

theorem WORD_eq : WORD = 4294967296 := by decide

/-- One iteration of the tokenising loops: after `Skip_Whitespace`, either the
string is exhausted and there is no token left, or a non-empty token `t` is
found, `Get_Argument_Len` returns its length, and the rest is shorter. -/
theorem token_step (s : List Nat) :
    ((Skip_Whitespace s).headD 0 = 0 ∧ tokens s = []) ∨
    (∃ t ts, (Skip_Whitespace s).headD 0 ≠ 0 ∧ tokens s = t :: ts ∧
      t = (Skip_Whitespace s).takeWhile argChar ∧ 0 < t.length ∧
      t.length ≤ (Skip_Whitespace s).length ∧ (∀ c ∈ t, c ≠ 0) ∧
      (∀ j, j < t.length → (Skip_Whitespace s).getD j 0 = t.getD j 0) ∧
      ts = tokens ((Skip_Whitespace s).drop t.length) ∧
      (t.length < WORD → Get_Argument_Len (Skip_Whitespace s) = t.length)) := by
  by_cases h0 : (Skip_Whitespace s).headD 0 = 0
  · left
    exact ⟨h0, by rw [← tokens_Skip_Whitespace, tokens_of_head_zero _ h0]⟩
  · right
    cases hs : Skip_Whitespace s with
    | nil => simp [hs] at h0
    | cons c r =>
      rw [hs] at h0
      simp only [List.headD_cons] at h0
      have hsp : Is_Space c = false := Skip_Whitespace_head s c r hs
      have hac : argChar c = true := by simp [argChar, h0, hsp]
      refine ⟨(c :: r).takeWhile argChar, tokens ((c :: r).drop ((c :: r).takeWhile argChar).length),
        by simpa using h0, ?_, rfl, ?_, ?_, ?_, ?_, rfl, ?_⟩
      · rw [← tokens_Skip_Whitespace, hs, tokens_cons_char c r h0 hsp]
      · simp [List.takeWhile_cons_of_pos hac]
      · exact (List.takeWhile_sublist _).length_le
      · intro x hx
        have := List.mem_takeWhile_imp hx
        simp only [argChar, Bool.and_eq_true, bne_iff_ne] at this
        exact this.1
      · intro j hj
        have hpre := List.takeWhile_prefix argChar (l := c :: r)
        obtain ⟨w, hw⟩ := hpre
        conv_lhs => rw [← hw]
        simp [List.getD_eq_getElem?_getD, List.getElem?_append_left hj]
      · intro hlt
        unfold Get_Argument_Len
        rw [Get_Argument_Len_loop_eq _ 0 (by omega)]
        omega

theorem Get_Argument_Block_Size_loop_eq : ∀ (fuel : Nat) (s : List Nat) (size cnt : Nat),
    s.length < fuel →
    size + 4 + 4 * (tokens s).length + strOff (tokens s) (tokens s).length < WORD →
    cnt + (tokens s).length < WORD →
    Get_Argument_Block_Size_loop fuel s size cnt =
      some (cnt + (tokens s).length,
        size + 4 + 4 * (tokens s).length + strOff (tokens s) (tokens s).length) := by
  intro fuel
  induction fuel with
  | zero => intro s size cnt h; omega
  | succ fuel ih =>
    intro s size cnt hf hsz hcnt
    have hsk := Skip_Whitespace_length s
    rcases token_step s with ⟨h0, ht⟩ | ⟨t, ts, h0, ht, _, hpos, hle, _, _, hts, hlen⟩
    · rw [ht] at hsz ⊢
      simp only [List.length_nil, strOff_zero] at hsz ⊢
      simp only [Get_Argument_Block_Size_loop, h0, beq_self_eq_true, if_true]
      rw [Nat.mod_eq_of_lt (by omega)]
      rfl
    · rw [ht] at hsz hcnt ⊢
      simp only [List.length_cons, strOff_cons_succ] at hsz hcnt ⊢
      have hl := hlen (by omega)
      have hb : ((Skip_Whitespace s).headD 0 == 0) = false := by simpa using h0
      simp only [Get_Argument_Block_Size_loop, hb, hl]
      rw [Nat.mod_eq_of_lt (show size + 4 < WORD by omega),
        Nat.mod_eq_of_lt (show t.length + 1 < WORD by omega),
        Nat.mod_eq_of_lt (show size + 4 + (t.length + 1) < WORD by omega),
        Nat.mod_eq_of_lt (show cnt + 1 < WORD by omega)]
      simp only [Bool.false_eq_true, if_false]
      rw [ih _ _ _ (by rw [List.length_drop]; omega) (by rw [← hts]; omega)
        (by rw [← hts]; omega), ← hts]
      congr 2 <;> omega

/-! ## Byte-level lemmas on buffers -/

theorem getD_set_eq (l : List Nat) (i j x : Nat) :
    (l.set i x).getD j 0 = if i = j ∧ i < l.length then x else l.getD j 0 := by
  simp only [List.getD_eq_getElem?_getD, List.getElem?_set]
  by_cases hij : i = j
  · subst hij
    by_cases hl : i < l.length
    · simp [hl]
    · simp [hl, List.getElem?_eq_none (Nat.not_lt.mp hl)]
  · simp [hij]

theorem write32_length (buf : List Nat) (off v : Nat) :
    (write32 buf off v).length = buf.length := by
  simp [write32]

theorem getD_write32_of_out (buf : List Nat) (off v j : Nat) (h : j < off ∨ off + 4 ≤ j) :
    (write32 buf off v).getD j 0 = buf.getD j 0 := by
  unfold write32
  rw [getD_set_eq, getD_set_eq, getD_set_eq, getD_set_eq]
  rw [if_neg (by omega), if_neg (by omega), if_neg (by omega), if_neg (by omega)]

theorem read32_congr (a b : List Nat) (off : Nat)
    (h : ∀ j, off ≤ j → j < off + 4 → a.getD j 0 = b.getD j 0) :
    read32 a off = read32 b off := by
  unfold read32
  rw [h off (by omega) (by omega), h (off + 1) (by omega) (by omega),
    h (off + 2) (by omega) (by omega), h (off + 3) (by omega) (by omega)]

theorem read32_write32 (buf : List Nat) (off v : Nat) (h : off + 4 ≤ buf.length)
    (hv : v < WORD) : read32 (write32 buf off v) off = v := by
  rw [WORD_eq] at hv
  unfold read32 write32
  simp only [getD_set_eq, List.length_set]
  rw [if_neg (by omega), if_neg (by omega), if_neg (by omega), if_pos ⟨trivial, by omega⟩,
    if_neg (by omega), if_neg (by omega), if_pos ⟨trivial, by omega⟩,
    if_neg (by omega), if_pos ⟨trivial, by omega⟩, if_pos ⟨trivial, by omega⟩]
  omega

theorem getD_memcpy (n : Nat) : ∀ (dst : List Nat) (d : Nat) (src : List Nat) (s j : Nat),
    d + n ≤ dst.length →
    (memcpy dst d src s n).getD j 0 =
      if d ≤ j ∧ j < d + n then src.getD (s + (j - d)) 0 else dst.getD j 0 := by
  induction n with
  | zero =>
    intro dst d src s j _
    rw [memcpy, if_neg (by omega)]
  | succ n ih =>
    intro dst d src s j hd
    rw [memcpy, ih _ _ _ _ _ (by rw [List.length_set]; omega), getD_set_eq]
    by_cases h1 : d + 1 ≤ j ∧ j < d + 1 + n
    · rw [if_pos h1, if_pos (by omega)]
      congr 1
      omega
    · rw [if_neg h1]
      by_cases h2 : d = j
      · subst h2
        rw [if_pos ⟨rfl, by omega⟩, if_pos (by omega)]
        simp
      · rw [if_neg (by omega), if_neg (by omega)]

theorem cstringAt_of_getD (t : List Nat) : ∀ (buf : List Nat) (off : Nat),
    (∀ c ∈ t, c ≠ 0) →
    (∀ j, j < t.length → buf.getD (off + j) 0 = t.getD j 0) →
    buf.getD (off + t.length) 0 = 0 →
    cstringAt buf off = t := by
  induction t with
  | nil =>
    intro buf off _ _ hz
    unfold cstringAt cstring
    simp only [List.length_nil, Nat.add_zero] at hz
    cases hdr : buf.drop off with
    | nil => rfl
    | cons x r =>
      have hlt : off < buf.length := by
        by_contra hge
        rw [List.drop_eq_nil_of_le (Nat.not_lt.mp hge)] at hdr
        exact List.noConfusion hdr
      rw [List.drop_eq_getElem_cons hlt] at hdr
      injection hdr with hx _
      rw [List.getD_eq_getElem _ _ hlt] at hz
      have hx0 : x = 0 := by rw [← hx, hz]
      simp [hx0]
  | cons c t ih =>
    intro buf off hnz hj hz
    have hc : c ≠ 0 := hnz c (List.mem_cons_self c t)
    have h0 := hj 0 (by simp)
    simp only [Nat.add_zero, List.getD_cons_zero] at h0
    have hlt : off < buf.length := by
      by_contra hge
      rw [List.getD_eq_default _ _ (Nat.not_lt.mp hge)] at h0
      exact hc h0.symm
    rw [List.getD_eq_getElem _ _ hlt] at h0
    have hrec : cstringAt buf (off + 1) = t := by
      apply ih buf (off + 1) (fun x hx => hnz x (List.mem_cons_of_mem c hx))
      · intro j hjl
        have := hj (j + 1) (by simp; omega)
        simp only [List.getD_cons_succ] at this
        rw [← this]
        congr 1
        omega
      · rw [← hz]
        congr 1
        simp only [List.length_cons]
        omega
    unfold cstringAt cstring at hrec ⊢
    rw [List.drop_eq_getElem_cons hlt, h0, List.takeWhile_cons_of_pos (by simpa using hc), hrec]

/-! ## The formatting loop -/

theorem Format_Argument_Block_loop_spec : ∀ (fuel : Nat) (s : List Nat) (u argv dst : Nat)
    (blk : List Nat),
    s.length < fuel →
    argv + 4 * ((tokens s).length + 1) ≤ dst →
    dst + strOff (tokens s) (tokens s).length ≤ blk.length →
    blk.length < WORD →
    ∃ final, Format_Argument_Block_loop fuel s u argv dst blk = some final ∧
      final.length = blk.length ∧
      (∀ j, (j < argv ∨ (argv + 4 * ((tokens s).length + 1) ≤ j ∧ j < dst) ∨
          dst + strOff (tokens s) (tokens s).length ≤ j) →
        final.getD j 0 = blk.getD j 0) ∧
      read32 final (argv + 4 * (tokens s).length) = 0 ∧
      (∀ i, i < (tokens s).length →
        read32 final (argv + 4 * i) = (u + (dst + strOff (tokens s) i)) % WORD ∧
        cstringAt final (dst + strOff (tokens s) i) = (tokens s).getD i []) := by
  intro fuel
  induction fuel with
  | zero => intro s u argv dst blk h; omega
  | succ fuel ih =>
    intro s u argv dst blk hf hargv hdst hW
    have hsk := Skip_Whitespace_length s
    rcases token_step s with ⟨h0, ht⟩ | ⟨t, ts, h0, ht, _, hpos, hle, hnz, hget, hts, hlen⟩
    · rw [ht] at hargv hdst ⊢
      simp only [List.length_nil, strOff_zero] at hargv hdst ⊢
      refine ⟨write32 blk argv 0, ?_, write32_length _ _ _, ?_, ?_, ?_⟩
      · simp only [Format_Argument_Block_loop, h0, beq_self_eq_true, if_true]
      · intro j hj
        exact getD_write32_of_out _ _ _ _ (by omega)
      · exact read32_write32 _ _ _ (by omega) (by rw [WORD_eq]; omega)
      · intro i hi
        omega
    · rw [ht] at hargv hdst ⊢
      simp only [List.length_cons, strOff_cons_succ] at hargv hdst ⊢
      have hl := hlen (by omega)
      have hb : ((Skip_Whitespace s).headD 0 == 0) = false := by simpa using h0
      have hrun : Format_Argument_Block_loop (fuel + 1) s u argv dst blk =
          Format_Argument_Block_loop fuel ((Skip_Whitespace s).drop t.length) u (argv + 4)
            (dst + t.length + 1)
            ((memcpy (write32 blk argv ((u + dst) % WORD)) dst (Skip_Whitespace s) 0
              t.length).set (dst + t.length) 0) := by
        simp only [Format_Argument_Block_loop, hb, hl, Bool.false_eq_true, if_false]
      have hlen3 : ((memcpy (write32 blk argv ((u + dst) % WORD)) dst (Skip_Whitespace s) 0
              t.length).set (dst + t.length) 0).length = blk.length := by
        rw [List.length_set, memcpy_length, write32_length]
      have hb3 : ∀ j, (j < argv ∨ argv + 4 ≤ j) → (j < dst ∨ dst + t.length + 1 ≤ j) →
          ((memcpy (write32 blk argv ((u + dst) % WORD)) dst (Skip_Whitespace s) 0
              t.length).set (dst + t.length) 0).getD j 0 = blk.getD j 0 := by
        intro j h1 h2
        rw [getD_set_eq, if_neg (by omega),
          getD_memcpy _ _ _ _ _ _ (by rw [write32_length]; omega), if_neg (by omega),
          getD_write32_of_out _ _ _ _ h1]
      obtain ⟨final, hfin, hflen, hframe, hnull, hargs⟩ :=
        ih ((Skip_Whitespace s).drop t.length) u (argv + 4) (dst + t.length + 1)
          ((memcpy (write32 blk argv ((u + dst) % WORD)) dst (Skip_Whitespace s) 0
              t.length).set (dst + t.length) 0)
          (by rw [List.length_drop]; omega) (by rw [← hts]; omega)
          (by rw [← hts, hlen3]; omega) (by rw [hlen3]; exact hW)
      rw [← hts] at hframe hnull hargs
      refine ⟨final, by rw [hrun, hfin], by rw [hflen, hlen3], ?_, ?_, ?_⟩
      · intro j hj
        rw [hframe j (by omega), hb3 j (by omega) (by omega)]
      · rw [← hnull]
        congr 1
        omega
      · intro i hi
        cases i with
        | zero =>
          simp only [Nat.mul_zero, Nat.add_zero, strOff_zero, List.getD_cons_zero]
          constructor
          · rw [read32_congr final (write32 blk argv ((u + dst) % WORD)) argv]
            · exact read32_write32 _ _ _ (by omega) (Nat.mod_lt _ (by rw [WORD_eq]; omega))
            · intro j hj1 hj2
              rw [hframe j (by omega), getD_set_eq, if_neg (by omega),
                getD_memcpy _ _ _ _ _ _ (by rw [write32_length]; omega), if_neg (by omega)]
          · apply cstringAt_of_getD t final dst hnz
            · intro j hj
              rw [hframe (dst + j) (by omega), getD_set_eq, if_neg (by omega),
                getD_memcpy _ _ _ _ _ _ (by rw [write32_length]; omega), if_pos (by omega),
                ← hget j hj]
              congr 1
              omega
            · rw [hframe (dst + t.length) (by omega), getD_set_eq,
                if_pos ⟨rfl, by rw [memcpy_length, write32_length]; omega⟩]
        | succ i =>
          obtain ⟨hr, hc⟩ := hargs i (by omega)
          simp only [strOff_cons_succ, List.getD_cons_succ]
          constructor
          · rw [← show argv + 4 + 4 * i = argv + 4 * (i + 1) by omega, hr]
            congr 2
            omega
          · rw [← hc]
            congr 1
            omega

/-- C4: the table has 16 entries; when `eax` is not below 16, `Syscall_Handler`
terminates the current thread with exit code -1 without calling a handler;
otherwise it calls the table entry at index `eax`, and only that one, with the
frame, and if the handler returns it stores the returned value in `eax` of the
frame. -/
theorem Syscall_Handler_dispatch {K : Type}
    (run : Syscall → Interrupt_State → K → HandlerResult K)
    (state : Interrupt_State) (kernel : K) :
    g_syscallTable.length = 16 ∧
    (¬ state.eax < 16 →
      Syscall_Handler run state kernel = TrapResult.exited (-1) kernel []) ∧
    (state.eax < 16 → ∃ handler, g_syscallTable.get? state.eax = some handler ∧
      Syscall_Handler run state kernel =
        match run handler state kernel with
        | HandlerResult.returns value state1 kernel1 =>
          TrapResult.returned { state1 with eax := toUInt32 value } kernel1 [handler]
        | HandlerResult.exits exitCode kernel1 =>
          TrapResult.exited exitCode kernel1 [handler]) := by
  have hlen : g_syscallTable.length = 16 := rfl
  refine ⟨hlen, ?_, ?_⟩
  · intro h
    have hc : state.eax < 0 ∨ state.eax ≥ g_numSyscalls := by
      right
      unfold g_numSyscalls
      omega
    simp only [Syscall_Handler, hc, dite_true]
  · intro h
    have hc : ¬ (state.eax < 0 ∨ state.eax ≥ g_numSyscalls) := by
      unfold g_numSyscalls
      omega
    refine ⟨g_syscallTable.get ⟨state.eax, by omega⟩, ?_, ?_⟩
    · rw [List.get?_eq_get]
    · simp only [Syscall_Handler, hc, dite_false]

/-- Witness for C4: system call number 2 with a handler that returns 7, and the
illegal number 16. -/
theorem Syscall_Handler_dispatch_witness :
    Syscall_Handler (fun _ st (k : Nat) => HandlerResult.returns 7 st (k + 1))
        ⟨0, 0, 0, 0, 0, 0, 0, 0, 0, 0, 2, 144, 0, 0, 0, 0⟩ 0
      = TrapResult.returned ⟨0, 0, 0, 0, 0, 0, 0, 0, 0, 0, 7, 144, 0, 0, 0, 0⟩ 1
          [Syscall.Sys_PrintString] ∧
    Syscall_Handler (fun _ st (k : Nat) => HandlerResult.returns 7 st (k + 1))
        ⟨0, 0, 0, 0, 0, 0, 0, 0, 0, 0, 16, 144, 0, 0, 0, 0⟩ 0
      = TrapResult.exited (-1) 0 [] := by
  constructor
  · obtain ⟨handler, h1, h2⟩ := (Syscall_Handler_dispatch
      (fun _ st (k : Nat) => HandlerResult.returns 7 st (k + 1))
      ⟨0, 0, 0, 0, 0, 0, 0, 0, 0, 0, 2, 144, 0, 0, 0, 0⟩ 0).2.2 (by decide)
    have hh : handler = Syscall.Sys_PrintString := by
      have : g_syscallTable.get? 2 = some Syscall.Sys_PrintString := rfl
      rw [this] at h1
      exact (Option.some.inj h1).symm
    rw [h2, hh]
    rfl
  · exact (Syscall_Handler_dispatch (fun _ st (k : Nat) => HandlerResult.returns 7 st (k + 1))
      ⟨0, 0, 0, 0, 0, 0, 0, 0, 0, 0, 16, 144, 0, 0, 0, 0⟩ 0).2.1 (by decide)

/-! ## `Sys_PrintString` with a bad pointer -/

/-- C5 (code defect): for a one byte string at the first address past an eight
byte context, `Copy_User_String` fails with `EINVALID = -12` and nothing is
printed, but `Sys_PrintString` returns 0, not `EINVALID`: `result` is never
assigned. -/
theorem Sys_PrintString_bad_pointer_returns_zero :
    Copy_User_String ⟨[0, 0, 0, 0, 0, 0, 0, 0], 8, 0, 0, 0, 0⟩ true 8 1 1023 = (-12, none) ∧
    Sys_PrintString ⟨[0, 0, 0, 0, 0, 0, 0, 0], 8, 0, 0, 0, 0⟩ true
      ⟨0, 0, 0, 0, 0, 0, 0, 0, 1, 8, 2, 144, 0, 0, 0, 0⟩ [72, 105] = (0, [72, 105]) := by
  decide

/-! ## Semaphore access control (`synch.c`) -/

theorem getIndexInRegThreadList_loop_none (cur : Nat) (regs : List (Option Nat)) :
    ∀ (n i : Nat), (∀ j, i ≤ j → j < i + n → regs.getD j none ≠ some cur) →
      getIndexInRegThreadList_loop cur regs n i = i + n := by
  intro n
  induction n with
  | zero => intro i _; rfl
  | succ n ih =>
    intro i h
    have h0 : (regs.getD i none == some cur) = false := by
      have := h i (Nat.le_refl i) (by omega)
      simpa using this
    rw [getIndexInRegThreadList_loop, h0]
    simp only [Bool.false_eq_true, if_false]
    rw [ih (i + 1) (fun j h1 h2 => h j (by omega) (by omega))]
    omega

theorem getIndexInRegThreadList_not_registered (cur : Nat) (sem : Semaphore)
    (hwf : 0 ≤ sem.registeredThreadCount)
    (hnot : ∀ i : Nat, (i : Int) < sem.registeredThreadCount →
      sem.registeredThreads.getD i none ≠ some cur) :
    getIndexInRegThreadList cur sem = -1 := by
  unfold getIndexInRegThreadList
  rw [getIndexInRegThreadList_loop_none cur _ _ 0 (fun j _ h2 => hnot j (by omega))]
  simp only [Nat.zero_add]
  rw [Int.toNat_of_nonneg hwf]
  simp

theorem isSemExistBySID_some (l : List Semaphore) (sid : Int) :
    ∀ idx, isSemExistBySID l sid = some idx →
      ∃ sem, l.get? idx = some sem ∧ sem ∈ l ∧
        l.find? (fun s => s.semaphoreID == sid) = some sem := by
  induction l with
  | nil => intro idx h; simp [isSemExistBySID] at h
  | cons x xs ih =>
    intro idx h
    by_cases hx : x.semaphoreID = sid
    · simp only [isSemExistBySID, hx, beq_self_eq_true, if_true, Option.some.injEq] at h
      subst h
      exact ⟨x, rfl, List.mem_cons_self x xs, by simp [hx]⟩
    · have hb : (x.semaphoreID == sid) = false := by simpa using hx
      simp only [isSemExistBySID, hb, Bool.false_eq_true, if_false, Option.map_eq_some'] at h
      obtain ⟨k, hk, hidx⟩ := h
      obtain ⟨sem, h1, h2, h3⟩ := ih k hk
      subst hidx
      exact ⟨sem, by simpa using h1, List.mem_cons_of_mem x h2, by simp [hb, h3]⟩

/-- C6: in a state where every semaphore has its array of 60 registered
threads and a registration count between 0 and 60, when the calling thread is
not among the registered threads of the semaphore with the requested id (the
first one in the list, should several have it; no semaphore having that id
included), or the id is not positive at the system call layer, `P`, `V` and
`Destroy_Semaphore` return a negative value and the semaphore state (every
count, registered set and wait queue) is unchanged, no thread being woken. -/
theorem semaphore_access_denied (priority : Nat → Int) (cur : Nat) (state : Interrupt_State)
    (st : SemState)
    (hwf : ∀ sem ∈ st.g_semList, 0 ≤ sem.registeredThreadCount ∧
      sem.registeredThreadCount ≤ sem.registeredThreads.length ∧
      sem.registeredThreads.length = MAX_REGISTERED_THREADS)
    (hnot : toInt32 state.ebx ≤ 0 ∨
      ∀ sem, st.g_semList.find? (fun s => s.semaphoreID == toInt32 state.ebx) = some sem →
        ∀ i : Nat, (i : Int) < sem.registeredThreadCount →
          sem.registeredThreads.getD i none ≠ some cur) :
    (∃ rc, rc < 0 ∧ Sys_P cur state st = some (PEntry.returned rc st)) ∧
    (∃ rc, rc < 0 ∧ Sys_V priority cur state st = some (rc, st, none)) ∧
    (∃ rc, rc < 0 ∧ Sys_DestroySemaphore cur state st = some (rc, st, [])) ∧
    (0 < toInt32 state.ebx →
      P_begin cur (toInt32 state.ebx) st = some (PEntry.returned (-1) st) ∧
      V priority cur (toInt32 state.ebx) st = some (-1, st, none) ∧
      Destroy_Semaphore cur (toInt32 state.ebx) st = some (-1, st, [])) := by
  have hkernel : 0 < toInt32 state.ebx →
      P_begin cur (toInt32 state.ebx) st = some (PEntry.returned (-1) st) ∧
      V priority cur (toInt32 state.ebx) st = some (-1, st, none) ∧
      Destroy_Semaphore cur (toInt32 state.ebx) st = some (-1, st, []) := by
    intro hpos
    have hreg := hnot.resolve_left (by omega)
    have hgt : toInt32 state.ebx > 0 := hpos
    cases hfind : isSemExistBySID st.g_semList (toInt32 state.ebx) with
    | none => simp [P_begin, V, Destroy_Semaphore, hgt, hfind]
    | some idx =>
      obtain ⟨sem, hget, hmem, hfirst⟩ := isSemExistBySID_some _ _ idx hfind
      have hidx : getIndexInRegThreadList cur sem = -1 :=
        getIndexInRegThreadList_not_registered cur sem (hwf sem hmem).1 (hreg sem hfirst)
      have hget2 : st.g_semList[idx]? = some sem := by simpa using hget
      simp [P_begin, V, Destroy_Semaphore, hgt, hfind, hget2, hidx]
  by_cases hpos : 0 < toInt32 state.ebx
  · obtain ⟨hP, hV, hD⟩ := hkernel hpos
    have hle : ¬ toInt32 state.ebx ≤ 0 := by omega
    refine ⟨⟨-1, by decide, ?_⟩, ⟨-1, by decide, ?_⟩, ⟨-1, by decide, ?_⟩, hkernel⟩
    · simp only [Sys_P, hle, if_false, hP]
    · simp only [Sys_V, hle, if_false, hV]
    · simp only [Sys_DestroySemaphore, hle, if_false, hD]
  · have hle : toInt32 state.ebx ≤ 0 := by omega
    refine ⟨⟨EINVALID, by decide, ?_⟩, ⟨EINVALID, by decide, ?_⟩, ⟨EINVALID, by decide, ?_⟩,
      fun h => absurd h hpos⟩
    · simp only [Sys_P, hle, if_true]
    · simp only [Sys_V, hle, if_true]
    · simp only [Sys_DestroySemaphore, hle, if_true]

/-- Witness for C6: thread 2 operates on semaphore 1, on which only thread 1 is
registered (one of the 60 slots in use). -/
theorem semaphore_access_denied_witness :
    (∃ rc, rc < 0 ∧ Sys_P 2 ⟨0, 0, 0, 0, 0, 0, 0, 0, 0, 1, 13, 144, 0, 0, 0, 0⟩ ⟨[⟨1, 115 :: List.replicate 25 0, 1, 1, some 1 :: List.replicate 59 none, []⟩], 1⟩ = some (PEntry.returned rc ⟨[⟨1, 115 :: List.replicate 25 0, 1, 1, some 1 :: List.replicate 59 none, []⟩], 1⟩)) ∧
    (∃ rc, rc < 0 ∧ Sys_V (fun _ => 1) 2 ⟨0, 0, 0, 0, 0, 0, 0, 0, 0, 1, 13, 144, 0, 0, 0, 0⟩ ⟨[⟨1, 115 :: List.replicate 25 0, 1, 1, some 1 :: List.replicate 59 none, []⟩], 1⟩ = some (rc, ⟨[⟨1, 115 :: List.replicate 25 0, 1, 1, some 1 :: List.replicate 59 none, []⟩], 1⟩, none)) ∧
    (∃ rc, rc < 0 ∧ Sys_DestroySemaphore 2 ⟨0, 0, 0, 0, 0, 0, 0, 0, 0, 1, 13, 144, 0, 0, 0, 0⟩ ⟨[⟨1, 115 :: List.replicate 25 0, 1, 1, some 1 :: List.replicate 59 none, []⟩], 1⟩ = some (rc, ⟨[⟨1, 115 :: List.replicate 25 0, 1, 1, some 1 :: List.replicate 59 none, []⟩], 1⟩, [])) ∧
    (0 < toInt32 (⟨0, 0, 0, 0, 0, 0, 0, 0, 0, 1, 13, 144, 0, 0, 0, 0⟩ : Interrupt_State).ebx →
      P_begin 2 (toInt32 (⟨0, 0, 0, 0, 0, 0, 0, 0, 0, 1, 13, 144, 0, 0, 0, 0⟩ : Interrupt_State).ebx) ⟨[⟨1, 115 :: List.replicate 25 0, 1, 1, some 1 :: List.replicate 59 none, []⟩], 1⟩ = some (PEntry.returned (-1) ⟨[⟨1, 115 :: List.replicate 25 0, 1, 1, some 1 :: List.replicate 59 none, []⟩], 1⟩) ∧
      V (fun _ => 1) 2 (toInt32 (⟨0, 0, 0, 0, 0, 0, 0, 0, 0, 1, 13, 144, 0, 0, 0, 0⟩ : Interrupt_State).ebx) ⟨[⟨1, 115 :: List.replicate 25 0, 1, 1, some 1 :: List.replicate 59 none, []⟩], 1⟩ = some (-1, ⟨[⟨1, 115 :: List.replicate 25 0, 1, 1, some 1 :: List.replicate 59 none, []⟩], 1⟩, none) ∧
      Destroy_Semaphore 2 (toInt32 (⟨0, 0, 0, 0, 0, 0, 0, 0, 0, 1, 13, 144, 0, 0, 0, 0⟩ : Interrupt_State).ebx) ⟨[⟨1, 115 :: List.replicate 25 0, 1, 1, some 1 :: List.replicate 59 none, []⟩], 1⟩ = some (-1, ⟨[⟨1, 115 :: List.replicate 25 0, 1, 1, some 1 :: List.replicate 59 none, []⟩], 1⟩, [])) :=
  semaphore_access_denied (fun _ => 1) 2 ⟨0, 0, 0, 0, 0, 0, 0, 0, 0, 1, 13, 144, 0, 0, 0, 0⟩ ⟨[⟨1, 115 :: List.replicate 25 0, 1, 1, some 1 :: List.replicate 59 none, []⟩], 1⟩ (by decide)
    (Or.inr (by
      intro sem hfirst i hi
      have hsem : sem = ⟨1, 115 :: List.replicate 25 0, 1, 1,
          some 1 :: List.replicate 59 none, []⟩ := by
        have hf : List.find? (fun s => s.semaphoreID == toInt32 1)
            [(⟨1, 115 :: List.replicate 25 0, 1, 1, some 1 :: List.replicate 59 none, []⟩ :
              Semaphore)]
            = some ⟨1, 115 :: List.replicate 25 0, 1, 1, some 1 :: List.replicate 59 none, []⟩ := by
          decide
        exact Option.some.inj (hfirst.symm.trans hf)
      subst hsem
      have hi0 : i = 0 := by
        simp only at hi
        omega
      subst hi0
      decide))

/-! ## Semaphore defects exhibited on concrete runs -/

/-- C7 (code defect): threads 1, 2 and 3 are registered on a semaphore created
with count 1.  Thread 1 passes `P`, thread 2 blocks in `P`, thread 1 calls `V`
(count 1, thread 2 made runnable), thread 3 passes `P` before thread 2 runs,
then thread 2 returns from `Wait` and decrements without testing the count
again: threads 2 and 3 are both between `P` and `V`, and the count is -1. -/
theorem semaphore_mutual_exclusion_broken :
    ((createAll ⟨[], 0⟩ [(1, [115], 1), (2, [115], 1), (3, [115], 1)]).bind (fun st =>
      PVSystem.run (fun _ => 1) 1 ⟨st, fun _ => Phase.start, []⟩
        [PVEvent.callP 1, PVEvent.callP 2, PVEvent.callV 1, PVEvent.callP 3,
          PVEvent.resumeP 2])).map
      (fun s => (s.phase 1, s.phase 2, s.phase 3,
        s.sems.g_semList.map (fun sem => sem.value)))
    = some (Phase.finished, Phase.critical, Phase.critical, [-1]) := by
  decide

/-- C8 (code defect): thread 1 creates `a` (id 1) and `b` (id 2) and destroys
`a`, which decrements `g_curSID` to 1; creating `c` then hands out id 2 again,
so the live semaphores `b` and `c` both have id 2. -/
theorem semaphore_ids_collide :
    ((Create_Semaphore 1 true [97] 1 0 ⟨[], 0⟩).bind (fun r1 =>
      (Create_Semaphore 1 true [98] 1 0 r1.2).bind (fun r2 =>
        (Destroy_Semaphore 1 r1.1 r2.2).bind (fun r3 =>
          (Create_Semaphore 1 true [99] 1 0 r3.2.1).map (fun r4 =>
            ([r1.1, r2.1, r3.1, r4.1],
              r4.2.g_semList.map (fun sem => (sem.semaphoreID, cstring sem.semaphoreName))))))))
    = some ([1, 2, 0, 2], [(2, [98]), (2, [99])]) := by
  decide

/-- C9 (code defect): after thread 1 creates `ab` with count 5, thread 2 creating
`a` with count 7 gets the id of `ab`: `strncmp` over `nameLen = 1` characters
matches the longer name, no semaphore named `a` is allocated and the count
stays 5. -/
theorem semaphore_name_prefix_aliased :
    ((Create_Semaphore 1 true [97, 98] 2 5 ⟨[], 0⟩).bind (fun r1 =>
      (Create_Semaphore 2 true [97] 1 7 r1.2).map (fun r2 =>
        ([r1.1, r2.1],
          r2.2.g_semList.map (fun sem => (cstring sem.semaphoreName,
            [sem.value, sem.registeredThreadCount]))))))
    = some ([1, 1], [([97, 98], [5, 2])]) := by
  decide

/-- C10 (code defect): with the valid name `s` at user address 0 and
`edx = 0xFFFFFFFF` (initial count -1), `Sys_CreateSemaphore` does not return an
error: the test `initCount < 0` is made on a `ulong_t`, and `Create_Semaphore`
stops in `KASSERT(initCount >= 0)`.  With 60 threads already registered on `s`
the call returns the id 1 and counts a 61st registration. -/
theorem Sys_CreateSemaphore_unchecked_cases :
    Sys_CreateSemaphore ⟨[115, 0, 0, 0, 0, 0, 0, 0], 8, 0, 0, 0, 0⟩ true true 1
      ⟨0, 0, 0, 0, 0, 0, 0, 4294967295, 1, 0, 12, 144, 0, 0, 0, 0⟩ ⟨[], 0⟩ = none ∧
    (Sys_CreateSemaphore ⟨[115, 0, 0, 0, 0, 0, 0, 0], 8, 0, 0, 0, 0⟩ true true 1
      ⟨0, 0, 0, 0, 0, 0, 0, 3, 1, 0, 12, 144, 0, 0, 0, 0⟩
      ⟨[⟨1, 115 :: List.replicate 25 0, 0, 60,
          (List.range 60).map (fun i => some (i + 100)), []⟩], 1⟩).map
      (fun r => (r.1, r.2.g_semList.map (fun sem => sem.registeredThreadCount)))
      = some (1, [61]) := by
  decide

/-! ## Scheduling policy changes (`kthread.c`, `syscall.c`) -/

theorem setQueue_same (queues : Nat → List Nat) (i : Nat) (q : List Nat) :
    setQueue queues i q i = q := by
  simp [setQueue]

theorem setQueue_other (queues : Nat → List Nat) (i j : Nat) (q : List Nat) (h : j ≠ i) :
    setQueue queues i q j = queues j := by
  simp [setQueue, h]

theorem Chang_Scheduling_Policy_loop_three (queues : Nat → List Nat) :
    Chang_Scheduling_Policy_loop queues 3 0 = queues 0 ++ queues 1 ++ queues 2 ++ queues 3 ∧
    Chang_Scheduling_Policy_loop queues 3 1 = [] ∧
    Chang_Scheduling_Policy_loop queues 3 2 = [] ∧
    Chang_Scheduling_Policy_loop queues 3 3 = [] := by
  simp [Chang_Scheduling_Policy_loop, setQueue]

/-- C13: under multilevel feedback, `Chang_Scheduling_Policy(ROUND_ROBIN,
quantum)` returns 0 and leaves run queue 0 equal to the old queues 0, 1, 2, 3
concatenated in that order, with run queues 1, 2 and 3 empty; the policy is
round robin and the quantum the one given. -/
theorem policy_change_to_round_robin (s : Scheduler) (quantum : Int)
    (h : s.g_curSchedulingPolicy = MULTILEVEL_FEEDBACK) :
    ∃ s1, Chang_Scheduling_Policy s ROUND_ROBIN quantum = some (0, s1) ∧
      s1.s_runQueue 0 = s.s_runQueue 0 ++ s.s_runQueue 1 ++ s.s_runQueue 2 ++ s.s_runQueue 3 ∧
      s1.s_runQueue 1 = [] ∧ s1.s_runQueue 2 = [] ∧ s1.s_runQueue 3 = [] ∧
      s1.g_curSchedulingPolicy = ROUND_ROBIN ∧ s1.g_Quantum = quantum := by
  obtain ⟨h0, h1, h2, h3⟩ := Chang_Scheduling_Policy_loop_three s.s_runQueue
  have hne : (ROUND_ROBIN != s.g_curSchedulingPolicy) = true := by
    rw [h]
    decide
  have h4 : (MAX_QUEUE_LEVEL - 1).toNat = 3 := by decide
  refine ⟨{ s with s_runQueue := Chang_Scheduling_Policy_loop s.s_runQueue 3,
                   g_preSchedulingPolicy := s.g_curSchedulingPolicy,
                   g_curSchedulingPolicy := ROUND_ROBIN,
                   g_Quantum := quantum }, ?_, h0, h1, h2, h3, rfl, rfl⟩
  simp [Chang_Scheduling_Policy, hne, h4]

/-- Witness for C13: queues `[1, 2]`, `[3]`, `[]`, `[4, 5]` under multilevel
feedback. -/
theorem policy_change_to_round_robin_witness :
    ∃ s1, Chang_Scheduling_Policy
        { bootScheduler with
            s_runQueue := fun i => if i = 0 then [1, 2] else if i = 1 then [3]
              else if i = 3 then [4, 5] else [],
            g_curSchedulingPolicy := MULTILEVEL_FEEDBACK } ROUND_ROBIN 9 = some (0, s1) ∧
      s1.s_runQueue 0 = [1, 2] ++ [3] ++ [] ++ [4, 5] ∧
      s1.s_runQueue 1 = [] ∧ s1.s_runQueue 2 = [] ∧ s1.s_runQueue 3 = [] ∧
      s1.g_curSchedulingPolicy = ROUND_ROBIN ∧ s1.g_Quantum = 9 :=
  policy_change_to_round_robin
    { bootScheduler with
        s_runQueue := fun i => if i = 0 then [1, 2] else if i = 1 then [3]
          else if i = 3 then [4, 5] else [],
        g_curSchedulingPolicy := MULTILEVEL_FEEDBACK } 9 rfl

theorem toInt32_small (x : Nat) (h : x < 2 ^ 31) : toInt32 x = (x : Int) := by
  have hm : x % WORD = x := Nat.mod_eq_of_lt (by rw [WORD_eq]; omega)
  unfold toInt32
  rw [hm, if_pos h]

theorem Chang_Scheduling_Policy_succeeds (s : Scheduler) (policy quantum : Int)
    (hq : ∀ idle, s.IdleThread = some idle → idle ∈ s.s_runQueue 0 → idle ∉ s.s_runQueue 3) :
    ∃ s1, Chang_Scheduling_Policy s policy quantum = some (0, s1) ∧
      s1.g_curSchedulingPolicy = policy ∧ s1.g_Quantum = quantum := by
  have h4 : (MAX_QUEUE_LEVEL - 1).toNat = 3 := by decide
  by_cases hne : policy = s.g_curSchedulingPolicy
  · refine ⟨{ s with g_Quantum := quantum }, ?_, hne.symm, rfl⟩
    simp [Chang_Scheduling_Policy, hne]
  · have hb : (policy != s.g_curSchedulingPolicy) = true := by simpa using hne
    by_cases hrr : policy = ROUND_ROBIN
    · subst hrr
      refine ⟨{ s with s_runQueue := Chang_Scheduling_Policy_loop s.s_runQueue 3,
                       g_preSchedulingPolicy := s.g_curSchedulingPolicy,
                       g_curSchedulingPolicy := ROUND_ROBIN,
                       g_Quantum := quantum }, ?_, rfl, rfl⟩
      simp [Chang_Scheduling_Policy, hb, h4]
    · have hb2 : (policy == ROUND_ROBIN) = false := by simpa using hrr
      cases hidle : s.IdleThread with
      | none =>
        refine ⟨{ s with g_preSchedulingPolicy := s.g_curSchedulingPolicy,
                         g_curSchedulingPolicy := policy,
                         g_Quantum := quantum }, ?_, rfl, rfl⟩
        simp [Chang_Scheduling_Policy, hb, hb2, hidle]
      | some idle =>
        by_cases hmem : idle ∈ s.s_runQueue 0
        · have h3 : idle ∉ s.s_runQueue 3 := hq idle hidle hmem
          refine ⟨{ s with
              s_runQueue := setQueue (setQueue s.s_runQueue 0 ((s.s_runQueue 0).erase idle)) 3
                (s.s_runQueue 3 ++ [idle]),
              g_preSchedulingPolicy := s.g_curSchedulingPolicy,
              g_curSchedulingPolicy := policy,
              g_Quantum := quantum }, ?_, rfl, rfl⟩
          simp [Chang_Scheduling_Policy, hb, hb2, hidle, hmem, h4, Remove_Thread,
            Enqueue_Thread, setQueue, h3]
        · refine ⟨{ s with g_preSchedulingPolicy := s.g_curSchedulingPolicy,
                           g_curSchedulingPolicy := policy,
                           g_Quantum := quantum }, ?_, rfl, rfl⟩
          simp [Chang_Scheduling_Policy, hb, hb2, hidle, hmem]

/-- C12: `Sys_SetSchedulingPolicy` returns 0 with the policy set to `ebx` and the
quantum set to `ecx` when `ebx` is 0 or 1 and `ecx` is in 1..100, and in every
other case returns -1 with the whole scheduler state (policy, quantum, run
queues) unchanged.  The state is one in which the thread `IdleThread` points
to, if any, is not on run queues 0 and 3 at once. -/
theorem Sys_SetSchedulingPolicy_validates (s : Scheduler) (state : Interrupt_State)
    (hq : ∀ idle, s.IdleThread = some idle → idle ∈ s.s_runQueue 0 → idle ∉ s.s_runQueue 3) :
    (((state.ebx = 0 ∨ state.ebx = 1) ∧ 1 ≤ state.ecx ∧ state.ecx ≤ 100) →
      ∃ s1, Sys_SetSchedulingPolicy s state = some (0, s1) ∧
        s1.g_curSchedulingPolicy = (state.ebx : Int) ∧ s1.g_Quantum = (state.ecx : Int)) ∧
    (¬ ((state.ebx = 0 ∨ state.ebx = 1) ∧ 1 ≤ state.ecx ∧ state.ecx ≤ 100) →
      Sys_SetSchedulingPolicy s state = some (-1, s)) := by
  constructor
  · rintro ⟨hb, h1, h100⟩
    obtain ⟨s1, hs1, hp, hquant⟩ :=
      Chang_Scheduling_Policy_succeeds s (toInt32 state.ebx) (toInt32 state.ecx) hq
    have e1 : toInt32 state.ebx = (state.ebx : Int) := toInt32_small _ (by omega)
    have e2 : toInt32 state.ecx = (state.ecx : Int) := toInt32_small _ (by omega)
    refine ⟨s1, ?_, by rw [hp, e1], by rw [hquant, e2]⟩
    have c1 : (state.ebx != 0 && state.ebx != 1) = false := by
      rcases hb with hb | hb <;> simp [hb]
    have c2 : ¬ (state.ecx < 1 ∨ state.ecx > 100) := by omega
    simp only [Sys_SetSchedulingPolicy, c1, c2, Bool.false_eq_true, if_false]
    exact hs1
  · intro hbad
    by_cases c1 : (state.ebx != 0 && state.ebx != 1) = true
    · simp only [Sys_SetSchedulingPolicy, c1, if_true]
    · have c2 : state.ecx < 1 ∨ state.ecx > 100 := by
        simp only [Bool.and_eq_true, bne_iff_ne, ne_eq, not_and, Decidable.not_not] at c1
        by_contra hc
        apply hbad
        refine ⟨?_, by omega, by omega⟩
        by_cases h0 : state.ebx = 0
        · exact Or.inl h0
        · exact Or.inr (c1 h0)
      have c3 : (state.ebx != 0 && state.ebx != 1) = false := by simpa using c1
      simp only [Sys_SetSchedulingPolicy, c3, c2, Bool.false_eq_true, if_true, if_false]

/-- Witness for C12: policy 1 and quantum 7 requested in the boot state. -/
theorem Sys_SetSchedulingPolicy_validates_witness :
    (((1 : Nat) = 0 ∨ (1 : Nat) = 1) ∧ 1 ≤ (7 : Nat) ∧ (7 : Nat) ≤ 100) ∧
    ∃ s1, Sys_SetSchedulingPolicy bootScheduler
        ⟨0, 0, 0, 0, 0, 0, 0, 0, 7, 1, 10, 144, 0, 0, 0, 0⟩ = some (0, s1) ∧
      s1.g_curSchedulingPolicy = ((1 : Nat) : Int) ∧ s1.g_Quantum = ((7 : Nat) : Int) :=
  ⟨by decide,
    (Sys_SetSchedulingPolicy_validates bootScheduler
      ⟨0, 0, 0, 0, 0, 0, 0, 0, 7, 1, 10, 144, 0, 0, 0, 0⟩
      (fun idle h => by simp [bootScheduler] at h)).1 (by decide)⟩

/-! ## Choosing the next thread (`Get_Next_Runnable`, `Find_Best`, `Wake_Up_One`) -/

theorem Get_Next_Runnable_loop_first (queues : Nat → List Nat) (i h : Nat) (t : List Nat)
    (hq : queues i = h :: t) :
    ∀ (n k : Nat), k ≤ i → i < k + n → (∀ j, k ≤ j → j < i → queues j = []) →
      Get_Next_Runnable_loop queues n k = some (h, setQueue queues i t) := by
  intro n
  induction n with
  | zero => intro k h1 h2; omega
  | succ n ih =>
    intro k h1 h2 hempty
    by_cases hk : k = i
    · subst hk
      simp [Get_Next_Runnable_loop, hq, Remove_Thread]
    · have he : queues k = [] := hempty k (Nat.le_refl k) (by omega)
      simp only [Get_Next_Runnable_loop, he, List.head?_nil]
      exact ih (k + 1) (by omega) (by omega) (fun j hj1 hj2 => hempty j (by omega) hj2)

/-- C15: under multilevel feedback, when level `i` is the lowest non-empty level
and holds `h :: t`, `Get_Next_Runnable` returns `h`, whatever the priorities of
the threads, and the state afterwards differs only in run queue `i`, which is
`t`: every other level and the order of the remaining threads are unchanged. -/
theorem Get_Next_Runnable_multilevel (s : Scheduler) (i h : Nat) (t : List Nat)
    (hp : s.g_curSchedulingPolicy = MULTILEVEL_FEEDBACK) (hi : i < 4)
    (hempty : ∀ j, j < i → s.s_runQueue j = []) (hq : s.s_runQueue i = h :: t) :
    Get_Next_Runnable s = some (h, { s with s_runQueue := setQueue s.s_runQueue i t }) ∧
    setQueue s.s_runQueue i t i = t ∧
    ∀ j, j ≠ i → setQueue s.s_runQueue i t j = s.s_runQueue j := by
  refine ⟨?_, setQueue_same _ _ _, fun j hj => setQueue_other _ _ _ _ hj⟩
  have hloop := Get_Next_Runnable_loop_first s.s_runQueue i h t hq 4 0 (Nat.zero_le i)
    (by omega) (fun j _ hj => hempty j hj)
  have h4 : MAX_QUEUE_LEVEL.toNat = 4 := by decide
  have hc : ¬ ¬ (s.g_curSchedulingPolicy = ROUND_ROBIN ∨
      s.g_curSchedulingPolicy = MULTILEVEL_FEEDBACK) := fun hn => hn (Or.inr hp)
  have hrr : (s.g_curSchedulingPolicy == ROUND_ROBIN) = false := by
    rw [hp]
    decide
  simp only [Get_Next_Runnable, hc, if_false, hrr, Bool.false_eq_true, h4, hloop]

/-- Witness for C15: levels 0 and 1 empty, level 2 holding `[7, 8]`, level 3
holding `[9]`. -/
theorem Get_Next_Runnable_multilevel_witness :
    Get_Next_Runnable
        { bootScheduler with
            s_runQueue := fun i => if i = 2 then [7, 8] else if i = 3 then [9] else [],
            g_curSchedulingPolicy := MULTILEVEL_FEEDBACK }
      = some (7, { bootScheduler with
            s_runQueue := setQueue
              (fun i => if i = 2 then [7, 8] else if i = 3 then [9] else []) 2 [8],
            g_curSchedulingPolicy := MULTILEVEL_FEEDBACK }) :=
  (Get_Next_Runnable_multilevel
    { bootScheduler with
        s_runQueue := fun i => if i = 2 then [7, 8] else if i = 3 then [9] else [],
        g_curSchedulingPolicy := MULTILEVEL_FEEDBACK } 2 7 [8] rfl (by decide)
    (fun j hj => by
      have hj2 : j ≠ 2 := by omega
      have hj3 : j ≠ 3 := by omega
      simp [hj2, hj3]) rfl).1

theorem Find_Best_loop_some (p : Nat → Int) : ∀ (r : List Nat) (b0 : Nat),
    ∃ b, Find_Best_loop p r (some b0) = some b ∧ p b0 ≤ p b ∧ (∀ t ∈ r, p t ≤ p b) ∧
      ((b = b0 ∧ ∀ t ∈ r, p t ≤ p b0) ∨
       (∃ i, r[i]? = some b ∧ p b0 < p b ∧
          ∀ (j t : Nat), j < i → r[j]? = some t → p t < p b)) := by
  intro r
  induction r with
  | nil =>
    intro b0
    exact ⟨b0, rfl, Int.le_refl _, by simp, Or.inl ⟨rfl, by simp⟩⟩
  | cons x r ih =>
    intro b0
    by_cases hx : p x > p b0
    · obtain ⟨b, hb, hle, hall, hcase⟩ := ih x
      refine ⟨b, by simp only [Find_Best_loop, hx, if_true, hb], by omega, ?_, Or.inr ?_⟩
      · intro t ht
        rcases List.mem_cons.mp ht with h | h
        · rw [h]; exact hle
        · exact hall t h
      · rcases hcase with ⟨hbx, _⟩ | ⟨i, hi, hlt, hbefore⟩
        · refine ⟨0, by simp [hbx], by rw [hbx]; exact hx, ?_⟩
          intro j t hj
          omega
        · refine ⟨i + 1, by simpa using hi, by omega, ?_⟩
          intro j t hj hjt
          cases j with
          | zero =>
            simp only [List.getElem?_cons_zero, Option.some.injEq] at hjt
            rw [← hjt]
            exact hlt
          | succ j =>
            simp only [List.getElem?_cons_succ] at hjt
            exact hbefore j t (by omega) hjt
    · obtain ⟨b, hb, hle, hall, hcase⟩ := ih b0
      have hxle : p x ≤ p b0 := by omega
      refine ⟨b, by simp only [Find_Best_loop, hx, if_false, hb], hle, ?_, ?_⟩
      · intro t ht
        rcases List.mem_cons.mp ht with h | h
        · rw [h]; omega
        · exact hall t h
      · rcases hcase with ⟨hbb, hall0⟩ | ⟨i, hi, hlt, hbefore⟩
        · left
          refine ⟨hbb, ?_⟩
          intro t ht
          rcases List.mem_cons.mp ht with h | h
          · rw [h]; exact hxle
          · exact hall0 t h
        · right
          refine ⟨i + 1, by simpa using hi, hlt, ?_⟩
          intro j t hj hjt
          cases j with
          | zero =>
            simp only [List.getElem?_cons_zero, Option.some.injEq] at hjt
            rw [← hjt]
            omega
          | succ j =>
            simp only [List.getElem?_cons_succ] at hjt
            exact hbefore j t (by omega) hjt

theorem Find_Best_first_max (p : Nat → Int) (q : List Nat) (b : Nat)
    (h : Find_Best p q = some b) :
    ∃ i, q[i]? = some b ∧ (∀ t ∈ q, p t ≤ p b) ∧
      ∀ (j t : Nat), j < i → q[j]? = some t → p t < p b := by
  cases q with
  | nil => simp [Find_Best, Find_Best_loop] at h
  | cons x r =>
    obtain ⟨b1, hb1, hle, hall, hcase⟩ := Find_Best_loop_some p r x
    have hbb : b1 = b := by
      have h2 : Find_Best p (x :: r) = Find_Best_loop p r (some x) := rfl
      rw [h2, hb1] at h
      exact Option.some.inj h
    subst hbb
    have hallq : ∀ t ∈ x :: r, p t ≤ p b1 := by
      intro t ht
      rcases List.mem_cons.mp ht with h1 | h1
      · rw [h1]; exact hle
      · exact hall t h1
    rcases hcase with ⟨hbx, _⟩ | ⟨i, hi, hlt, hbefore⟩
    · exact ⟨0, by simp [hbx], hallq, fun j t hj => by omega⟩
    · refine ⟨i + 1, by simpa using hi, hallq, ?_⟩
      intro j t hj hjt
      cases j with
      | zero =>
        simp only [List.getElem?_cons_zero, Option.some.injEq] at hjt
        rw [← hjt]
        exact hlt
      | succ j =>
        simp only [List.getElem?_cons_succ] at hjt
        exact hbefore j t (by omega) hjt

theorem erase_eq_eraseIdx_of_first (b : Nat) : ∀ (q : List Nat) (i : Nat),
    q[i]? = some b → (∀ (j t : Nat), j < i → q[j]? = some t → t ≠ b) →
    q.erase b = q.eraseIdx i := by
  intro q
  induction q with
  | nil => intro i h; simp at h
  | cons x r ih =>
    intro i h hbefore
    cases i with
    | zero =>
      simp only [List.getElem?_cons_zero, Option.some.injEq] at h
      simp [h]
    | succ i =>
      have hx : x ≠ b := hbefore 0 x (by omega) (by simp)
      have hxb : ¬ (x == b) = true := by simpa using hx
      simp only [List.getElem?_cons_succ] at h
      rw [List.erase_cons_tail hxb, List.eraseIdx_cons_succ,
        ih i h (fun j t hj hjt => hbefore (j + 1) t (by omega) (by simpa using hjt))]

theorem Make_Runnable_eq (s : Scheduler) (kthread lvl : Nat) (hl : lvl < 4)
    (hlvl : (if s.g_curSchedulingPolicy == ROUND_ROBIN then 0
      else if some kthread == s.IdleThread then MAX_QUEUE_LEVEL - 1
      else (s.threads kthread).currentReadyQueue) = (lvl : Int))
    (hn : kthread ∉ s.s_runQueue lvl) :
    Make_Runnable s kthread = some { s with
      threads := setThread s.threads kthread { s.threads kthread with blocked := false },
      s_runQueue := setQueue s.s_runQueue lvl (s.s_runQueue lvl ++ [kthread]) } := by
  have hr : ¬ ¬ ((lvl : Int) ≥ 0 ∧ (lvl : Int) < MAX_QUEUE_LEVEL) := by
    have : MAX_QUEUE_LEVEL = 4 := rfl
    rw [this]
    omega
  simp only [Make_Runnable, hlvl, hr, if_false, Int.toNat_ofNat, Enqueue_Thread, hn]

theorem Make_Runnable_succeeds (s : Scheduler) (kthread : Nat)
    (hlo : 0 ≤ (s.threads kthread).currentReadyQueue)
    (hhi : (s.threads kthread).currentReadyQueue < 4)
    (hn : ∀ l, kthread ∉ s.s_runQueue l) :
    ∃ s1, Make_Runnable s kthread = some s1 := by
  by_cases hrr : (s.g_curSchedulingPolicy == ROUND_ROBIN) = true
  · exact ⟨_, Make_Runnable_eq s kthread 0 (by omega) (by simp [hrr]) (hn 0)⟩
  · by_cases hidle : (some kthread == s.IdleThread) = true
    · exact ⟨_, Make_Runnable_eq s kthread 3 (by omega)
        (by simp only [hrr, hidle, if_true, Bool.false_eq_true, if_false]; rfl) (hn 3)⟩
    · refine ⟨_, Make_Runnable_eq s kthread (s.threads kthread).currentReadyQueue.toNat
        (by omega) ?_ (hn _)⟩
      simp only [hrr, hidle, Bool.false_eq_true, if_false]
      exact (Int.toNat_of_nonneg hlo).symm

/-- C16: `Find_Best` returns none exactly for the empty queue; otherwise it
returns the thread at the first position `i` whose priority is the maximum of
the queue (no thread has a higher priority, every thread before `i` has a
lower one).  Removing it is removing position `i`, the rest staying in order:
under round robin `Get_Next_Runnable` returns it and leaves run queue 0 without
position `i`, and `Wake_Up_One` leaves the wait queue without position `i`,
the thread being handed to `Make_Runnable`. -/
theorem Find_Best_first_of_maximum (s : Scheduler) (q : List Nat) :
    (Find_Best (fun t => (s.threads t).priority) q = none ↔ q = []) ∧
    (Find_Best (fun t => (s.threads t).priority) q = none → Wake_Up_One s q = some (s, q)) ∧
    (∀ b, Find_Best (fun t => (s.threads t).priority) q = some b →
      ∃ i, q[i]? = some b ∧
        (∀ t ∈ q, (s.threads t).priority ≤ (s.threads b).priority) ∧
        (∀ (j t : Nat), j < i → q[j]? = some t →
          (s.threads t).priority < (s.threads b).priority) ∧
        q.erase b = q.eraseIdx i ∧
        (s.g_curSchedulingPolicy = ROUND_ROBIN → s.s_runQueue 0 = q →
          Get_Next_Runnable s =
            some (b, { s with s_runQueue := setQueue s.s_runQueue 0 (q.eraseIdx i) })) ∧
        (0 ≤ (s.threads b).currentReadyQueue → (s.threads b).currentReadyQueue < 4 →
          (∀ l, b ∉ s.s_runQueue l) →
          ∃ s1, Make_Runnable s b = some s1 ∧ Wake_Up_One s q = some (s1, q.eraseIdx i))) := by
  refine ⟨?_, ?_, ?_⟩
  · constructor
    · intro h
      cases q with
      | nil => rfl
      | cons x r =>
        obtain ⟨b, hb, _⟩ := Find_Best_loop_some (fun t => (s.threads t).priority) r x
        have h2 : Find_Best (fun t => (s.threads t).priority) (x :: r)
            = Find_Best_loop (fun t => (s.threads t).priority) r (some x) := rfl
        rw [h2, hb] at h
        exact Option.noConfusion h
    · intro h
      rw [h]
      rfl
  · intro h
    simp only [Wake_Up_One, h]
  · intro b hb
    obtain ⟨i, hi, hmax, hbefore⟩ :=
      Find_Best_first_max (fun t => (s.threads t).priority) q b hb
    have hmem : b ∈ q := List.getElem?_mem hi
    have herase : q.erase b = q.eraseIdx i :=
      erase_eq_eraseIdx_of_first b q i hi (fun j t hj hjt hEq => by
        have := hbefore j t hj hjt
        rw [hEq] at this
        omega)
    refine ⟨i, hi, hmax, hbefore, herase, ?_, ?_⟩
    · intro hrr hq0
      have hc : ¬ ¬ (s.g_curSchedulingPolicy = ROUND_ROBIN ∨
          s.g_curSchedulingPolicy = MULTILEVEL_FEEDBACK) := fun hn => hn (Or.inl hrr)
      have hrb : (s.g_curSchedulingPolicy == ROUND_ROBIN) = true := by simp [hrr]
      simp only [Get_Next_Runnable, hc, if_false, hrb, if_true, hq0, hb, Remove_Thread, hmem,
        herase]
    · intro hlo hhi hn
      obtain ⟨s1, hs1⟩ := Make_Runnable_succeeds s b hlo hhi hn
      refine ⟨s1, hs1, ?_⟩
      simp only [Wake_Up_One, hb, Remove_Thread, hmem, if_true, hs1, herase]

/-! ## `Lookup_Thread` -/

theorem Lookup_Thread_loop_eq (threads : Nat → Kernel_Thread) (current : Nat) (pid : Int) :
    ∀ (l : List Nat), Lookup_Thread_loop threads current pid l =
      (l.find? (fun t => (threads t).pid == pid)).bind
        (fun t => if (threads t).owner = some current then some t else none) := by
  intro l
  induction l with
  | nil => rfl
  | cons x r ih =>
    by_cases hx : ((threads x).pid == pid) = true
    · by_cases ho : (threads x).owner = some current
      · simp [Lookup_Thread_loop, hx, ho]
      · have ho2 : ¬ some current = (threads x).owner := fun h => ho h.symm
        simp [Lookup_Thread_loop, hx, ho, ho2]
    · simp only [Lookup_Thread_loop, hx, Bool.false_eq_true, if_false, ih, List.find?_cons]

/-- C17: `Lookup_Thread(pid)` looks at the first thread of the all-threads list
whose pid is `pid` and returns it if its owner is the current thread; it
returns none if that thread has another owner or no owner, or if no thread
has that pid.  So a thread it returns has that pid and is owned by the
caller. -/
theorem Lookup_Thread_owner_only (s : Scheduler) (pid : Int) :
    Lookup_Thread s pid =
      (s.s_allThreadList.find? (fun t => (s.threads t).pid == pid)).bind
        (fun t => if (s.threads t).owner = some s.g_currentThread then some t else none) ∧
    (∀ t, Lookup_Thread s pid = some t →
      t ∈ s.s_allThreadList ∧ (s.threads t).pid = pid ∧
        (s.threads t).owner = some s.g_currentThread) ∧
    (s.s_allThreadList.find? (fun t => (s.threads t).pid == pid) = none →
      Lookup_Thread s pid = none) ∧
    (∀ f, s.s_allThreadList.find? (fun t => (s.threads t).pid == pid) = some f →
      (s.threads f).owner ≠ some s.g_currentThread → Lookup_Thread s pid = none) := by
  have heq := Lookup_Thread_loop_eq s.threads s.g_currentThread pid s.s_allThreadList
  refine ⟨heq, ?_, ?_, ?_⟩
  · intro t ht
    unfold Lookup_Thread at ht
    rw [heq] at ht
    cases hf : s.s_allThreadList.find? (fun t => (s.threads t).pid == pid) with
    | none => simp [hf] at ht
    | some f =>
      rw [hf] at ht
      simp only [Option.some_bind] at ht
      by_cases ho : (s.threads f).owner = some s.g_currentThread
      · simp only [ho, if_true, Option.some.injEq] at ht
        subst ht
        have hp := List.find?_some hf
        exact ⟨List.mem_of_find?_eq_some hf, by simpa using hp, ho⟩
      · simp [ho] at ht
  · intro hf
    unfold Lookup_Thread
    rw [heq, hf]
    rfl
  · intro f hf ho
    unfold Lookup_Thread
    rw [heq, hf]
    simp [ho]

/-! ## The idle thread and the `IdleThread` pointer

`Init_Scheduler` drops the pointer returned by `Start_Kernel_Thread(Idle, ...)`
and nothing else assigns `IdleThread`, so it is null in every state the kernel
reaches. -/

/-- C14 (code defect): after `Init_Scheduler` (main thread 0, idle thread 1 with
`PRIORITY_IDLE`, reaper 2) and a change to round robin, the idle thread is on
run queue 0 and the policy is round robin; `Chang_Scheduling_Policy` to
multilevel feedback then leaves the idle thread on run queue 0 and run queue 3
empty, because `IdleThread` is null. -/
theorem idle_thread_stays_on_level_zero :
    ((Init_Scheduler bootScheduler 0 (some 1) (some 2)).bind (fun s =>
      Chang_Scheduling_Policy s ROUND_ROBIN 4)).map (fun r =>
        ([r.2.s_runQueue 0, r.2.s_runQueue 1, r.2.s_runQueue 2, r.2.s_runQueue 3],
          r.2.IdleThread, [r.2.g_curSchedulingPolicy, (r.2.threads 1).priority]))
      = some ([[1, 2], [], [], []], none, [0, 0]) ∧
    (((Init_Scheduler bootScheduler 0 (some 1) (some 2)).bind (fun s =>
      Chang_Scheduling_Policy s ROUND_ROBIN 4)).bind (fun r =>
        Chang_Scheduling_Policy r.2 MULTILEVEL_FEEDBACK 4)).map (fun r =>
          ([r.2.s_runQueue 0, r.2.s_runQueue 1, r.2.s_runQueue 2, r.2.s_runQueue 3],
            r.2.IdleThread, [r.2.g_curSchedulingPolicy, (r.2.threads 1).priority]))
      = some ([[1, 2], [], [], []], none, [1, 0]) := by
  decide

/-- C19 (code defect): `Init_Scheduler` itself makes the idle thread (thread 1)
runnable under multilevel feedback, and it lands on run queue 0, not 3; taken
off the queue by `Get_Next_Runnable` and made runnable again, it is appended to
run queue 0 once more.  `Make_Runnable` compares with `IdleThread`, which is
null. -/
theorem Make_Runnable_idle_thread_level_zero :
    (Init_Scheduler bootScheduler 0 (some 1) (some 2)).map (fun s =>
        ([s.s_runQueue 0, s.s_runQueue 1, s.s_runQueue 2, s.s_runQueue 3],
          s.IdleThread, [s.g_curSchedulingPolicy, (s.threads 1).priority]))
      = some ([[1, 2], [], [], []], none, [1, 0]) ∧
    (((Init_Scheduler bootScheduler 0 (some 1) (some 2)).bind Get_Next_Runnable).bind
      (fun r => (Make_Runnable r.2 r.1).map (fun s =>
        (r.1, [s.s_runQueue 0, s.s_runQueue 1, s.s_runQueue 2, s.s_runQueue 3],
          (s.threads 1).blocked))))
      = some (1, [[2, 1], [], [], []], false) := by
  decide

/-- C20 (code defect): under round robin, the current thread (thread 0, pid 1,
not the idle thread) with stored level 1 calls `Wait` on an empty queue: it is
marked blocked and appended to the queue, and its stored level drops to 0
unless the word read through the null `IdleThread` pointer happens to be its
pid.  `Wait` does not look at the policy. -/
theorem Wait_decrements_level_under_round_robin (nullPid : Int) :
    (Wait nullPid
        { bootScheduler with
            threads := setThread bootScheduler.threads 0
              { numTicks := 4, priority := PRIORITY_NORMAL, owner := none, refCount := 1,
                alive := true, joinQueue := [], exitCode := 0, pid := 1,
                currentReadyQueue := 1, blocked := false },
            s_allThreadList := [0],
            g_curSchedulingPolicy := ROUND_ROBIN } []).map (fun r =>
          ((r.1.threads 0).currentReadyQueue, (r.1.threads 0).blocked, r.2,
            r.1.g_curSchedulingPolicy))
      = some (if nullPid = 1 then 1 else 0, true, [0], 0) := by
  by_cases h : nullPid = 1
  · subst h
    decide
  · have h2 : ¬ (1 : Int) = nullPid := fun e => h e.symm
    simp [Wait, Enqueue_Thread, setThread, bootScheduler, ROUND_ROBIN, h, h2]

/-! ## `Parse_ELF_Executable` and the segment limit -/

/-- C18 (code defect): for an image whose header declares four program headers,
`Parse_ELF_Executable` returns no error: it sets `numSegments` to 4, fills
segments 0 to 2 and goes on to store a fourth segment at index 3 of the
three-entry array.  With three program headers it returns 0 with the segments
of the headers. -/
theorem Parse_ELF_Executable_no_segment_limit :
    Parse_ELF_Executable
        (elfHeaderBytes 4096 52 4 ++ programHeaderBytes 180 4096 16 16 5
          ++ programHeaderBytes 196 8192 8 32 6 ++ programHeaderBytes 204 12288 4 4 4
          ++ programHeaderBytes 208 16384 4 4 4 ++ List.replicate 32 0) 212
        ⟨[⟨0, 0, 0, 0, 0⟩, ⟨0, 0, 0, 0, 0⟩, ⟨0, 0, 0, 0, 0⟩], 0, 0⟩
      = ParseResult.overrun 3
          ⟨[⟨180, 16, 4096, 16, 5⟩, ⟨196, 8, 8192, 32, 6⟩, ⟨204, 4, 12288, 4, 4⟩], 4, 4096⟩ ∧
    Parse_ELF_Executable
        (elfHeaderBytes 4096 52 3 ++ programHeaderBytes 148 4096 16 16 5
          ++ programHeaderBytes 164 8192 8 32 6 ++ programHeaderBytes 172 12288 4 4 4
          ++ List.replicate 28 0) 176
        ⟨[⟨0, 0, 0, 0, 0⟩, ⟨0, 0, 0, 0, 0⟩, ⟨0, 0, 0, 0, 0⟩], 0, 0⟩
      = ParseResult.returned 0
          ⟨[⟨148, 16, 4096, 16, 5⟩, ⟨164, 8, 8192, 32, 6⟩, ⟨172, 4, 12288, 4, 4⟩], 3, 4096⟩ := by
  decide

/-! ## `Destroy_Semaphore` and the registrations of a thread -/

theorem getIndexInRegThreadList_loop_found (cur : Nat) (regs : List (Option Nat)) (k : Nat)
    (hk : regs.getD k none = some cur) :
    ∀ (n i : Nat), i ≤ k → k < i + n →
      (∀ j, i ≤ j → j < k → regs.getD j none ≠ some cur) →
      getIndexInRegThreadList_loop cur regs n i = k := by
  intro n
  induction n with
  | zero => intro i h1 h2; omega
  | succ n ih =>
    intro i h1 h2 hbefore
    by_cases hik : i = k
    · subst hik
      have h1 : (regs.getD i none == some cur) = true := by rw [hk]; simp
      rw [getIndexInRegThreadList_loop, h1]
      simp only [if_true]
    · have h0 : (regs.getD i none == some cur) = false := by
        have := hbefore i (Nat.le_refl i) (by omega)
        simpa using this
      rw [getIndexInRegThreadList_loop, h0]
      simp only [Bool.false_eq_true, if_false]
      exact ih (i + 1) (by omega) (by omega) (fun j h3 h4 => hbefore j (by omega) h4)

theorem getIndexInRegThreadList_registered (cur : Nat) (sem : Semaphore) (k : Nat)
    (hlt : (k : Int) < sem.registeredThreadCount)
    (hk : sem.registeredThreads.getD k none = some cur)
    (hfirst : ∀ j, j < k → sem.registeredThreads.getD j none ≠ some cur) :
    getIndexInRegThreadList cur sem = (k : Int) := by
  unfold getIndexInRegThreadList
  rw [getIndexInRegThreadList_loop_found cur _ k hk _ 0 (Nat.zero_le k) (by omega)
    (fun j _ h => hfirst j h)]
  have hne : ((k : Int) != sem.registeredThreadCount) = true := by
    simp only [bne_iff_ne, ne_eq]
    omega
  simp only [hne, if_true]

theorem Destroy_Semaphore_shift_getD (n : Nat) : ∀ (regs : List (Option Nat)) (i j : Nat),
    i + n ≤ regs.length →
    (Destroy_Semaphore_shift regs n i).getD j none =
      if i ≤ j ∧ j < i + n then regs.getD (j + 1) none else regs.getD j none := by
  induction n with
  | zero =>
    intro regs i j _
    rw [Destroy_Semaphore_shift, if_neg (by omega)]
  | succ n ih =>
    intro regs i j hlen
    have hset : ∀ m, (regs.set i (regs.getD (i + 1) none)).getD m none =
        if i = m then regs.getD (i + 1) none else regs.getD m none := by
      intro m
      simp only [List.getD_eq_getElem?_getD, List.getElem?_set]
      by_cases him : i = m
      · subst him
        have hl : i < regs.length := by omega
        simp [hl]
      · simp [him]
    rw [Destroy_Semaphore_shift, ih _ _ _ (by rw [List.length_set]; omega), hset, hset]
    by_cases h1 : i + 1 ≤ j ∧ j < i + 1 + n
    · rw [if_pos h1, if_neg (by omega), if_pos (by omega)]
    · rw [if_neg h1]
      by_cases h2 : i = j
      · rw [if_pos h2, if_pos (by omega), h2]
      · rw [if_neg h2, if_neg (by omega)]

theorem isSemExistBySID_first (sid : Int) : ∀ (l : List Semaphore) (idx : Nat) (sem : Semaphore),
    l[idx]? = some sem → sem.semaphoreID = sid →
    (∀ (j : Nat) (sj : Semaphore), j < idx → l[j]? = some sj → sj.semaphoreID ≠ sid) →
    isSemExistBySID l sid = some idx := by
  intro l
  induction l with
  | nil => intro idx sem h; simp at h
  | cons x r ih =>
    intro idx sem h hid hbefore
    cases idx with
    | zero =>
      simp only [List.getElem?_cons_zero, Option.some.injEq] at h
      simp [isSemExistBySID, h, hid]
    | succ idx =>
      have hx : x.semaphoreID ≠ sid := hbefore 0 x (by omega) (by simp)
      have hb : (x.semaphoreID == sid) = false := by simpa using hx
      simp only [List.getElem?_cons_succ] at h
      simp only [isSemExistBySID, hb, Bool.false_eq_true, if_false]
      rw [ih idx sem h hid (fun j sj hj hjs => hbefore (j + 1) sj (by omega) (by simpa using hjs))]
      rfl

theorem isSemExistBySID_none (sid : Int) : ∀ (l : List Semaphore),
    (∀ sem ∈ l, sem.semaphoreID ≠ sid) → isSemExistBySID l sid = none := by
  intro l
  induction l with
  | nil => intro _; rfl
  | cons x r ih =>
    intro h
    have hb : (x.semaphoreID == sid) = false := by
      simpa using h x (List.mem_cons_self x r)
    simp only [isSemExistBySID, hb, Bool.false_eq_true, if_false]
    rw [ih (fun sem hs => h sem (List.mem_cons_of_mem x hs))]
    rfl

theorem Destroy_Semaphore_regs_not_registered (cur : Nat) (sem : Semaphore) (k : Nat)
    (hlen : sem.registeredThreadCount ≤ sem.registeredThreads.length)
    (hk : (k : Int) < sem.registeredThreadCount)
    (honce : ∀ j : Nat, (j : Int) < sem.registeredThreadCount →
      sem.registeredThreads.getD j none = some cur → j = k) :
    ∀ i : Nat, (i : Int) < sem.registeredThreadCount - 1 →
      ((Destroy_Semaphore_shift sem.registeredThreads
          (sem.registeredThreadCount - 1 - (k : Int)).toNat k).set
          (sem.registeredThreadCount - 1).toNat none).getD i none ≠ some cur := by
  intro i hi
  have hne : (sem.registeredThreadCount - 1).toNat ≠ i := by omega
  have hset : ((Destroy_Semaphore_shift sem.registeredThreads
      (sem.registeredThreadCount - 1 - (k : Int)).toNat k).set
      (sem.registeredThreadCount - 1).toNat none).getD i none
      = (Destroy_Semaphore_shift sem.registeredThreads
          (sem.registeredThreadCount - 1 - (k : Int)).toNat k).getD i none := by
    simp only [List.getD_eq_getElem?_getD, List.getElem?_set, hne, if_false]
  rw [hset, Destroy_Semaphore_shift_getD _ _ _ _ (by omega)]
  by_cases hc : k ≤ i ∧ i < k + (sem.registeredThreadCount - 1 - (k : Int)).toNat
  · rw [if_pos hc]
    intro hEq
    have := honce (i + 1) (by omega) hEq
    omega
  · rw [if_neg hc]
    intro hEq
    have := honce i (by omega) hEq
    omega

/-- C11 as amended: when the semaphore at position `idx` is the only live one
with id `sid` and the calling thread occupies exactly one slot `k` of its
registered array, `Destroy_Semaphore(sid)` returns 0, afterwards the caller is
in the registered set of no semaphore with id `sid`, and a following `V(sid)` or
`P(sid)` by the caller returns -1 without changing the state. -/
theorem Destroy_Semaphore_single_registration (priority : Nat → Int) (cur : Nat) (sid : Int)
    (st : SemState) (idx k : Nat) (sem : Semaphore)
    (hsid : 0 < sid)
    (hget : st.g_semList[idx]? = some sem)
    (hid : sem.semaphoreID = sid)
    (hunique : ∀ (j : Nat) (sj : Semaphore), st.g_semList[j]? = some sj →
      sj.semaphoreID = sid → j = idx)
    (hlen : sem.registeredThreadCount ≤ sem.registeredThreads.length)
    (hk : (k : Int) < sem.registeredThreadCount)
    (hreg : sem.registeredThreads.getD k none = some cur)
    (honce : ∀ j : Nat, (j : Int) < sem.registeredThreadCount →
      sem.registeredThreads.getD j none = some cur → j = k) :
    ∃ st1 woken, Destroy_Semaphore cur sid st = some (0, st1, woken) ∧
      (∀ (j : Nat) (sj : Semaphore), st1.g_semList[j]? = some sj → sj.semaphoreID = sid →
        ∀ i : Nat, (i : Int) < sj.registeredThreadCount →
          sj.registeredThreads.getD i none ≠ some cur) ∧
      V priority cur sid st1 = some (-1, st1, none) ∧
      P_begin cur sid st1 = some (PEntry.returned (-1) st1) := by
  have hgt : sid > 0 := hsid
  have hfind : isSemExistBySID st.g_semList sid = some idx :=
    isSemExistBySID_first sid _ idx sem hget hid (fun j sj hj hjs hEq => by
      have := hunique j sj hjs hEq
      omega)
  have hidx : getIndexInRegThreadList cur sem = (k : Int) :=
    getIndexInRegThreadList_registered cur sem k hk hreg (fun j hj hEq => by
      have := honce j (by omega) hEq
      omega)
  have hnotreg := Destroy_Semaphore_regs_not_registered cur sem k hlen hk honce
  have hkne : ¬ ((k : Int) = -1) := by omega
  have hidxlt : idx < st.g_semList.length := by
    by_contra hge
    rw [List.getElem?_eq_none (Nat.not_lt.mp hge)] at hget
    exact Option.noConfusion hget
  by_cases hzero : sem.registeredThreadCount - 1 = 0
  · -- the last registration: the semaphore leaves the list
    have hnone : ∀ s1 ∈ st.g_semList.eraseIdx idx, s1.semaphoreID ≠ sid := by
      intro s1 hs1 hEq
      obtain ⟨j, hj⟩ := List.mem_iff_getElem?.mp hs1
      rw [List.getElem?_eraseIdx] at hj
      by_cases hjl : j < idx
      · rw [if_pos hjl] at hj
        have := hunique j s1 hj hEq
        omega
      · rw [if_neg hjl] at hj
        have := hunique (j + 1) s1 hj hEq
        omega
    have hlook : isSemExistBySID (st.g_semList.eraseIdx idx) sid = none :=
      isSemExistBySID_none sid _ hnone
    refine ⟨{ g_semList := st.g_semList.eraseIdx idx, g_curSID := st.g_curSID - 1 },
      sem.waitingThreads, ?_, ?_, ?_, ?_⟩
    · simp [Destroy_Semaphore, hgt, hfind, hget, hidx, hkne, hzero]
    · intro j sj hj hEq
      exact absurd hEq (hnone sj (List.getElem?_mem hj))
    · simp [V, hgt, hlook]
    · simp [P_begin, hgt, hlook]
  · -- other registrations remain: the semaphore stays, without the caller
    obtain ⟨sem1, hsem1⟩ : ∃ sem1 : Semaphore, sem1 = { sem with
        registeredThreadCount := sem.registeredThreadCount - 1,
        registeredThreads := (Destroy_Semaphore_shift sem.registeredThreads
          (sem.registeredThreadCount - 1 - (k : Int)).toNat k).set
          (sem.registeredThreadCount - 1).toNat none } := ⟨_, rfl⟩
    have hid1 : sem1.semaphoreID = sid := by rw [hsem1]; exact hid
    have hnotreg1 : ∀ i : Nat, (i : Int) < sem1.registeredThreadCount →
        sem1.registeredThreads.getD i none ≠ some cur := by
      rw [hsem1]
      exact hnotreg
    have hwf1 : 0 ≤ sem1.registeredThreadCount := by
      rw [hsem1]
      simp only
      omega
    have hget1 : (st.g_semList.set idx sem1)[idx]? = some sem1 := by
      simp [hidxlt]
    have hlook := isSemExistBySID_first sid _ idx _ hget1 hid1 (fun j sj hj hjs hEq => by
      rw [List.getElem?_set_ne (by omega)] at hjs
      have := hunique j sj hjs hEq
      omega)
    have hidx1 := getIndexInRegThreadList_not_registered cur sem1 hwf1 hnotreg1
    refine ⟨{ st with g_semList := st.g_semList.set idx sem1 }, [], ?_, ?_, ?_, ?_⟩
    · rw [hsem1]
      simp [Destroy_Semaphore, hgt, hfind, hget, hidx, hkne, hzero]
    · intro j sj hj hEq
      by_cases hjid : j = idx
      · subst hjid
        simp only at hj
        rw [hget1] at hj
        rw [← Option.some.inj hj]
        exact hnotreg1
      · simp only at hj
        rw [List.getElem?_set_ne (fun h => hjid h.symm)] at hj
        exact absurd (hunique j sj hj hEq) hjid
    · simp [V, hgt, hlook, hget1, hidx1]
    · simp [P_begin, hgt, hlook, hget1, hidx1]

/-- Witness for the amended C11: threads 1 and 2 are registered once each on
semaphore 1, and thread 1 destroys it. -/
theorem Destroy_Semaphore_single_registration_witness :
    ∃ st1 woken, Destroy_Semaphore 1 1 ⟨[⟨1, 115 :: List.replicate 25 0, 1, 2, some 1 :: some 2 :: List.replicate 58 none, []⟩], 1⟩ = some (0, st1, woken) ∧
      (∀ (j : Nat) (sj : Semaphore), st1.g_semList[j]? = some sj → sj.semaphoreID = 1 →
        ∀ i : Nat, (i : Int) < sj.registeredThreadCount →
          sj.registeredThreads.getD i none ≠ some 1) ∧
      V (fun _ => 1) 1 1 st1 = some (-1, st1, none) ∧
      P_begin 1 1 st1 = some (PEntry.returned (-1) st1) :=
  Destroy_Semaphore_single_registration (fun _ => 1) 1 1 ⟨[⟨1, 115 :: List.replicate 25 0, 1, 2, some 1 :: some 2 :: List.replicate 58 none, []⟩], 1⟩ 0 0 ⟨1, 115 :: List.replicate 25 0, 1, 2, some 1 :: some 2 :: List.replicate 58 none, []⟩
    (by decide) rfl rfl
    (fun j sj hj _ => by
      cases j with
      | zero => rfl
      | succ j => simp at hj)
    (by decide) (by decide) (by decide)
    (fun j hj hEq => by
      have hj2 : j = 0 ∨ j = 1 := by
        simp only at hj
        omega
      rcases hj2 with h | h
      · exact h
      · subst h
        exact absurd hEq (by decide))

/-- Counterexample to C11 as stated: thread 1 calls `Create_Semaphore` twice for
the name `s` (both calls return id 1 and each registers the caller), then
`Destroy_Semaphore(1)` returns 0 and removes one of the two registrations; the
following `V(1)` by thread 1 returns 0, thread 1 still being registered.  The
same happens when two live semaphores share an id: after thread 1 creates `a`,
`b`, destroys `a` and creates `c`, both `b` and `c` have id 2;
`Destroy_Semaphore(2)` frees `b`, and `V(2)` then succeeds on `c`. -/
theorem Destroy_Semaphore_double_registration :
    ((Create_Semaphore 1 true [115] 1 1 ⟨[], 0⟩).bind (fun r1 =>
      (Create_Semaphore 1 true [115] 1 1 r1.2).bind (fun r2 =>
        (Destroy_Semaphore 1 r2.1 r2.2).bind (fun r3 =>
          (V (fun _ => 1) 1 r2.1 r3.2.1).map (fun r4 =>
            ([r1.1, r2.1, r3.1, r4.1],
              r3.2.1.g_semList.map (fun sem =>
                (sem.registeredThreadCount, sem.registeredThreads.take 2))))))))
    = some ([1, 1, 0, 0], [(1, [some 1, none])]) ∧
    ((Create_Semaphore 1 true [97] 1 0 ⟨[], 0⟩).bind (fun r1 =>
      (Create_Semaphore 1 true [98] 1 0 r1.2).bind (fun r2 =>
        (Destroy_Semaphore 1 r1.1 r2.2).bind (fun r3 =>
          (Create_Semaphore 1 true [99] 1 0 r3.2.1).bind (fun r4 =>
            (Destroy_Semaphore 1 r4.1 r4.2).bind (fun r5 =>
              (V (fun _ => 1) 1 r4.1 r5.2.1).map (fun r6 =>
                ([r2.1, r4.1, r5.1, r6.1],
                  r5.2.1.g_semList.map (fun sem =>
                    (sem.semaphoreID, cstring sem.semaphoreName))))))))))
    = some ([2, 2, 0, 0], [(2, [99])]) := by
  decide

/-! ## The timer tick (`timer.c`) -/

theorem toUInt32_of_nonneg (x : Int) (h0 : 0 ≤ x) (h1 : x < 2 ^ 31) :
    ((toUInt32 x : Nat) : Int) = x := by
  unfold toUInt32
  rw [WORD_eq]
  have h2 : x % ((4294967296 : Nat) : Int) = x := Int.emod_eq_of_lt h0 (by omega)
  rw [h2]
  exact Int.toNat_of_nonneg h0

/-- C21: on a timer tick with no timer event pending (nothing in the tree
registers one), in a state whose two tick counters are below the largest
`ulong_t`, whose quantum is a non-negative `int` and whose current thread has a
stored level of at most 3: `g_numTicks` and the current thread's `numTicks`
each grow by exactly one; if the new `numTicks` is at least the quantum,
`g_needReschedule` is set and, under multilevel feedback, the stored level of
the current thread becomes `min (level + 1) 3`; if the new `numTicks` is below
the quantum, `g_needReschedule` and the stored level are unchanged. -/
theorem Timer_Interrupt_Handler_tick (s : Scheduler)
    (hq0 : 0 ≤ s.g_Quantum) (hq1 : s.g_Quantum < 2 ^ 31)
    (hg : s.g_numTicks + 1 < WORD)
    (hn : (s.threads s.g_currentThread).numTicks + 1 < WORD)
    (hl : (s.threads s.g_currentThread).currentReadyQueue ≤ 3) :
    ((Timer_Interrupt_Handler [] s).2.g_numTicks = s.g_numTicks + 1 ∧
      ((Timer_Interrupt_Handler [] s).2.threads s.g_currentThread).numTicks
        = (s.threads s.g_currentThread).numTicks + 1) ∧
    (s.g_Quantum ≤ (((Timer_Interrupt_Handler [] s).2.threads s.g_currentThread).numTicks : Int) →
      (Timer_Interrupt_Handler [] s).2.g_needReschedule = true ∧
      (s.g_curSchedulingPolicy = MULTILEVEL_FEEDBACK →
        ((Timer_Interrupt_Handler [] s).2.threads s.g_currentThread).currentReadyQueue
          = min ((s.threads s.g_currentThread).currentReadyQueue + 1) 3)) ∧
    ((((Timer_Interrupt_Handler [] s).2.threads s.g_currentThread).numTicks : Int) < s.g_Quantum →
      (Timer_Interrupt_Handler [] s).2.g_needReschedule = s.g_needReschedule ∧
      ((Timer_Interrupt_Handler [] s).2.threads s.g_currentThread).currentReadyQueue
        = (s.threads s.g_currentThread).currentReadyQueue) := by
  have hu := toUInt32_of_nonneg s.g_Quantum hq0 hq1
  have hg' : (s.g_numTicks + 1) % WORD = s.g_numTicks + 1 := Nat.mod_eq_of_lt hg
  have hn' : ((s.threads s.g_currentThread).numTicks + 1) % WORD
      = (s.threads s.g_currentThread).numTicks + 1 := Nat.mod_eq_of_lt hn
  have h4 : MAX_QUEUE_LEVEL - 1 = 3 := rfl
  by_cases hc : (s.threads s.g_currentThread).numTicks + 1 ≥ toUInt32 s.g_Quantum
  · have hc2 : s.g_Quantum ≤ (((s.threads s.g_currentThread).numTicks + 1 : Nat) : Int) := by
      rw [← hu]
      exact_mod_cast hc
    by_cases hlv : (s.threads s.g_currentThread).currentReadyQueue < 3
    · simp [Timer_Interrupt_Handler, Timer_Interrupt_Handler_events, setThread, hg', hn', hc,
        h4, hlv]
      omega
    · simp [Timer_Interrupt_Handler, Timer_Interrupt_Handler_events, setThread, hg', hn', hc,
        h4, hlv]
      omega
  · have hc2 : (((s.threads s.g_currentThread).numTicks + 1 : Nat) : Int) < s.g_Quantum := by
      rw [← hu]
      exact_mod_cast Nat.lt_of_not_ge hc
    simp [Timer_Interrupt_Handler, Timer_Interrupt_Handler_events, setThread, hg', hn', hc]
    omega

/-- Witness for C21: the fourth tick of thread 0 at level 1, quantum 4, under
multilevel feedback. -/
theorem Timer_Interrupt_Handler_tick_witness :
    ((0 ≤ tickExample.g_Quantum ∧ tickExample.g_Quantum < 2 ^ 31) ∧
      tickExample.g_numTicks + 1 < WORD ∧
      (tickExample.threads tickExample.g_currentThread).numTicks + 1 < WORD ∧
      (tickExample.threads tickExample.g_currentThread).currentReadyQueue ≤ 3) ∧
    ((Timer_Interrupt_Handler [] tickExample).2.g_numTicks = tickExample.g_numTicks + 1 ∧
      ((Timer_Interrupt_Handler [] tickExample).2.threads tickExample.g_currentThread).numTicks
        = (tickExample.threads tickExample.g_currentThread).numTicks + 1) :=
  ⟨⟨⟨by decide, by decide⟩, by decide, by decide, by decide⟩,
    (Timer_Interrupt_Handler_tick tickExample (by decide) (by decide) (by decide) (by decide)
      (by decide)).1⟩

/-! ## The range of the stored level -/

theorem Make_Runnable_some (s s1 : Scheduler) (k : Nat) (h : Make_Runnable s k = some s1) :
    ∃ l, l < 4 ∧ k ∉ s.s_runQueue l ∧
      s1 = { s with
        threads := setThread s.threads k { s.threads k with blocked := false },
        s_runQueue := setQueue s.s_runQueue l (s.s_runQueue l ++ [k]) } := by
  simp only [Make_Runnable] at h
  generalize (if (s.g_curSchedulingPolicy == ROUND_ROBIN) = true then (0 : Int)
    else if (some k == s.IdleThread) = true then MAX_QUEUE_LEVEL - 1
    else (s.threads k).currentReadyQueue) = cq at h
  by_cases hr : cq ≥ 0 ∧ cq < MAX_QUEUE_LEVEL
  · rw [if_neg (fun hn => hn hr)] at h
    by_cases hm : k ∈ s.s_runQueue cq.toNat
    · simp [Enqueue_Thread, hm] at h
    · simp only [Enqueue_Thread, hm, if_false, Option.some.injEq] at h
      refine ⟨cq.toNat, ?_, hm, h.symm⟩
      have : MAX_QUEUE_LEVEL = 4 := rfl
      rw [this] at hr
      omega
  · rw [if_pos hr] at h
    exact Option.noConfusion h

theorem Make_Runnable_level (s s1 : Scheduler) (k : Nat) (h : Make_Runnable s k = some s1) :
    ∀ t, (s1.threads t).currentReadyQueue = (s.threads t).currentReadyQueue := by
  intro t
  obtain ⟨l, _, _, rfl⟩ := Make_Runnable_some s s1 k h
  by_cases ht : t = k
  · subst ht
    simp [setThread]
  · simp [setThread, ht]

theorem Init_Thread_level (s : Scheduler) (k : Nat) (p : Int) (d : Bool) (h : LevelInv s) :
    LevelInv (Init_Thread s k p d) := by
  intro t
  by_cases ht : t = k
  · subst ht
    simp [Init_Thread, setThread]
  · simpa [Init_Thread, setThread, ht] using h t

theorem Start_Kernel_Thread_level (s s1 : Scheduler) (page : Option Nat) (p : Int) (d : Bool)
    (r : Option Nat) (h : Start_Kernel_Thread s page p d = some (s1, r)) (hi : LevelInv s) :
    LevelInv s1 := by
  unfold Start_Kernel_Thread at h
  cases page with
  | none =>
    simp only [Option.some.injEq, Prod.mk.injEq] at h
    rw [← h.1]
    exact hi
  | some k =>
    simp only at h
    split at h
    · exact Option.noConfusion h
    · split at h
      · exact Option.noConfusion h
      · rename_i s2 hm
        simp only [Option.some.injEq, Prod.mk.injEq] at h
        rw [← h.1]
        intro t
        rw [Make_Runnable_level _ _ _ hm t]
        exact Init_Thread_level s k p d hi t

theorem Init_Scheduler_level (m : Nat) (idle reaper : Option Nat) (s : Scheduler)
    (h : Init_Scheduler bootScheduler m idle reaper = some s) : LevelInv s := by
  unfold Init_Scheduler at h
  simp only at h
  split at h
  · exact Option.noConfusion h
  · split at h
    · exact Option.noConfusion h
    · rename_i s1 r1 h1
      split at h
      · exact Option.noConfusion h
      · rename_i s2 r2 h2
        injection h with h
        subst h
        refine Start_Kernel_Thread_level _ _ _ _ _ _ h2 ?_
        refine Start_Kernel_Thread_level _ _ _ _ _ _ h1 ?_
        intro t
        by_cases ht : t = m
        · subst ht
          simp [Init_Thread, setThread]
        · simp [Init_Thread, setThread, ht, bootScheduler]

theorem Timer_Interrupt_Handler_level (s : Scheduler) (h : LevelInv s) :
    LevelInv (Timer_Interrupt_Handler [] s).2 := by
  intro t
  have h4 : MAX_QUEUE_LEVEL - 1 = 3 := rfl
  have ht := h t
  have hc := h s.g_currentThread
  unfold Timer_Interrupt_Handler
  simp only [Timer_Interrupt_Handler_events, h4]
  split
  · split
    · by_cases e : t = s.g_currentThread
      · subst e
        rename_i hlt
        simp only [setThread, if_true] at hlt ⊢
        omega
      · simpa [setThread, e] using ht
    · by_cases e : t = s.g_currentThread
      · subst e
        simpa [setThread] using ht
      · simpa [setThread, e] using ht
  · by_cases e : t = s.g_currentThread
    · subst e
      simpa [setThread] using ht
    · simpa [setThread, e] using ht

theorem Wait_level (nullPid : Int) (s s1 : Scheduler) (q q1 : List Nat)
    (hw : Wait nullPid s q = some (s1, q1)) (h : LevelInv s) : LevelInv s1 := by
  intro t
  have ht := h t
  have hc := h s.g_currentThread
  unfold Wait at hw
  simp only at hw
  split at hw
  · exact Option.noConfusion hw
  · simp only [Option.some.injEq, Prod.mk.injEq] at hw
    rw [← hw.1]
    by_cases e : t = s.g_currentThread
    · subst e
      simp only [setThread, if_true]
      split
      · rename_i hcond
        simp only [Bool.and_eq_true, decide_eq_true_eq] at hcond
        simp only
        omega
      · exact ht
    · simpa [setThread, e] using ht

theorem Chang_Scheduling_Policy_threads (s s1 : Scheduler) (p q rc : Int)
    (h : Chang_Scheduling_Policy s p q = some (rc, s1)) : s1.threads = s.threads := by
  unfold Chang_Scheduling_Policy at h
  split at h
  · simp only at h
    split at h
    · exact Option.noConfusion h
    · simp only [Option.some.injEq, Prod.mk.injEq] at h
      rw [← h.2]
  · simp only [Option.some.injEq, Prod.mk.injEq] at h
    rw [← h.2]

theorem LevelReachable_inv (s : Scheduler) (h : LevelReachable s) : LevelInv s := by
  induction h with
  | init m idle reaper s hs => exact Init_Scheduler_level m idle reaper s hs
  | create s page p d s1 k _ hs ih => exact Start_Kernel_Thread_level _ _ _ _ _ _ hs ih
  | tick s _ ih => exact Timer_Interrupt_Handler_level s ih
  | wait n s q s1 q1 _ hw ih => exact Wait_level n s s1 q q1 hw ih
  | policy s p q rc s1 _ hp ih =>
    intro t
    rw [Chang_Scheduling_Policy_threads s s1 p q rc hp]
    exact ih t
  | other s s1 _ he ih =>
    intro t
    rw [he t]
    exact ih t

/-- C22: in every state reached from `Init_Scheduler` by thread creation, timer
ticks, `Wait` calls, policy changes and steps that do not write a stored level,
every thread's `currentReadyQueue` is between 0 and 3, and `Make_Runnable`
succeeds on every thread that is on no run queue: its range assertion holds,
only the membership assertion of `Enqueue_Thread` can stop it. -/
theorem level_range_invariant (s : Scheduler) (h : LevelReachable s) :
    (∀ t, 0 ≤ (s.threads t).currentReadyQueue ∧ (s.threads t).currentReadyQueue ≤ 3) ∧
    (∀ t, (∀ l, t ∉ s.s_runQueue l) → ∃ s1, Make_Runnable s t = some s1) := by
  have hinv := LevelReachable_inv s h
  refine ⟨hinv, fun t hn => Make_Runnable_succeeds s t (hinv t).1 ?_ hn⟩
  have := (hinv t).2
  omega

/-- Witness for C22: the state after `Init_Scheduler` and two timer ticks. -/
theorem level_range_invariant_witness :
    LevelReachable (Timer_Interrupt_Handler [] (Timer_Interrupt_Handler [] bootedScheduler).2).2 ∧
    ((∀ t, 0 ≤ (((Timer_Interrupt_Handler []
          (Timer_Interrupt_Handler [] bootedScheduler).2).2).threads t).currentReadyQueue ∧
        (((Timer_Interrupt_Handler []
          (Timer_Interrupt_Handler [] bootedScheduler).2).2).threads t).currentReadyQueue ≤ 3) ∧
      (∀ t, (∀ l, t ∉ ((Timer_Interrupt_Handler []
          (Timer_Interrupt_Handler [] bootedScheduler).2).2).s_runQueue l) →
        ∃ s1, Make_Runnable ((Timer_Interrupt_Handler []
          (Timer_Interrupt_Handler [] bootedScheduler).2).2) t = some s1)) :=
  ⟨LevelReachable.tick _ (LevelReachable.tick _ (LevelReachable.init 0 (some 1) (some 2) _ rfl)),
    level_range_invariant _
      (LevelReachable.tick _ (LevelReachable.tick _ (LevelReachable.init 0 (some 1) (some 2) _ rfl)))⟩

/-! ## The count of a semaphore -/

/-- C23 (code defect, the one of C7): threads 1, 2 and 3 are registered on a
semaphore created with count 0.  Thread 1 calls `P`, finds 0 and is suspended;
thread 2 calls `V` (count 1, thread 1 made runnable); thread 3 calls `P` before
thread 1 runs and takes the count to 0; thread 1 then returns from `Wait` and
decrements without testing the count again.  The counts after the five steps
are 0, 0, 1, 0 and -1. -/
theorem semaphore_count_negative :
    ((createAll ⟨[], 0⟩ [(1, [109], 0), (2, [109], 0), (3, [109], 0)]).bind (fun st0 =>
      (P_begin 1 1 st0).bind (fun e1 =>
        match e1 with
        | PEntry.returned _ _ => none
        | PEntry.blocked sem st1 =>
          (V (fun _ => 1) 2 1 st1).bind (fun r2 =>
            (P_begin 3 1 r2.2.1).bind (fun e3 =>
              match e3 with
              | PEntry.blocked _ _ => none
              | PEntry.returned rc3 st3 =>
                some ([st0.g_semList.map (fun s => s.value),
                       st1.g_semList.map (fun s => s.value),
                       r2.2.1.g_semList.map (fun s => s.value),
                       st3.g_semList.map (fun s => s.value),
                       (P_resume sem st3).2.g_semList.map (fun s => s.value)],
                      r2.2.2, [r2.1, rc3, (P_resume sem st3).1]))))))
    = some ([[0], [0], [1], [0], [-1]], some 1, [0, 0, 0]) := by
  decide

/-! ## Mutexes (`synch.c`) -/

theorem Wait_some (nullPid : Int) (s : Scheduler) (q : List Nat)
    (h : s.g_currentThread ∉ q) :
    ∃ s1, Wait nullPid s q = some (s1, q ++ [s.g_currentThread]) ∧
      s1.g_currentThread = s.g_currentThread := by
  simp [Wait, Enqueue_Thread, h]

theorem Wait_queue (nullPid : Int) (s s1 : Scheduler) (q q1 : List Nat)
    (h : Wait nullPid s q = some (s1, q1)) :
    q1 = q ++ [s.g_currentThread] ∧ s.g_currentThread ∉ q := by
  unfold Wait at h
  simp only [Enqueue_Thread] at h
  by_cases hm : s.g_currentThread ∈ q
  · simp [hm] at h
  · simp only [hm, if_false, Option.some.injEq, Prod.mk.injEq] at h
    exact ⟨h.2.symm, hm⟩

/-- C25: `Mutex_Init` leaves any mutex, whatever its fields held before,
unlocked with a null owner, which satisfies the invariant "locked exactly when
the owner is non-null".  `Mutex_Lock` by the holder stops in its assertion; by
any other thread it runs the waiting loop, which on an unlocked mutex returns at
once with the mutex locked and owned by the calling thread (the invariant holds
then), and on a locked mutex suspends the caller at the back of the wait queue
with state and owner untouched, so that the invariant holds afterwards when it
held before (a woken thread repeats the same test); `Mutex_Unlock` by a thread
that does not hold the mutex stops in its assertion; by the holder it returns
with the mutex unlocked and the owner null (the invariant holds then), unless an
assertion inside `Wake_Up_One` stops the kernel. -/
theorem mutex_invariant (nullPid : Int) (s : Scheduler) (mutex : Mutex) :
    (MutexInv (Mutex_Init mutex) ∧ (Mutex_Init mutex).state = MUTEX_UNLOCKED ∧
      (Mutex_Init mutex).owner = none) ∧
    (IS_HELD s mutex = true → Mutex_Lock nullPid s mutex = none) ∧
    (IS_HELD s mutex = false →
      Mutex_Lock nullPid s mutex = Mutex_Lock_Imp_loop nullPid s mutex) ∧
    (mutex.state ≠ MUTEX_LOCKED →
      ∃ m1, Mutex_Lock_Imp_loop nullPid s mutex = some (LockEntry.acquired s m1) ∧
        MutexInv m1 ∧ m1.state = MUTEX_LOCKED ∧ m1.owner = some s.g_currentThread ∧
        m1.waitQueue = mutex.waitQueue) ∧
    (mutex.state = MUTEX_LOCKED → s.g_currentThread ∉ mutex.waitQueue →
      ∃ s1 m1, Mutex_Lock_Imp_loop nullPid s mutex = some (LockEntry.blocked s1 m1) ∧
        (MutexInv mutex → MutexInv m1) ∧ m1.state = mutex.state ∧ m1.owner = mutex.owner ∧
        m1.waitQueue = mutex.waitQueue ++ [s.g_currentThread]) ∧
    (mutex.state = MUTEX_LOCKED → s.g_currentThread ∈ mutex.waitQueue →
      Mutex_Lock_Imp_loop nullPid s mutex = none) ∧
    (IS_HELD s mutex = false → Mutex_Unlock s mutex = none) ∧
    (IS_HELD s mutex = true →
      (∀ s1 m1, Mutex_Unlock s mutex = some (s1, m1) →
        MutexInv m1 ∧ m1.state = MUTEX_UNLOCKED ∧ m1.owner = none) ∧
      (mutex.waitQueue = [] →
        Mutex_Unlock s mutex = some (s, { mutex with state := MUTEX_UNLOCKED, owner := none })) ∧
      (Mutex_Unlock s mutex = none ↔
        mutex.waitQueue ≠ [] ∧ Wake_Up_One s mutex.waitQueue = none)) := by
  have hU : MUTEX_UNLOCKED ≠ MUTEX_LOCKED := by decide
  refine ⟨⟨?_, rfl, rfl⟩, ?_, ?_, ?_, ?_, ?_, ?_, ?_⟩
  · simp [MutexInv, Mutex_Init, hU]
  · intro h
    simp [Mutex_Lock, h]
  · intro h
    simp [Mutex_Lock, h]
  · intro h
    refine ⟨{ mutex with state := MUTEX_LOCKED, owner := some s.g_currentThread }, ?_, ?_,
      rfl, rfl, rfl⟩
    · simp [Mutex_Lock_Imp_loop, h]
    · simp [MutexInv]
  · intro h hm
    obtain ⟨s1, hs1, _⟩ := Wait_some nullPid s mutex.waitQueue hm
    refine ⟨s1, { mutex with waitQueue := mutex.waitQueue ++ [s.g_currentThread] }, ?_, ?_,
      rfl, rfl, rfl⟩
    · simp [Mutex_Lock_Imp_loop, h, hs1]
    · exact fun hinv => hinv
  · intro h hm
    have : Wait nullPid s mutex.waitQueue = none := by
      simp [Wait, Enqueue_Thread, hm]
    simp [Mutex_Lock_Imp_loop, h, this]
  · intro h
    simp [Mutex_Unlock, h]
  · intro h
    refine ⟨?_, ?_, ?_⟩
    · intro s1 m1 hu
      simp only [Mutex_Unlock, h, Bool.not_true, Bool.false_eq_true, if_false] at hu
      split at hu
      · split at hu
        · exact Option.noConfusion hu
        · simp only [Option.some.injEq, Prod.mk.injEq] at hu
          rw [← hu.2]
          simp [MutexInv, hU]
      · simp only [Option.some.injEq, Prod.mk.injEq] at hu
        rw [← hu.2]
        simp [MutexInv, hU]
    · intro hq
      simp [Mutex_Unlock, h, hq]
    · simp only [Mutex_Unlock, h, Bool.not_true, Bool.false_eq_true, if_false]
      cases hq : mutex.waitQueue with
      | nil => simp
      | cons a r =>
        cases hw : Wake_Up_One s (a :: r) with
        | none => simp [hw]
        | some p => simp [hw]

/-- Witness for C25: `Mutex_Init` on a mutex whose fields hold arbitrary values
(state 77, owner 9) that violate the invariant; and thread 0 of the boot state
meets a mutex held by thread 1 on whose queue thread 2 waits. -/
theorem mutex_invariant_witness :
    (¬ MutexInv garbageMutex ∧ MutexInv (Mutex_Init garbageMutex) ∧
      (Mutex_Init garbageMutex).state = MUTEX_UNLOCKED ∧
      (Mutex_Init garbageMutex).owner = none) ∧
    MutexInv mutexExample ∧
    (∃ s1 m1, Mutex_Lock_Imp_loop 0 bootScheduler mutexExample
          = some (LockEntry.blocked s1 m1) ∧
        MutexInv m1 ∧ m1.state = mutexExample.state ∧ m1.owner = mutexExample.owner ∧
        m1.waitQueue = mutexExample.waitQueue ++ [bootScheduler.g_currentThread]) :=
  ⟨⟨by simp [MutexInv, garbageMutex, MUTEX_LOCKED],
      (mutex_invariant 0 bootScheduler garbageMutex).1⟩,
    by simp [MutexInv, mutexExample],
    (((mutex_invariant 0 bootScheduler mutexExample).2.2.2.2.1 (by decide) (by decide)).imp
      (fun _ h => h.imp
        (fun _ h1 => ⟨h1.1, h1.2.1 (by simp [MutexInv, mutexExample]), h1.2.2⟩)))⟩

/-! ## `Tlocal_Create` and the interrupt flag -/

/-- C29 (code defect): with all 128 keys allocated, `Tlocal_Create` returns -1
from inside the atomic section, without `End_Int_Atomic`: called with interrupts
enabled it returns with interrupts disabled (counter and destructor table
unchanged).  Called with interrupts disabled it leaves them disabled, and when
a key is free it restores the flag, stores the destructor, hands out the old
counter value as key and increments the counter. -/
theorem Tlocal_Create_leaves_interrupts_disabled (destructor : Option Nat)
    (table : List (Option Nat)) :
    Tlocal_Create destructor ⟨true, 128, table⟩ = some (-1, none, ⟨false, 128, table⟩) ∧
    Tlocal_Create destructor ⟨false, 128, table⟩ = some (-1, none, ⟨false, 128, table⟩) ∧
    (∀ (k : Nat) (iflag : Bool), k < 128 →
      Tlocal_Create destructor ⟨iflag, k, table⟩
        = some (0, some k, ⟨iflag, k + 1, table.set k destructor⟩)) := by
  refine ⟨by simp [Tlocal_Create, Begin_Int_Atomic, Disable_Interrupts, MAX_TLOCAL_KEYS],
    by simp [Tlocal_Create, Begin_Int_Atomic, Disable_Interrupts, MAX_TLOCAL_KEYS], ?_⟩
  intro k iflag hk
  have hne : (k == MAX_TLOCAL_KEYS) = false := by
    simp only [MAX_TLOCAL_KEYS, beq_eq_false_iff_ne]
    omega
  have hmod : (k + 1) % WORD = k + 1 := Nat.mod_eq_of_lt (by rw [WORD_eq]; omega)
  cases iflag <;>
    simp [Tlocal_Create, Begin_Int_Atomic, Disable_Interrupts, End_Int_Atomic,
      Enable_Interrupts, hne, hmod]

/-! ## The escape sequences of the console -/

/-- C30 (code defect): fed `ESC [ ; ; ; ; ; ; ; ; m` from its initial state, the
console counts nine arguments (`Start_Arg` increments `numArgs` without bound),
and `Update_Attributes` reads `argList[8]`, one past the array of eight.  With
eight arguments (`ESC [ 31 ; 44 ; 1 ; 1 ; 1 ; 1 ; 1 ; 1 m`) every access is
inside the array. -/
theorem Update_Attributes_reads_past_argList :
    Put_Buf [27, 91, 59, 59, 59, 59, 59, 59, 59, 59, 109] initialConsole
      = ConsoleResult.outOfBounds 8
          ⟨0, 0, 0, 0, 7, State.S_CMD, [1, 0, 0, 0, 0, 0, 0, 0], 9⟩ ∧
    Put_Buf [27, 91, 51, 49, 59, 52, 52, 59, 49, 59, 49, 59, 49, 59, 49, 59, 49, 59, 49, 109]
        initialConsole
      = ConsoleResult.ok ⟨0, 0, 0, 0, 7, State.S_NORMAL, [31, 44, 1, 1, 1, 1, 1, 0], 0⟩ := by
  decide

/-! ## The extent of the argument block -/

theorem getD_write32_congr (a b : List Nat) (off v j : Nat) (hl : a.length = b.length)
    (h : (off ≤ j ∧ j < off + 4 ∧ off + 4 ≤ a.length) ∨ a.getD j 0 = b.getD j 0) :
    (write32 a off v).getD j 0 = (write32 b off v).getD j 0 := by
  unfold write32
  simp only [getD_set_eq, List.length_set, hl]
  rcases h with ⟨h1, h2, h3⟩ | h
  · split_ifs <;> first | rfl | (exfalso; omega)
  · rw [h]

theorem Format_Argument_Block_loop_determined : ∀ (fuel : Nat) (s : List Nat)
    (u argv dst : Nat) (blk blk2 : List Nat),
    s.length < fuel →
    argv + 4 * ((tokens s).length + 1) ≤ dst →
    dst + strOff (tokens s) (tokens s).length ≤ blk.length →
    blk.length < WORD →
    blk2.length = blk.length →
    (∀ j, (j < argv ∨ (argv + 4 * ((tokens s).length + 1) ≤ j ∧ j < dst)) →
      blk.getD j 0 = blk2.getD j 0) →
    ∃ final final2,
      Format_Argument_Block_loop fuel s u argv dst blk = some final ∧
      Format_Argument_Block_loop fuel s u argv dst blk2 = some final2 ∧
      ∀ j, j < dst + strOff (tokens s) (tokens s).length → final.getD j 0 = final2.getD j 0 := by
  intro fuel
  induction fuel with
  | zero => intro s u argv dst blk blk2 h; omega
  | succ fuel ih =>
    intro s u argv dst blk blk2 hf hargv hdst hW hlen hag
    have hsk := Skip_Whitespace_length s
    rcases token_step s with ⟨h0, ht⟩ | ⟨t, ts, h0, ht, _, hpos, hle, hnz, hget, hts, hlenT⟩
    · rw [ht] at hargv hdst hag ⊢
      simp only [List.length_nil, strOff_zero] at hargv hdst hag ⊢
      refine ⟨write32 blk argv 0, write32 blk2 argv 0, ?_, ?_, ?_⟩
      · simp only [Format_Argument_Block_loop, h0, beq_self_eq_true, if_true]
      · simp only [Format_Argument_Block_loop, h0, beq_self_eq_true, if_true]
      · intro j hj
        apply getD_write32_congr _ _ _ _ _ hlen.symm
        by_cases hin : argv ≤ j ∧ j < argv + 4
        · exact Or.inl ⟨hin.1, hin.2, by omega⟩
        · exact Or.inr (hag j (by omega))
    · rw [ht] at hargv hdst hag ⊢
      simp only [List.length_cons, strOff_cons_succ] at hargv hdst hag ⊢
      have hl := hlenT (by omega)
      have hb : ((Skip_Whitespace s).headD 0 == 0) = false := by simpa using h0
      have hrun : ∀ b : List Nat, Format_Argument_Block_loop (fuel + 1) s u argv dst b =
          Format_Argument_Block_loop fuel ((Skip_Whitespace s).drop t.length) u (argv + 4)
            (dst + t.length + 1)
            ((memcpy (write32 b argv ((u + dst) % WORD)) dst (Skip_Whitespace s) 0
              t.length).set (dst + t.length) 0) := by
        intro b
        simp only [Format_Argument_Block_loop, hb, hl, Bool.false_eq_true, if_false]
      have hlen3 : ∀ b : List Nat, ((memcpy (write32 b argv ((u + dst) % WORD)) dst
          (Skip_Whitespace s) 0 t.length).set (dst + t.length) 0).length = b.length := by
        intro b
        rw [List.length_set, memcpy_length, write32_length]
      have hstep : ∀ j, (j < argv + 4 ∨ (argv + 4 + 4 * (ts.length + 1) ≤ j ∧
            j < dst + t.length + 1)) →
          ((memcpy (write32 blk argv ((u + dst) % WORD)) dst (Skip_Whitespace s) 0
              t.length).set (dst + t.length) 0).getD j 0 =
          ((memcpy (write32 blk2 argv ((u + dst) % WORD)) dst (Skip_Whitespace s) 0
              t.length).set (dst + t.length) 0).getD j 0 := by
        intro j hj
        rw [getD_set_eq, getD_set_eq, memcpy_length, memcpy_length, write32_length,
          write32_length, hlen,
          getD_memcpy _ _ _ _ _ _ (by rw [write32_length]; omega),
          getD_memcpy _ _ _ _ _ _ (by rw [write32_length]; omega)]
        by_cases e1 : dst + t.length = j ∧ dst + t.length < blk.length
        · rw [if_pos e1, if_pos e1]
        · rw [if_neg e1, if_neg e1]
          by_cases e2 : dst ≤ j ∧ j < dst + t.length
          · rw [if_pos e2, if_pos e2]
          · rw [if_neg e2, if_neg e2]
            apply getD_write32_congr _ _ _ _ _ hlen.symm
            by_cases hin : argv ≤ j ∧ j < argv + 4
            · exact Or.inl ⟨hin.1, hin.2, by omega⟩
            · exact Or.inr (hag j (by omega))
      obtain ⟨final, final2, hfin, hfin2, hsame⟩ :=
        ih ((Skip_Whitespace s).drop t.length) u (argv + 4) (dst + t.length + 1)
          ((memcpy (write32 blk argv ((u + dst) % WORD)) dst (Skip_Whitespace s) 0
              t.length).set (dst + t.length) 0)
          ((memcpy (write32 blk2 argv ((u + dst) % WORD)) dst (Skip_Whitespace s) 0
              t.length).set (dst + t.length) 0)
          (by rw [List.length_drop]; omega) (by rw [← hts]; omega)
          (by rw [← hts, hlen3]; omega) (by rw [hlen3]; exact hW)
          (by rw [hlen3, hlen3]; exact hlen)
          (by rw [← hts]; exact hstep)
      rw [← hts] at hsame
      refine ⟨final, final2, by rw [hrun, hfin], by rw [hrun, hfin2], ?_⟩
      intro j hj
      exact hsame j (by omega)

theorem strOff_length (ts : List (List Nat)) :
    strOff ts ts.length = (ts.map (fun t => t.length + 1)).sum := by
  simp [strOff]

/-- C27: for every NUL-terminated command string whose block size fits in 32
bits, with `(numArgs, argBlockSize)` as returned by `Get_Argument_Block_Size`:
`numArgs` is the number of tokens, `argBlockSize` is
`8 + 4 * (numArgs + 1)` plus the sum over the tokens of `length + 1`, and
`Format_Argument_Block` on any buffer of at least that size leaves every byte
at offset `argBlockSize` or beyond as it was, while the bytes below
`argBlockSize` do not depend on what the buffer held before: it writes exactly
the offsets `0 .. argBlockSize - 1`. -/
theorem Format_Argument_Block_writes_inside (command : List Nat) (u : Nat)
    (hfit : argBlockBytes command < WORD) :
    ∃ numArgs argBlockSize,
      Get_Argument_Block_Size command = some (numArgs, argBlockSize) ∧
      numArgs = (tokens command).length ∧
      argBlockSize
        = 8 + 4 * (numArgs + 1) + ((tokens command).map (fun t => t.length + 1)).sum ∧
      ∀ block : List Nat, argBlockSize ≤ block.length → block.length < WORD →
        ∃ blk, Format_Argument_Block block numArgs u command = some blk ∧
          blk.length = block.length ∧
          (∀ j, argBlockSize ≤ j → blk.getD j 0 = block.getD j 0) ∧
          (∀ block2 : List Nat, block2.length = block.length →
            ∃ blk2, Format_Argument_Block block2 numArgs u command = some blk2 ∧
              ∀ j, j < argBlockSize → blk2.getD j 0 = blk.getD j 0) := by
  have hW := WORD_eq
  have hsum := strOff_length (tokens command)
  unfold argBlockBytes at hfit
  refine ⟨(tokens command).length, argBlockBytes command, ?_, rfl, ?_, ?_⟩
  · unfold Get_Argument_Block_Size argBlockBytes
    rw [Get_Argument_Block_Size_loop_eq _ _ _ _ (by omega) (by omega) (by omega)]
    congr 2 <;> omega
  · unfold argBlockBytes
    rw [hsum]
  · intro block hblock hlt
    unfold argBlockBytes at hblock
    have hmod : (((tokens command).length + 1) * 4) % WORD = ((tokens command).length + 1) * 4 :=
      Nat.mod_eq_of_lt (by omega)
    have hlen0 : ∀ b : List Nat, (write32 (write32 b 0 (tokens command).length) 4
        ((u + 8) % WORD)).length = b.length := by
      intro b
      rw [write32_length, write32_length]
    obtain ⟨final, hfin, hflen, hframe, _, _⟩ :=
      Format_Argument_Block_loop_spec (command.length + 1) command u (4 + 4)
        (4 + 4 + ((tokens command).length + 1) * 4)
        (write32 (write32 block 0 (tokens command).length) 4 ((u + 8) % WORD))
        (by omega) (by omega) (by rw [hlen0]; omega) (by rw [hlen0]; omega)
    refine ⟨final, ?_, by rw [hflen, hlen0], ?_, ?_⟩
    · unfold Format_Argument_Block
      simp only [hmod]
      exact hfin
    · intro j hj
      unfold argBlockBytes at hj
      rw [hframe j (by omega), getD_write32_of_out _ _ _ _ (by omega),
        getD_write32_of_out _ _ _ _ (by omega)]
    · intro block2 hlen2
      obtain ⟨f1, f2, hf1, hf2, hsame⟩ :=
        Format_Argument_Block_loop_determined (command.length + 1) command u (4 + 4)
          (4 + 4 + ((tokens command).length + 1) * 4)
          (write32 (write32 block 0 (tokens command).length) 4 ((u + 8) % WORD))
          (write32 (write32 block2 0 (tokens command).length) 4 ((u + 8) % WORD))
          (by omega) (by omega) (by rw [hlen0]; omega) (by rw [hlen0]; omega)
          (by rw [hlen0, hlen0]; exact hlen2)
          (by
            intro j hj
            have hj8 : j < 8 := by omega
            apply getD_write32_congr _ _ _ _ _ (by rw [write32_length, write32_length, hlen2])
            by_cases h4 : 4 ≤ j
            · exact Or.inl ⟨h4, by omega, by rw [write32_length]; omega⟩
            · exact Or.inr (getD_write32_congr _ _ _ _ _ hlen2.symm
                (Or.inl ⟨by omega, by omega, by omega⟩)))
      rw [hfin] at hf1
      injection hf1 with hf1
      subst hf1
      refine ⟨f2, ?_, ?_⟩
      · unfold Format_Argument_Block
        simp only [hmod]
        exact hf2
      · intro j hj
        unfold argBlockBytes at hj
        exact (hsame j (by omega)).symm

/-- Witness for C27: the command `ls -l`. -/
theorem Format_Argument_Block_writes_inside_witness :
    argBlockBytes [108, 115, 32, 45, 108] < WORD ∧
    ∃ numArgs argBlockSize,
      Get_Argument_Block_Size [108, 115, 32, 45, 108] = some (numArgs, argBlockSize) ∧
      numArgs = (tokens [108, 115, 32, 45, 108]).length ∧
      argBlockSize = 8 + 4 * (numArgs + 1)
        + ((tokens [108, 115, 32, 45, 108]).map (fun t => t.length + 1)).sum ∧
      ∀ block : List Nat, argBlockSize ≤ block.length → block.length < WORD →
        ∃ blk, Format_Argument_Block block numArgs 4096 [108, 115, 32, 45, 108] = some blk ∧
          blk.length = block.length ∧
          (∀ j, argBlockSize ≤ j → blk.getD j 0 = block.getD j 0) ∧
          (∀ block2 : List Nat, block2.length = block.length →
            ∃ blk2, Format_Argument_Block block2 numArgs 4096 [108, 115, 32, 45, 108]
                = some blk2 ∧
              ∀ j, j < argBlockSize → blk2.getD j 0 = blk.getD j 0) :=
  ⟨by decide, Format_Argument_Block_writes_inside [108, 115, 32, 45, 108] 4096 (by decide)⟩

/-! ## Loading a program (`userseg.c`) -/

theorem Round_Up_To_Page_eq (x : Nat) (h : roundUpToPage x < WORD) :
    Round_Up_To_Page x = roundUpToPage x := by
  unfold Round_Up_To_Page roundUpToPage PAGE_SIZE at *
  rw [WORD_eq] at *
  by_cases h0 : x % 4096 = 0
  · simp only [h0, bne_self_eq_false, Bool.false_eq_true, if_false]
    omega
  · have hb : (x % 4096 != 0) = true := by simpa using h0
    simp only [hb, if_true]
    omega

theorem roundUpToPage_bounds (x : Nat) :
    x ≤ roundUpToPage x ∧ roundUpToPage x < x + 4096 ∧ roundUpToPage x % 4096 = 0 := by
  unfold roundUpToPage
  omega

theorem foldl_max_le (l : List Nat) : ∀ m : Nat,
    m ≤ l.foldl max m ∧ ∀ x ∈ l, x ≤ l.foldl max m := by
  induction l with
  | nil => intro m; simp
  | cons a r ih =>
    intro m
    obtain ⟨h1, h2⟩ := ih (max m a)
    simp only [List.foldl_cons, List.mem_cons]
    refine ⟨by omega, ?_⟩
    rintro x (rfl | hx)
    · omega
    · exact h2 x hx

theorem Load_User_Program_maxva_eq (segs : List Exe_Segment) : ∀ (n i m : Nat),
    i + n ≤ 3 →
    (∀ k, i ≤ k → k < i + n →
      (segs.getD k ⟨0, 0, 0, 0, 0⟩).startAddress
        + (segs.getD k ⟨0, 0, 0, 0, 0⟩).sizeInMemory < WORD) →
    Load_User_Program_maxva segs n i m =
      some (((List.range' i n).map (fun k =>
        (segs.getD k ⟨0, 0, 0, 0, 0⟩).startAddress
          + (segs.getD k ⟨0, 0, 0, 0, 0⟩).sizeInMemory)).foldl max m) := by
  intro n
  induction n with
  | zero => intro i m _ _; rfl
  | succ n ih =>
    intro i m hi hk
    have h3 : i < EXE_MAX_SEGMENTS := by
      have : EXE_MAX_SEGMENTS = 3 := rfl
      omega
    have hlt := hk i (Nat.le_refl i) (by omega)
    simp only [Load_User_Program_maxva, h3, if_true, Nat.mod_eq_of_lt hlt, List.range'_succ,
      List.map_cons, List.foldl_cons]
    rw [ih (i + 1) _ (by omega) (fun k h1 h2 => hk k (by omega) (by omega))]
    congr 2
    rw [Nat.max_def]
    split_ifs <;> omega

theorem Load_User_Program_copy_eq (data : List Nat) (fileLen : Nat) (segs : List Exe_Segment)
    (size B : Nat) (hB : B ≤ size) : ∀ (n i : Nat) (mem : List Nat),
    mem.length = size →
    (∀ k, i ≤ k → k < i + n →
      (segs.getD k ⟨0, 0, 0, 0, 0⟩).offsetInFile
          + (segs.getD k ⟨0, 0, 0, 0, 0⟩).lengthInFile ≤ fileLen ∧
      (segs.getD k ⟨0, 0, 0, 0, 0⟩).startAddress
          + (segs.getD k ⟨0, 0, 0, 0, 0⟩).lengthInFile ≤ B) →
    ∃ mem1, Load_User_Program_copy data fileLen segs size n i mem = CopyResult.copied mem1 ∧
      mem1.length = size ∧ ∀ j, B ≤ j → mem1.getD j 0 = mem.getD j 0 := by
  intro n
  induction n with
  | zero =>
    intro i mem hl _
    exact ⟨mem, rfl, hl, fun _ _ => rfl⟩
  | succ n ih =>
    intro i mem hl hk
    obtain ⟨h1, h2⟩ := hk i (Nat.le_refl i) (by omega)
    have hc : ¬ ((segs.getD i ⟨0, 0, 0, 0, 0⟩).lengthInFile ≠ 0 ∧
        ((segs.getD i ⟨0, 0, 0, 0, 0⟩).offsetInFile
            + (segs.getD i ⟨0, 0, 0, 0, 0⟩).lengthInFile > fileLen ∨
          (segs.getD i ⟨0, 0, 0, 0, 0⟩).startAddress
            + (segs.getD i ⟨0, 0, 0, 0, 0⟩).lengthInFile > size)) := by
      omega
    obtain ⟨mem1, hm1, hl1, hf1⟩ := ih (i + 1)
      (memcpy mem (segs.getD i ⟨0, 0, 0, 0, 0⟩).startAddress data
        (segs.getD i ⟨0, 0, 0, 0, 0⟩).offsetInFile (segs.getD i ⟨0, 0, 0, 0, 0⟩).lengthInFile)
      (by rw [memcpy_length]; exact hl) (fun k hk1 hk2 => hk k (by omega) (by omega))
    refine ⟨mem1, ?_, hl1, ?_⟩
    · simp only [Load_User_Program_copy, hc, if_false]
      exact hm1
    · intro j hj
      rw [hf1 j hj, getD_memcpy _ _ _ _ _ _ (by omega), if_neg (by omega)]

theorem eq_replicate_zero (l : List Nat) (n : Nat) (hl : l.length = n)
    (h : ∀ j, j < n → l.getD j 0 = 0) : l = List.replicate n 0 := by
  apply List.ext_getElem
  · simp [hl]
  · intro i h1 h2
    have := h i (by omega)
    rw [List.getD_eq_getElem _ _ h1] at this
    simp [this]

theorem getD_drop_add (l : List Nat) (a j : Nat) : (l.drop a).getD j 0 = l.getD (a + j) 0 := by
  simp [List.getD_eq_getElem?_getD, List.getElem?_drop]

theorem Format_Argument_Block_some (command : List Nat) (u : Nat) (block : List Nat)
    (hfit : argBlockBytes command ≤ block.length) (hlt : block.length < WORD) :
    ∃ blk, Format_Argument_Block block (tokens command).length u command = some blk ∧
      blk.length = block.length := by
  have hW := WORD_eq
  unfold argBlockBytes at hfit
  have hmod : (((tokens command).length + 1) * 4) % WORD = ((tokens command).length + 1) * 4 :=
    Nat.mod_eq_of_lt (by omega)
  have hlen0 : (write32 (write32 block 0 (tokens command).length) 4
      ((u + 8) % WORD)).length = block.length := by
    rw [write32_length, write32_length]
  obtain ⟨final, hfin, hflen, _, _, _⟩ :=
    Format_Argument_Block_loop_spec (command.length + 1) command u (4 + 4)
      (4 + 4 + ((tokens command).length + 1) * 4)
      (write32 (write32 block 0 (tokens command).length) 4 ((u + 8) % WORD))
      (by omega) (by omega) (by rw [hlen0]; omega) (by rw [hlen0]; omega)
  refine ⟨final, ?_, by rw [hflen, hlen0]⟩
  unfold Format_Argument_Block
  simp only [hmod]
  exact hfin

theorem Get_Argument_Block_Size_eq (command : List Nat) (hfit : argBlockBytes command < WORD) :
    Get_Argument_Block_Size command = some ((tokens command).length, argBlockBytes command) := by
  unfold argBlockBytes at hfit
  unfold Get_Argument_Block_Size argBlockBytes
  rw [Get_Argument_Block_Size_loop_eq _ _ _ _ (by omega) (by omega) (by omega)]
  congr 2 <;> omega

/-- C26: for segment information with at most `EXE_MAX_SEGMENTS` segments, each
having `lengthInFile` at most `sizeInMemory` and lying inside the file, and a
command string, such that the rounded-up total size fits in 32 bits: with
`maxVA` the largest `startAddress + sizeInMemory`, when the three allocations
succeed `Load_User_Program` returns 0 with a context whose `argBlockAddr` and
`stackPointerAddr` are `roundUpToPage maxVA + 8192`, whose `entryAddr` is the
entry address of the executable, whose `size` is a multiple of 4096 and at
least `argBlockAddr + argBlockSize`, whose memory has `size` bytes, and whose
memory from `argBlockAddr` on is what `Format_Argument_Block` writes into
zeroed memory for user address `argBlockAddr`. -/
theorem Load_User_Program_layout (exeFileData : List Nat) (exeFileLength : Nat)
    (exeFormat : Exe_Format) (command : List Nat)
    (hn : 0 ≤ exeFormat.numSegments ∧ exeFormat.numSegments ≤ 3)
    (hseg : ∀ i, i < exeFormat.numSegments.toNat →
      (exeFormat.segmentList.getD i ⟨0, 0, 0, 0, 0⟩).lengthInFile
        ≤ (exeFormat.segmentList.getD i ⟨0, 0, 0, 0, 0⟩).sizeInMemory ∧
      (exeFormat.segmentList.getD i ⟨0, 0, 0, 0, 0⟩).offsetInFile
        + (exeFormat.segmentList.getD i ⟨0, 0, 0, 0, 0⟩).lengthInFile ≤ exeFileLength)
    (hfit : roundUpToPage (maxVA exeFormat) + 8192 + argBlockBytes command + 4095 < WORD) :
    ∃ userContext numArgs argBlockSize,
      Get_Argument_Block_Size command = some (numArgs, argBlockSize) ∧
      Load_User_Program true true true exeFileData exeFileLength exeFormat command
        = some (LoadResult.returned 0 (some userContext)) ∧
      userContext.argBlockAddr = roundUpToPage (maxVA exeFormat) + 8192 ∧
      userContext.stackPointerAddr = roundUpToPage (maxVA exeFormat) + 8192 ∧
      userContext.entryAddr = exeFormat.entryAddr ∧
      userContext.size % 4096 = 0 ∧
      userContext.argBlockAddr + argBlockSize ≤ userContext.size ∧
      userContext.memory.length = userContext.size ∧
      ∃ block, Format_Argument_Block
          (List.replicate (userContext.size - userContext.argBlockAddr) 0) numArgs
          userContext.argBlockAddr command = some block ∧
        userContext.memory.drop userContext.argBlockAddr = block := by
  have hW := WORD_eq
  obtain ⟨hR, hR2, _⟩ := roundUpToPage_bounds (maxVA exeFormat)
  obtain ⟨hSge, hS3, hSmod⟩ := roundUpToPage_bounds
    (roundUpToPage (maxVA exeFormat) + 8192 + argBlockBytes command)
  have hmax := foldl_max_le ((List.range exeFormat.numSegments.toNat).map (fun i =>
    (exeFormat.segmentList.getD i ⟨0, 0, 0, 0, 0⟩).startAddress
      + (exeFormat.segmentList.getD i ⟨0, 0, 0, 0, 0⟩).sizeInMemory)) 0
  have hle : ∀ i, i < exeFormat.numSegments.toNat →
      (exeFormat.segmentList.getD i ⟨0, 0, 0, 0, 0⟩).startAddress
        + (exeFormat.segmentList.getD i ⟨0, 0, 0, 0, 0⟩).sizeInMemory ≤ maxVA exeFormat := by
    intro i hi
    apply hmax.2
    simp only [List.mem_map, List.mem_range]
    exact ⟨i, hi, rfl⟩
  have hmaxva : Load_User_Program_maxva exeFormat.segmentList exeFormat.numSegments.toNat 0 0
      = some (maxVA exeFormat) := by
    rw [Load_User_Program_maxva_eq _ _ _ _ (by omega)
      (fun k _ hk => by have := hle k (by omega); omega)]
    unfold maxVA
    rw [List.range_eq_range']
  have hcnt : toUInt32 exeFormat.numSegments = exeFormat.numSegments.toNat := by
    have := toUInt32_of_nonneg exeFormat.numSegments hn.1 (by omega)
    omega
  have hargs := Get_Argument_Block_Size_eq command (by omega)
  have hround := Round_Up_To_Page_eq (maxVA exeFormat) (by omega)
  have hA : (Round_Up_To_Page (maxVA exeFormat) + DEFAULT_USER_STACK_SIZE) % WORD
      = roundUpToPage (maxVA exeFormat) + 8192 := by
    rw [hround]
    exact Nat.mod_eq_of_lt (by unfold DEFAULT_USER_STACK_SIZE; omega)
  have hS : (roundUpToPage (maxVA exeFormat) + 8192 + argBlockBytes command) % WORD
      = roundUpToPage (maxVA exeFormat) + 8192 + argBlockBytes command :=
    Nat.mod_eq_of_lt (by omega)
  have hS2 := Round_Up_To_Page_eq (roundUpToPage (maxVA exeFormat) + 8192 + argBlockBytes command)
    (by omega)
  obtain ⟨mem1, hcopy, hlen1, hframe⟩ := Load_User_Program_copy_eq exeFileData exeFileLength
    exeFormat.segmentList
    (roundUpToPage (roundUpToPage (maxVA exeFormat) + 8192 + argBlockBytes command))
    (roundUpToPage (maxVA exeFormat)) (by omega) exeFormat.numSegments.toNat 0
    (List.replicate
      (roundUpToPage (roundUpToPage (maxVA exeFormat) + 8192 + argBlockBytes command)) 0)
    (by simp)
    (fun k _ hk => by
      have h1 := hseg k (by omega)
      have h2 := hle k (by omega)
      omega)
  have hdrop : mem1.drop (roundUpToPage (maxVA exeFormat) + 8192) =
      List.replicate
        (roundUpToPage (roundUpToPage (maxVA exeFormat) + 8192 + argBlockBytes command)
          - (roundUpToPage (maxVA exeFormat) + 8192)) 0 := by
    apply eq_replicate_zero
    · rw [List.length_drop, hlen1]
    · intro j _
      rw [getD_drop_add, hframe _ (by omega)]
      simp only [List.getD_eq_getElem?_getD, List.getElem?_replicate]
      split <;> rfl
  obtain ⟨blk, hblk, hblen⟩ := Format_Argument_Block_some command
    (roundUpToPage (maxVA exeFormat) + 8192)
    (List.replicate
      (roundUpToPage (roundUpToPage (maxVA exeFormat) + 8192 + argBlockBytes command)
        - (roundUpToPage (maxVA exeFormat) + 8192)) 0)
    (by rw [List.length_replicate]; omega) (by rw [List.length_replicate]; omega)
  refine ⟨{ memory := mem1.take (roundUpToPage (maxVA exeFormat) + 8192) ++ blk,
            size := roundUpToPage (roundUpToPage (maxVA exeFormat) + 8192
              + argBlockBytes command),
            entryAddr := exeFormat.entryAddr,
            argBlockAddr := roundUpToPage (maxVA exeFormat) + 8192,
            stackPointerAddr := roundUpToPage (maxVA exeFormat) + 8192,
            refCount := 0 },
    (tokens command).length, argBlockBytes command, hargs, ?_, rfl, rfl, rfl, ?_, hSge, ?_,
    blk, hblk, ?_⟩
  · simp only [Load_User_Program, hcnt, hmaxva, hargs, hA, hS, Create_User_Context, hS2,
      Bool.not_true, Bool.false_eq_true, if_false, hcopy, hdrop, hblk]
  · exact hSmod
  · simp only [List.length_append, List.length_take, hlen1, hblen, List.length_replicate]
    omega
  · simp only
    rw [List.drop_append_of_le_length (by rw [List.length_take, hlen1]; omega),
      List.drop_take]
    simp


/-- Witness for C26: the example segments and the command `ls -l`. -/
theorem Load_User_Program_layout_witness :
    ((0 ≤ exampleExeFormat.numSegments ∧ exampleExeFormat.numSegments ≤ 3) ∧
      roundUpToPage (maxVA exampleExeFormat) + 8192 + argBlockBytes [108, 115, 32, 45, 108]
        + 4095 < WORD) ∧
    ∃ userContext numArgs argBlockSize,
      Get_Argument_Block_Size [108, 115, 32, 45, 108] = some (numArgs, argBlockSize) ∧
      Load_User_Program true true true (List.replicate 100 1) 100 exampleExeFormat
          [108, 115, 32, 45, 108]
        = some (LoadResult.returned 0 (some userContext)) ∧
      userContext.argBlockAddr = roundUpToPage (maxVA exampleExeFormat) + 8192 ∧
      userContext.stackPointerAddr = roundUpToPage (maxVA exampleExeFormat) + 8192 ∧
      userContext.entryAddr = exampleExeFormat.entryAddr ∧
      userContext.size % 4096 = 0 ∧
      userContext.argBlockAddr + argBlockSize ≤ userContext.size ∧
      userContext.memory.length = userContext.size ∧
      ∃ block, Format_Argument_Block
          (List.replicate (userContext.size - userContext.argBlockAddr) 0) numArgs
          userContext.argBlockAddr [108, 115, 32, 45, 108] = some block ∧
        userContext.memory.drop userContext.argBlockAddr = block :=
  ⟨⟨by decide, by decide⟩,
    Load_User_Program_layout (List.replicate 100 1) 100 exampleExeFormat [108, 115, 32, 45, 108]
      (by decide) (by decide) (by decide)⟩

/-- C28 (code defect): neither `Parse_ELF_Executable` nor `Load_User_Program`
compares a segment with `exeFileLength` or with the size of the context.  An
image of 100 bytes whose program header gives file offset 84 and file size 64
is parsed with result 0, and the copy of its segment reads the file buffer up
to offset 147.  An image of 20084 bytes whose program header gives file size
20000, memory size 16 and address 0 is parsed with result 0, the context gets
16384 bytes, and the copy of the segment writes up to offset 19999. -/
theorem Load_User_Program_copies_out_of_bounds :
    Parse_ELF_Executable
        (elfHeaderBytes 4096 52 1 ++ programHeaderBytes 84 4096 64 64 5 ++ List.replicate 16 1)
        100 ⟨[⟨0, 0, 0, 0, 0⟩, ⟨0, 0, 0, 0, 0⟩, ⟨0, 0, 0, 0, 0⟩], 0, 0⟩
      = ParseResult.returned 0
          ⟨[⟨84, 64, 4096, 64, 5⟩, ⟨0, 0, 0, 0, 0⟩, ⟨0, 0, 0, 0, 0⟩], 1, 4096⟩ ∧
    Load_User_Program true true true
        (elfHeaderBytes 4096 52 1 ++ programHeaderBytes 84 4096 64 64 5 ++ List.replicate 16 1)
        100 ⟨[⟨84, 64, 4096, 64, 5⟩, ⟨0, 0, 0, 0, 0⟩, ⟨0, 0, 0, 0, 0⟩], 1, 4096⟩ [97]
      = some (LoadResult.copyOutOfBounds 0) ∧
    Parse_ELF_Executable
        (elfHeaderBytes 0 52 1 ++ programHeaderBytes 84 0 20000 16 5 ++ List.replicate 20000 1)
        20084 ⟨[⟨0, 0, 0, 0, 0⟩, ⟨0, 0, 0, 0, 0⟩, ⟨0, 0, 0, 0, 0⟩], 0, 0⟩
      = ParseResult.returned 0
          ⟨[⟨84, 20000, 0, 16, 5⟩, ⟨0, 0, 0, 0, 0⟩, ⟨0, 0, 0, 0, 0⟩], 1, 0⟩ ∧
    Load_User_Program true true true
        (elfHeaderBytes 0 52 1 ++ programHeaderBytes 84 0 20000 16 5 ++ List.replicate 20000 1)
        20084 ⟨[⟨84, 20000, 0, 16, 5⟩, ⟨0, 0, 0, 0, 0⟩, ⟨0, 0, 0, 0, 0⟩], 1, 0⟩ [97]
      = some (LoadResult.copyOutOfBounds 0) ∧
    (Create_User_Context true true true ((Round_Up_To_Page 16 + 8192 + 18) % WORD)).map
        (fun userContext => userContext.size) = some 16384 := by
  decide

/-! ## Threads on queues -/

theorem count_allQueued (k : KernelQueues) (t : Nat) :
    (allQueued k).count t = runCount k.sched.s_runQueue t + k.sched.s_graveyardQueue.count t
      + k.sched.s_reaperWaitQueue.count t + (k.waitQueues.map (List.count t)).sum := by
  simp only [allQueued, runCount, List.count_append, List.count_flatten]

theorem runCount_append (queues : Nat → List Nat) (l k t : Nat) (hl : l < 4) :
    runCount (setQueue queues l (queues l ++ [k])) t
      = runCount queues t + (if k = t then 1 else 0) := by
  have h : l = 0 ∨ l = 1 ∨ l = 2 ∨ l = 3 := by omega
  rcases h with rfl | rfl | rfl | rfl <;>
    simp [runCount, setQueue, List.count_append, List.count_singleton] <;> omega

theorem runCount_erase (queues : Nat → List Nat) (l b t : Nat) (hl : l < 4)
    (hb : b ∈ queues l) :
    runCount (setQueue queues l ((queues l).erase b)) t + (if b = t then 1 else 0)
      = runCount queues t := by
  have hpos : 0 < (queues l).count b := List.count_pos_iff.mpr hb
  have h : l = 0 ∨ l = 1 ∨ l = 2 ∨ l = 3 := by omega
  by_cases e : b = t
  · subst e
    rcases h with rfl | rfl | rfl | rfl <;>
      simp [runCount, setQueue, List.count_erase_self] <;> omega
  · have e2 : t ≠ b := fun h => e h.symm
    rcases h with rfl | rfl | rfl | rfl <;>
      simp [runCount, setQueue, List.count_erase_of_ne e2, e]

theorem sum_map_set (f : List Nat → Nat) : ∀ (l : List (List Nat)) (w : Nat) (q : List Nat),
    w < l.length →
    ((l.set w q).map f).sum + f (l.getD w []) = (l.map f).sum + f q := by
  intro l
  induction l with
  | nil => intro w q h; simp at h
  | cons a r ih =>
    intro w q h
    cases w with
    | zero =>
      simp only [List.set_cons_zero, List.map_cons, List.sum_cons, List.getD_cons_zero]
      omega
    | succ w =>
      have := ih w q (by simpa using h)
      simp only [List.set_cons_succ, List.map_cons, List.sum_cons, List.getD_cons_succ]
      omega

theorem Find_Best_mem (p : Nat → Int) (q : List Nat) (b : Nat) (h : Find_Best p q = some b) :
    b ∈ q := by
  obtain ⟨i, hi, _⟩ := Find_Best_first_max p q b h
  exact List.getElem?_mem hi

theorem Get_Next_Runnable_loop_some (queues : Nat → List Nat) : ∀ (n i b : Nat)
    (qs : Nat → List Nat), Get_Next_Runnable_loop queues n i = some (b, qs) →
    ∃ l, i ≤ l ∧ l < i + n ∧ b ∈ queues l ∧ qs = setQueue queues l ((queues l).erase b) := by
  intro n
  induction n with
  | zero => intro i b qs h; simp [Get_Next_Runnable_loop] at h
  | succ n ih =>
    intro i b qs h
    cases hq : queues i with
    | nil =>
      simp only [Get_Next_Runnable_loop, hq, List.head?_nil] at h
      obtain ⟨l, h1, h2, h3, h4⟩ := ih (i + 1) b qs h
      exact ⟨l, by omega, by omega, h3, h4⟩
    | cons x r =>
      simp only [Get_Next_Runnable_loop, hq, List.head?_cons, Remove_Thread, List.mem_cons,
        true_or, if_true, Option.some.injEq, Prod.mk.injEq] at h
      refine ⟨i, Nat.le_refl i, by omega, ?_, ?_⟩
      · rw [hq, ← h.1]
        exact List.mem_cons_self _ _
      · rw [hq, ← h.2, ← h.1]

theorem Get_Next_Runnable_some (s s1 : Scheduler) (b : Nat)
    (h : Get_Next_Runnable s = some (b, s1)) :
    ∃ l, l < 4 ∧ b ∈ s.s_runQueue l ∧
      s1 = { s with s_runQueue := setQueue s.s_runQueue l ((s.s_runQueue l).erase b) } := by
  unfold Get_Next_Runnable at h
  split at h
  · exact Option.noConfusion h
  · split at h
    · cases hf : Find_Best (fun t => (s.threads t).priority) (s.s_runQueue 0) with
      | none => simp [hf] at h
      | some best =>
        have hm := Find_Best_mem _ _ _ hf
        simp only [hf, Remove_Thread, hm, if_true, Option.some.injEq, Prod.mk.injEq] at h
        refine ⟨0, by omega, ?_, ?_⟩
        · rw [← h.1]; exact hm
        · rw [← h.2, ← h.1]
    · have h4 : MAX_QUEUE_LEVEL.toNat = 4 := rfl
      rw [h4] at h
      cases hl : Get_Next_Runnable_loop s.s_runQueue 4 0 with
      | none => simp [hl] at h
      | some r =>
        obtain ⟨b1, qs⟩ := r
        simp only [hl, Option.some.injEq, Prod.mk.injEq] at h
        obtain ⟨l, _, h2, h3, h4⟩ := Get_Next_Runnable_loop_some _ _ _ _ _ hl
        refine ⟨l, by omega, ?_, ?_⟩
        · rw [← h.1]; exact h3
        · rw [← h.2, h4, ← h.1]

theorem Wake_Up_loop_some : ∀ (q : List Nat) (s s1 : Scheduler),
    Wake_Up_loop s q = some s1 →
    s1.s_graveyardQueue = s.s_graveyardQueue ∧ s1.s_reaperWaitQueue = s.s_reaperWaitQueue ∧
    ∀ t, runCount s1.s_runQueue t = runCount s.s_runQueue t + q.count t := by
  intro q
  induction q with
  | nil =>
    intro s s1 h
    simp only [Wake_Up_loop, Option.some.injEq] at h
    subst h
    simp
  | cons a r ih =>
    intro s s1 h
    cases hm : Make_Runnable s a with
    | none => simp [Wake_Up_loop, hm] at h
    | some s2 =>
      simp only [Wake_Up_loop, hm] at h
      obtain ⟨h1, h2, h3⟩ := ih s2 s1 h
      obtain ⟨l, hl, _, rfl⟩ := Make_Runnable_some s s2 a hm
      refine ⟨h1, h2, ?_⟩
      intro t
      rw [h3 t]
      simp only [runCount_append _ _ _ _ hl, List.count_cons]
      by_cases e : a = t
      · simp [e]; omega
      · simp [e]

theorem Chang_Scheduling_Policy_queues (s s1 : Scheduler) (p q rc : Int)
    (h : Chang_Scheduling_Policy s p q = some (rc, s1)) :
    s1.s_graveyardQueue = s.s_graveyardQueue ∧ s1.s_reaperWaitQueue = s.s_reaperWaitQueue ∧
    ∀ t, runCount s1.s_runQueue t = runCount s.s_runQueue t := by
  have h4 : (MAX_QUEUE_LEVEL - 1).toNat = 3 := rfl
  unfold Chang_Scheduling_Policy at h
  split at h
  · simp only [h4] at h
    split at h
    · exact Option.noConfusion h
    · rename_i queues hq
      simp only [Option.some.injEq, Prod.mk.injEq] at h
      rw [← h.2]
      refine ⟨rfl, rfl, ?_⟩
      intro t
      simp only
      split at hq
      · simp only [Option.some.injEq] at hq
        obtain ⟨e0, e1, e2, e3⟩ := Chang_Scheduling_Policy_loop_three s.s_runQueue
        rw [← hq]
        simp only [runCount, e0, e1, e2, e3, List.count_append, List.count_nil]
        omega
      · split at hq
        · simp only [Option.some.injEq] at hq
          rw [← hq]
        · rename_i idle hidle
          split at hq
          · rename_i hmem
            have e30 : setQueue s.s_runQueue 0 ((s.s_runQueue 0).erase idle) 3 = s.s_runQueue 3 :=
              rfl
            simp only [Remove_Thread, hmem, if_true, Enqueue_Thread, e30] at hq
            by_cases h3 : idle ∈ s.s_runQueue 3
            · simp [h3] at hq
            · simp only [h3, if_false, Option.some.injEq] at hq
              rw [← hq]
              have hpos : 0 < (s.s_runQueue 0).count idle := List.count_pos_iff.mpr hmem
              by_cases e : idle = t
              · subst e
                simp [runCount, setQueue, List.count_append, List.count_erase_self]
                omega
              · have e2 : t ≠ idle := fun h => e h.symm
                simp [runCount, setQueue, List.count_append, List.count_erase_of_ne e2,
                  List.count_singleton, e]
          · simp only [Option.some.injEq] at hq
            rw [← hq]
  · simp only [Option.some.injEq, Prod.mk.injEq] at h
    rw [← h.2]
    exact ⟨rfl, rfl, fun _ => rfl⟩

theorem Wake_Up_One_some (s s1 : Scheduler) (q q1 : List Nat)
    (h : Wake_Up_One s q = some (s1, q1)) :
    (s1 = s ∧ q1 = q) ∨ (∃ b, b ∈ q ∧ q1 = q.erase b ∧ Make_Runnable s b = some s1) := by
  unfold Wake_Up_One at h
  cases hf : Find_Best (fun t => (s.threads t).priority) q with
  | none =>
    simp only [hf, Option.some.injEq, Prod.mk.injEq] at h
    exact Or.inl ⟨h.1.symm, h.2.symm⟩
  | some best =>
    have hm := Find_Best_mem _ _ _ hf
    simp only [hf, Remove_Thread, hm, if_true] at h
    cases hr : Make_Runnable s best with
    | none => simp [hr] at h
    | some s2 =>
      simp only [hr, Option.some.injEq, Prod.mk.injEq] at h
      exact Or.inr ⟨best, hm, h.2.symm, by rw [← h.1]; exact hr⟩

theorem Wait_queues (nullPid : Int) (s s1 : Scheduler) (q q1 : List Nat)
    (h : Wait nullPid s q = some (s1, q1)) :
    q1 = q ++ [s.g_currentThread] ∧ s1.s_runQueue = s.s_runQueue ∧
    s1.s_graveyardQueue = s.s_graveyardQueue ∧ s1.s_reaperWaitQueue = s.s_reaperWaitQueue := by
  unfold Wait at h
  simp only [Enqueue_Thread] at h
  by_cases hm : s.g_currentThread ∈ q
  · simp [hm] at h
  · simp only [hm, if_false, Option.some.injEq, Prod.mk.injEq] at h
    rw [← h.1]
    exact ⟨h.2.symm, rfl, rfl, rfl⟩

theorem Start_Kernel_Thread_some (s s1 : Scheduler) (page : Option Nat) (p : Int) (d : Bool)
    (r : Option Nat) (h : Start_Kernel_Thread s page p d = some (s1, r)) :
    (page = none ∧ s1 = s) ∨
    (∃ k, page = some k ∧ k ∉ s.s_allThreadList ∧
      s1.s_allThreadList = s.s_allThreadList ++ [k] ∧
      s1.s_graveyardQueue = s.s_graveyardQueue ∧ s1.s_reaperWaitQueue = s.s_reaperWaitQueue ∧
      ∀ t, runCount s1.s_runQueue t = runCount s.s_runQueue t + (if k = t then 1 else 0)) := by
  unfold Start_Kernel_Thread at h
  cases page with
  | none =>
    simp only [Option.some.injEq, Prod.mk.injEq] at h
    exact Or.inl ⟨rfl, h.1.symm⟩
  | some k =>
    right
    simp only at h
    split at h
    · exact Option.noConfusion h
    · rename_i hk
      split at h
      · exact Option.noConfusion h
      · rename_i s2 hm
        simp only [Option.some.injEq, Prod.mk.injEq] at h
        obtain ⟨l, hl, _, hs2⟩ := Make_Runnable_some _ _ _ hm
        rw [← h.1, hs2]
        refine ⟨k, rfl, ?_, rfl, rfl, rfl, ?_⟩
        · simpa [Init_Thread] using hk
        · intro t
          exact runCount_append _ _ _ _ hl

theorem sum_map_replicate_nil (t n : Nat) :
    ((List.replicate n ([] : List Nat)).map (List.count t)).sum = 0 := by
  induction n with
  | zero => rfl
  | succ n ih => simp [List.replicate_succ, ih]

theorem Init_Scheduler_queues (m : Nat) (idle reaper : Option Nat) (s : Scheduler) (n : Nat)
    (h : Init_Scheduler bootScheduler m idle reaper = some s) :
    QueueInv ⟨s, List.replicate n []⟩ := by
  unfold Init_Scheduler at h
  simp only at h
  split at h
  · exact Option.noConfusion h
  · split at h
    · exact Option.noConfusion h
    · rename_i s1 r1 h1
      split at h
      · exact Option.noConfusion h
      · rename_i s2 r2 h2
        injection h with h
        subst h
        intro t
        rw [count_allQueued, sum_map_replicate_nil]
        rcases Start_Kernel_Thread_some _ _ _ _ _ _ h1 with ⟨_, e1⟩ | ⟨i, _, _, hall1, hg1, hr1, hc1⟩
        · rcases Start_Kernel_Thread_some _ _ _ _ _ _ h2 with ⟨_, e2⟩ | ⟨r, _, _, _, hg2, hr2, hc2⟩
          · rw [e2, e1]
            simp [runCount, Init_Thread, bootScheduler]
          · rw [hg2, hr2, hc2 t, e1]
            simp only [runCount, Init_Thread, bootScheduler, List.count_nil]
            split <;> omega
        · rcases Start_Kernel_Thread_some _ _ _ _ _ _ h2 with ⟨_, e2⟩ | ⟨r, _, hrn, _, hg2, hr2, hc2⟩
          · rw [e2, hg1, hr1, hc1 t]
            simp only [runCount, Init_Thread, bootScheduler, List.count_nil]
            split <;> omega
          · rw [hg2, hr2, hc2 t, hg1, hr1, hc1 t]
            have hne : r ≠ i := by
              intro e
              apply hrn
              rw [hall1, e]
              simp
            simp only [runCount, Init_Thread, bootScheduler, List.count_nil]
            by_cases ei : i = t
            · have er : ¬ r = t := fun e => hne (e.trans ei.symm)
              simp [ei, er]
            · simp only [ei, if_false]
              split <;> omega

/-- C24, as amended: in every state reached from `Init_Scheduler` by
`Make_Runnable` or `Start_Kernel_Thread` of a thread that is on no queue, `Wait`
of a current thread that is on no queue, `Reap_Thread` of a thread that is on no
queue, and by `Wake_Up`, `Wake_Up_One`, `Get_Next_Runnable`,
`Chang_Scheduling_Policy` and steps that leave the queues alone, no thread
occurs twice in the four run queues, the graveyard queue and the wait queues
taken together. -/
theorem queue_membership_invariant (k : KernelQueues) (h : QueueReachable k) :
    (allQueued k).Nodup := by
  rw [List.nodup_iff_count_le_one]
  induction h with
  | init m idle reaper s n hs => exact Init_Scheduler_queues m idle reaper s n hs
  | makeRunnable k kthread s1 _ hfree hm ih =>
    intro t
    obtain ⟨l, hl, _, rfl⟩ := Make_Runnable_some _ _ _ hm
    have hz : (allQueued k).count kthread = 0 := List.count_eq_zero.mpr hfree
    have ht := ih t
    rw [count_allQueued] at hz ht ⊢
    simp only [runCount_append _ _ _ _ hl]
    by_cases e : kthread = t
    · subst e
      simp only [if_true]
      omega
    · simp only [e, if_false]
      omega
  | create k page p d s1 r _ hfree hs ih =>
    intro t
    have ht := ih t
    rcases Start_Kernel_Thread_some _ _ _ _ _ _ hs with ⟨_, e1⟩ | ⟨i, hp, _, _, hg, hr, hc⟩
    · rw [count_allQueued] at ht ⊢
      simp only [e1]
      exact ht
    · have hz : (allQueued k).count i = 0 := List.count_eq_zero.mpr (hfree i hp)
      rw [count_allQueued] at hz ht ⊢
      simp only [hg, hr, hc t]
      by_cases e : i = t
      · subst e
        simp only [if_true]
        omega
      · simp only [e, if_false]
        omega
  | wait k nullPid w s1 q1 _ hfree hw hwait ih =>
    intro t
    obtain ⟨hq1, e1, e2, e3⟩ := Wait_queues _ _ _ _ _ hwait
    subst hq1
    have hz : (allQueued k).count k.sched.g_currentThread = 0 := List.count_eq_zero.mpr hfree
    have ht := ih t
    have hsum := sum_map_set (List.count t) k.waitQueues w
      (k.waitQueues.getD w [] ++ [k.sched.g_currentThread]) hw
    rw [count_allQueued] at hz ht ⊢
    simp only [e1, e2, e3]
    rw [List.count_append, List.count_singleton] at hsum
    by_cases e : k.sched.g_currentThread = t
    · have e' : (k.sched.g_currentThread == t) = true := by simpa using e
      rw [e] at hz
      simp only [e', if_true] at hsum
      omega
    · have e' : (k.sched.g_currentThread == t) = false := by simpa using e
      simp only [e', Bool.false_eq_true, if_false] at hsum
      omega
  | waitReaper k nullPid s1 q1 _ hfree hwait ih =>
    intro t
    obtain ⟨hq1, e1, e2, e3⟩ := Wait_queues _ _ _ _ _ hwait
    have hz : (allQueued k).count k.sched.g_currentThread = 0 := List.count_eq_zero.mpr hfree
    have ht := ih t
    rw [count_allQueued] at hz ht ⊢
    simp only [e1, e2, hq1, List.count_append, List.count_singleton]
    by_cases e : k.sched.g_currentThread = t
    · rw [e] at hz ⊢
      simp only [beq_self_eq_true, if_true]
      omega
    · have e' : (k.sched.g_currentThread == t) = false := by simpa using e
      simp only [e', Bool.false_eq_true, if_false]
      omega
  | wakeUp k w s1 q1 _ hw hwake ih =>
    intro t
    have ht := ih t
    cases hl : Wake_Up_loop k.sched (k.waitQueues.getD w []) with
    | none =>
      simp only [Wake_Up, hl] at hwake
      exact Option.noConfusion hwake
    | some s2 =>
      simp only [Wake_Up, hl, Option.some.injEq, Prod.mk.injEq] at hwake
      obtain ⟨hs, hq⟩ := hwake
      subst hs
      subst hq
      obtain ⟨e2, e3, hc⟩ := Wake_Up_loop_some _ _ _ hl
      have hsum := sum_map_set (List.count t) k.waitQueues w [] hw
      rw [count_allQueued] at ht ⊢
      rw [List.count_nil] at hsum
      simp only [e2, e3, hc t]
      omega
  | wakeUpOne k w s1 q1 _ hw hwake ih =>
    intro t
    have ht := ih t
    rcases Wake_Up_One_some _ _ _ _ hwake with ⟨e1, e2⟩ | ⟨b, hb, e2, hm⟩
    · subst e2
      have hsum := sum_map_set (List.count t) k.waitQueues w (k.waitQueues.getD w []) hw
      rw [count_allQueued] at ht ⊢
      simp only [e1]
      omega
    · subst e2
      have hsum := sum_map_set (List.count t) k.waitQueues w
        ((k.waitQueues.getD w []).erase b) hw
      obtain ⟨l, hl, _, rfl⟩ := Make_Runnable_some _ _ _ hm
      have hpos : 0 < (k.waitQueues.getD w []).count b := List.count_pos_iff.mpr hb
      rw [count_allQueued] at ht ⊢
      simp only [runCount_append _ _ _ _ hl]
      by_cases e : b = t
      · subst e
        rw [List.count_erase_self] at hsum
        simp only [if_true]
        omega
      · have e' : t ≠ b := fun h => e h.symm
        rw [List.count_erase_of_ne e'] at hsum
        simp only [e, if_false]
        omega
  | getNextRunnable k best s1 _ hg ih =>
    intro t
    have ht := ih t
    obtain ⟨l, hl, hb, rfl⟩ := Get_Next_Runnable_some _ _ _ hg
    have hc := runCount_erase k.sched.s_runQueue l best t hl hb
    rw [count_allQueued] at ht ⊢
    simp only
    omega
  | policy k p q rc s1 _ hp ih =>
    intro t
    have ht := ih t
    obtain ⟨e2, e3, hc⟩ := Chang_Scheduling_Policy_queues _ _ _ _ _ hp
    rw [count_allQueued] at ht ⊢
    simp only [e2, e3, hc t]
    exact ht
  | reap k kthread s1 _ hfree hr ih =>
    intro t
    have ht := ih t
    have hz : (allQueued k).count kthread = 0 := List.count_eq_zero.mpr hfree
    unfold Reap_Thread at hr
    simp only [Enqueue_Thread] at hr
    by_cases hm : kthread ∈ k.sched.s_graveyardQueue
    · simp [hm] at hr
    · simp only [hm, if_false, Wake_Up] at hr
      cases hl : Wake_Up_loop { k.sched with
          s_graveyardQueue := k.sched.s_graveyardQueue ++ [kthread] }
          k.sched.s_reaperWaitQueue with
      | none => simp [hl] at hr
      | some s2 =>
        simp only [hl, Option.some.injEq] at hr
        obtain ⟨e2, _, hc⟩ := Wake_Up_loop_some _ _ _ hl
        rw [count_allQueued] at hz ht ⊢
        simp only [← hr, e2, hc t, List.count_append, List.count_singleton, List.count_nil]
        by_cases e : kthread = t
        · rw [e] at hz
          simp only [e, beq_self_eq_true, if_true]
          omega
        · have e' : (kthread == t) = false := by simpa using e
          simp only [e', Bool.false_eq_true, if_false]
          omega
  | other k s1 _ e1 e2 e3 ih =>
    intro t
    have ht := ih t
    rw [count_allQueued] at ht ⊢
    simp only [e1, e2, e3]
    exact ht


/-- Witness for C24 as amended: after `Init_Scheduler` the main thread, which is
on no queue, waits on an empty wait queue. -/
theorem queue_membership_invariant_witness :
    QueueReachable waitExample ∧ (allQueued waitExample).Nodup :=
  ⟨QueueReachable.wait ⟨bootedScheduler, List.replicate 1 []⟩ 0 0 _ _
      (QueueReachable.init 0 (some 1) (some 2) bootedScheduler 1 rfl) (by decide) (by decide) rfl,
    queue_membership_invariant waitExample
      (QueueReachable.wait ⟨bootedScheduler, List.replicate 1 []⟩ 0 0 _ _
        (QueueReachable.init 0 (some 1) (some 2) bootedScheduler 1 rfl) (by decide) (by decide)
        rfl)⟩

/-- C24 as stated fails: after `Init_Scheduler` (main thread 0 current, idle
thread 1 and reaper 2 on run queue 0), `Make_Runnable` on the current thread
followed by `Wait` on an empty wait queue leaves thread 0 on run queue 0 and on
the wait queue, also after `Get_Next_Runnable` has taken thread 1 off the run
queue.  Thread 0 is the last of run queue 0 when it is appended to the wait
queue, so both queues read from the head on are as the lists give them.  The
queue functions assert only that a thread is not yet on the queue it is
appended to. -/
theorem thread_on_two_queues :
    ((Init_Scheduler bootScheduler 0 (some 1) (some 2)).bind (fun s =>
      (Make_Runnable s 0).bind (fun s1 =>
        (Wait 0 s1 []).map (fun r => (s.g_currentThread, allQueued ⟨r.1, [r.2]⟩)))))
      = some (0, [1, 2, 0, 0]) ∧
    ((Init_Scheduler bootScheduler 0 (some 1) (some 2)).bind (fun s =>
      (Make_Runnable s 0).bind (fun s1 =>
        (Wait 0 s1 []).bind (fun r =>
          (Get_Next_Runnable r.1).map (fun g => (g.1, allQueued ⟨g.2, [r.2]⟩))))))
      = some (1, [2, 0, 0]) ∧
    ¬ [1, 2, 0, 0].Nodup ∧ ¬ [2, 0, 0].Nodup := by
  decide

end GeekOS
